import Mathlib

/-!
# Verification development for `mobility.cpp`

A shallow embedding of the rover mobility node (`src/mobility/src/mobility.cpp`):
the pose registry filled by `poseHandler`, the flocking blend it computes, and the
control tick `mobilityStateMachine`.

* `std::string` values are lists of characters (`Str`, one character for one byte);
  the member functions used by the node (`find`, `substr`, `erase`, `std::remove`,
  `c_str`) are modelled on lists, with `npos` and the `int`/`size_t` conversions made
  explicit.
* Floating-point arithmetic and the C library calls (`cos`, `sin`, `sqrt`, `atan2`,
  `strtof`) are a parameter `FloatOps F` of every numeric definition, so that the
  embedded code stays executable.  `realOps` is the idealised instance the numeric
  theorems use: real numbers without rounding, together with the single non-real
  value NaN that the node can produce by dividing zero by zero.
-/

namespace Mobility

/-! ## Strings -/

/-- A `std::string`, as the list of its characters. -/
abbrev Str := List Char

/-- The value of `std::string::npos` (`size_t` is 64 bits wide). -/
def npos : Nat := 2 ^ 64 - 1

/-- The result of `s.find(c)` for a one-character pattern `c` (both patterns used by
the node, `" "` and `","`, are one character long): the position of the first
occurrence, or `npos`. -/
def find (s : Str) (c : Char) : Nat :=
  if s.indexOf c < s.length then s.indexOf c else npos

/-- The result of `s.substr(pos, n)`: at most `n` characters starting at `pos`. -/
def substr (s : Str) (pos n : Nat) : Str := (s.drop pos).take n

/-- The effect of `s.erase(pos, n)`: removes `min(n, size - pos)` characters at `pos`. -/
def erase (s : Str) (pos n : Nat) : Str := s.take pos ++ s.drop (pos + min n (s.length - pos))

/-- Conversion of a `size_t` to `int` (the low 32 bits, read as two's complement), as
in `int pos = msg.find(delimiter)`. -/
def toInt (n : Nat) : Int :=
  if n % 2 ^ 32 < 2 ^ 31 then ((n % 2 ^ 32 : Nat) : Int) else ((n % 2 ^ 32 : Nat) : Int) - 2 ^ 32

/-- Conversion of an `int` to `size_t` (value modulo `2^64`). -/
def toSizeT (i : Int) : Nat := (i % 2 ^ 64).toNat

/-- The sum `pos + delimiter.length()` of an `int` and a `size_t`, computed in `size_t`. -/
def addSizeT (pos : Int) (len : Nat) : Nat := (toSizeT pos + len) % 2 ^ 64

/-- The text `data.c_str()` stands for: the characters before the first NUL. -/
def cStr (data : Str) : Str := data.takeWhile (fun c => c != '\x00')

/-- The characters listed in `remove_char`, in the order of the array. -/
def remove_char : Str := "()abcdefghijklmnopqrstuvwxyzABCDEFGHIJKLMNOPQRSTUVWXYZ ".toList

/-- The loop `for i < strlen(remove_char)`: each pass erases every occurrence of
`remove_char[i]` from the message (`std::remove` followed by `erase`). -/
def stripChars (msg : Str) : Str :=
  remove_char.foldl (fun m c => m.filter (fun d => d != c)) msg

/-! ## The registry `rover_data[6][4]` -/

/-- The array `string rover_data[6][4]`: for each of six slots the texts of the name
(column 0), x (column 1), y (column 2) and theta (column 3). -/
abbrev Registry := Fin 6 → Fin 4 → Str

/-- The assignment `rover_data[i][k] = v`. -/
def setField (rd : Registry) (i : Fin 6) (k : Fin 4) (v : Str) : Registry :=
  Function.update rd i (Function.update (rd i) k v)

/-- The registry at program start: every text is the empty string. -/
def emptyRegistry : Registry := fun _ _ => []

/-- The slot indices `0 ≤ i < n_o_r` visited by the selection loop, in order.  The array
has six rows and `n_o_r` is 6 at load time and 3 after `main`; for a larger `n_o_r`
the C++ loop would read past the array, which is not represented. -/
def loopIndices (n_o_r : Nat) : List (Fin 6) :=
  (List.finRange 6).filter (fun i => i.val < n_o_r)

/-- The selection loop of `poseHandler` over the indices still to visit: the first slot
whose name is empty is given the name and selected, the first slot whose name equals
`name` is selected; when the loop runs out, `index` keeps its initial value 0. -/
def slotLoop (name : Str) (rd : Registry) : List (Fin 6) → Registry × Fin 6
  | [] => (rd, 0)
  | i :: rest =>
    if rd i 0 = [] then (setField rd i 0 name, i)
    else if rd i 0 = name then (rd, i)
    else slotLoop name rd rest

/-- The identity token `msg.substr(0, msg.find(" "))`. -/
def nameOf (msg : Str) : Str := substr msg 0 (find msg ' ')

/-- One round of `pos = msg.find(delimiter); num = msg.substr(0, pos);
msg.erase(0, pos + delimiter.length())`: the field text and the rest of the message. -/
def splitField (msg : Str) : Str × Str :=
  let pos : Int := toInt (find msg ',')
  (substr msg 0 (toSizeT pos), erase msg 0 (addSizeT pos 1))

/-- The registry part of `poseHandler` (source lines 343-392): the updated registry and
the selected `index`. -/
def updateRegistry (n_o_r : Nat) (rd : Registry) (msg : Str) : Registry × Fin 6 :=
  let name := nameOf msg
  let sel := slotLoop name rd (loopIndices n_o_r)
  let rd1 := sel.1
  let index := sel.2
  let msg1 := stripChars msg
  let fx := splitField msg1
  let rd2 := setField rd1 index 1 fx.1
  let fy := splitField fx.2
  let rd3 := setField rd2 index 2 fy.1
  let rd4 := setField rd3 index 3 fy.2
  (rd4, index)

/-! ## Floating point -/

/-- The floating-point operations and C library functions the node calls.  They are a
parameter of the embedding: `lit` turns a decimal literal or an `int` into a float,
`le` is the comparison `<=`, `atan2 y x` takes its arguments in the order of the C
function, and `strtof` reads the numeral at the start of a text. -/
structure FloatOps (F : Type) where
  lit : ℚ → F
  add : F → F → F
  sub : F → F → F
  mul : F → F → F
  div : F → F → F
  neg : F → F
  le : F → F → Bool
  sqrt : F → F
  cos : F → F
  sin : F → F
  atan2 : F → F → F
  strtof : Str → F

/-- The characters `isspace` accepts. -/
def isSpaceChar (c : Char) : Bool :=
  c = ' ' || c = '\t' || c = '\n' || c = '\x0b' || c = '\x0c' || c = '\r'

/-- The value of a run of decimal digits. -/
def digitsVal (ds : Str) : Nat := ds.foldl (fun n c => 10 * n + (c.toNat - 48)) 0

/-- The decimal exponent `[eE][+-]?digits` at the start of `s`; 0 when there is none. -/
def exponentOf (s : Str) : Int :=
  match s with
  | [] => 0
  | e :: t =>
    if e = 'e' ∨ e = 'E' then
      let neg := t.head? = some '-'
      let t1 := match t with
        | '-' :: r => r
        | '+' :: r => r
        | _ => t
      let ds := t1.takeWhile Char.isDigit
      if neg then - (digitsVal ds : Int) else (digitsVal ds : Int)
    else 0

/-- The decimal numeral that the C function `strtof` reads at the start of `s`, as a
pair `(m, e)` standing for `m * 10^e`: leading white space, an optional sign, digits
with an optional point, an optional exponent; `(0, 0)` when no digit is found (this
covers the empty text of a slot that was never written).  Hexadecimal numerals and
the words `inf` and `nan` are not modelled: they need a letter, and `poseHandler`
strips every letter from what it stores. -/
def strtofDec (s : Str) : Int × Int :=
  let s1 := s.dropWhile isSpaceChar
  let neg := s1.head? = some '-'
  let s2 := match s1 with
    | '-' :: r => r
    | '+' :: r => r
    | _ => s1
  let ip := s2.takeWhile Char.isDigit
  let r := s2.dropWhile Char.isDigit
  let fp := match r with
    | '.' :: t => t.takeWhile Char.isDigit
    | _ => []
  let r2 := match r with
    | '.' :: t => t.dropWhile Char.isDigit
    | _ => r
  if ip.isEmpty && fp.isEmpty then (0, 0) else
  let mant : Int := digitsVal (ip ++ fp)
  (if neg then -mant else mant, exponentOf r2 - fp.length)

/-- A float of the idealised arithmetic: a real number, or `none` for NaN. -/
abbrev RealNaN := Option ℝ

/-- Lifts a binary real operation; NaN operands give NaN. -/
def lift2 (f : ℝ → ℝ → ℝ) (a b : RealNaN) : RealNaN :=
  match a, b with
  | some x, some y => some (f x y)
  | _, _ => none

/-- The idealised arithmetic: exact real operations (no rounding, no overflow, no
signed zero) and NaN.  Division by zero gives NaN: the only divisor of the node that
can be zero is a norm `sqrt(a*a + b*b)`, which is zero only when `a` and `b` are, so
the one case that arises is `0/0`.  `atan2 y x` is the argument of the complex number
`x + y i`, with `atan2 0 0 = 0` as in C; as there is no signed zero, `atan2 0 x` is pi
for every negative `x`, where the C function gives -pi when the first argument is
`-0.0`.  Comparisons with NaN are false. -/
noncomputable def realOps : FloatOps RealNaN where
  lit q := some (q : ℝ)
  add := lift2 (fun x y => x + y)
  sub := lift2 (fun x y => x - y)
  mul := lift2 (fun x y => x * y)
  div a b :=
    match a, b with
    | some x, some y => if y = 0 then none else some (x / y)
    | _, _ => none
  neg a := a.map (fun x => -x)
  le a b :=
    match a, b with
    | some x, some y => decide (x ≤ y)
    | _, _ => false
  sqrt a :=
    match a with
    | some x => if x < 0 then none else some (Real.sqrt x)
    | none => none
  cos a := a.map Real.cos
  sin a := a.map Real.sin
  atan2 := lift2 (fun y x => Complex.arg ⟨x, y⟩)
  strtof s := some (((strtofDec s).1 : ℝ) * (10 : ℝ) ^ (strtofDec s).2)

/-- The real number a text stands for when `strtof` of `realOps` reads it. -/
noncomputable def numVal (s : Str) : ℝ := ((strtofDec s).1 : ℝ) * (10 : ℝ) ^ (strtofDec s).2

/-! ## Program state and outputs -/

/-- Modelled from the spec: the struct `pose` of `Pose.h`, which is not among the
sources; it holds the fields `x`, `y` and `theta` the node reads and writes. -/
structure Pose (F : Type) where
  x : F
  y : F
  theta : F

/-- The global variables of the node. -/
structure State (F : Type) where
  rover_name : Str
  simulation_mode : Int
  current_location : Pose F
  transitions_to_auto : Int
  time_stamp_transition_to_auto : F
  n_o_r : Nat
  rover_data : Registry
  glob_average : F
  local_average : F
  local_average_position : F
  combined_theta : F
  state_machine_state : Int

/-- What a handler sends out, in the order of the calls.  Messages whose text contains
a printed float are kept as data: `globalAverageHeading v` stands for the text
`Global Average Theta = ` followed by `v`, and `localAverageHeading name n combine v`
for `name`, ` with `, `n`, ` neighbors with `, then `Combine Theta = ` (fleet of 6,
`combine = true`) or `Local Average Theta = ` (fleet of 3), then `v`. -/
inductive Effect (F : Type) where
  | killSwitchTimerStop : Effect F
  | killSwitchTimerStart : Effect F
  | velocityPublish (linear_x angular_z : F) : Effect F
  | posePublish (data : Str) : Effect F
  | stateMachinePublish (data : Str) : Effect F
  | globalAverageHeading (glob_average : F) : Effect F
  | localAverageHeading (rover_name : Str) (num_neighbors : Int) (combine : Bool) (value : F) :
      Effect F
  | shutdown : Effect F

/-- The state at load time (the initialisers of the globals) for a rover called
`rover_name` whose `current_location` is `loc`; the fleet size, 6 at load time and 3
once `main` has run, is given explicitly. -/
def initialState {F : Type} (M : FloatOps F) (rover_name : Str) (loc : Pose F) (n_o_r : Nat) :
    State F where
  rover_name := rover_name
  simulation_mode := 0
  current_location := loc
  transitions_to_auto := 0
  time_stamp_transition_to_auto := M.lit 0
  n_o_r := n_o_r
  rover_data := emptyRegistry
  glob_average := M.lit 0
  local_average := M.lit 0
  local_average_position := M.lit 0
  combined_theta := M.lit 0
  state_machine_state := 0

/-! ## `poseHandler`: averages and blend -/

section Blend

variable {F : Type} (M : FloatOps F)

/-- The pair `u[0] = cos theta`, `u[1] = sin theta` computed from the theta text of
slot `k` (the source names them `u1` ... `u6` for slots 0 ... 5). -/
def unitVec (rd : Registry) (k : Fin 6) : F × F :=
  (M.cos (M.strtof (rd k 3)), M.sin (M.strtof (rd k 3)))

/-- The global average for a fleet of 3 (lines 407-420): `g_avg[0]` is the mean of the
sines, `g_avg[1]` the mean of the cosines, and the result is `atan2(g_avg[1], g_avg[0])`. -/
def globAverage3 (rd : Registry) : F :=
  let u1 := unitVec M rd 0
  let u2 := unitVec M rd 1
  let u3 := unitVec M rd 2
  let g0 := M.div (M.add (M.add u1.2 u2.2) u3.2) (M.lit 3)
  let g1 := M.div (M.add (M.add u1.1 u2.1) u3.1) (M.lit 3)
  M.atan2 g1 g0

/-- The global average for a fleet of 6 (lines 429-450). -/
def globAverage6 (rd : Registry) : F :=
  let u1 := unitVec M rd 0
  let u2 := unitVec M rd 1
  let u3 := unitVec M rd 2
  let u4 := unitVec M rd 3
  let u5 := unitVec M rd 4
  let u6 := unitVec M rd 5
  let g0 := M.div (M.add (M.add (M.add (M.add (M.add u1.2 u2.2) u3.2) u4.2) u5.2) u6.2) (M.lit 6)
  let g1 := M.div (M.add (M.add (M.add (M.add (M.add u1.1 u2.1) u3.1) u4.1) u5.1) u6.1) (M.lit 6)
  M.atan2 g1 g0

/-- The difference `xdif` (column 1) or `ydif` (column 2) between slots `self` and `peer`. -/
def coordDif (rd : Registry) (self peer : Fin 6) (k : Fin 4) : F :=
  M.sub (M.strtof (rd self k)) (M.strtof (rd peer k))

/-- The distance `sqrt(xdif*xdif + ydif*ydif)` between slots `self` and `peer`. -/
def distance (rd : Registry) (self peer : Fin 6) : F :=
  let xdif := coordDif M rd self peer 1
  let ydif := coordDif M rd self peer 2
  M.sqrt (M.add (M.mul xdif xdif) (M.mul ydif ydif))

/-- The mean `atan2((a[0] + b[0]) / 2, (a[1] + b[1]) / 2)` of two heading vectors, with
the sines in `g_avg[0]` and the cosines in `g_avg[1]` as in the source. -/
def pairAverage (a b : F × F) : F :=
  let g0 := M.div (M.add a.2 b.2) (M.lit 2)
  let g1 := M.div (M.add a.1 b.1) (M.lit 2)
  M.atan2 g1 g0

/-- One index branch of the fleet-of-3 local average (lines 473-624): `p` and `q` are
the slots compared as `d12` and `d13`; `a12`, `b12` are the slots averaged when only
`d12` is within range, `a13`, `b13` those averaged when only `d13` is.  The result is
`num_neighbors` and the branch's `local_average`. -/
def localAverage3Branch (rd : Registry) (self p q a12 b12 a13 b13 : Fin 6) : Int × F :=
  let contained_d12 := M.le (distance M rd self p) (M.lit 2)
  let contained_d13 := M.le (distance M rd self q) (M.lit 2)
  let num_neighbors : Int := (if contained_d12 then 1 else 0) + (if contained_d13 then 1 else 0)
  let local_average :=
    if contained_d12 && contained_d13 then globAverage3 M rd
    else if contained_d12 then pairAverage M (unitVec M rd a12) (unitVec M rd b12)
    else if contained_d13 then pairAverage M (unitVec M rd a13) (unitVec M rd b13)
    else M.lit 0
  (num_neighbors, local_average)

/-- The three index branches for a fleet of 3, with the slots each one names. -/
def localAverage3 (rd : Registry) (index : Fin 6) : Int × F :=
  if index = 0 then localAverage3Branch M rd 0 1 2 0 1 0 2
  else if index = 1 then localAverage3Branch M rd 1 0 2 0 1 0 2
  else localAverage3Branch M rd 2 0 1 0 2 1 2

/-- The running sums of one fleet-of-6 branch: `g_avg`, `loc_positions`, `seperation`
(each as the pair of its elements 0 and 1) and `num_neighbors`. -/
structure BlendAcc (F : Type) where
  g_avg : F × F
  loc_positions : F × F
  seperation : F × F
  num_neighbors : Int

/-- The block a fleet-of-6 branch runs for one peer (for instance lines 645-664): when
the peer is within distance 2 its heading vector and displacement are added and the
count is incremented, and when it is also within `sep_distance = 1.0` the displacement
is added to `seperation`. -/
def peerStep (rd : Registry) (self : Fin 6) (acc : BlendAcc F) (peer : Fin 6) : BlendAcc F :=
  let xdif := coordDif M rd self peer 1
  let ydif := coordDif M rd self peer 2
  let d := M.sqrt (M.add (M.mul xdif xdif) (M.mul ydif ydif))
  if M.le d (M.lit 2) then
    { g_avg := (M.add acc.g_avg.1 (unitVec M rd peer).2, M.add acc.g_avg.2 (unitVec M rd peer).1)
      loc_positions := (M.add acc.loc_positions.1 xdif, M.add acc.loc_positions.2 ydif)
      seperation :=
        if M.le d (M.lit 1) then (M.add acc.seperation.1 xdif, M.add acc.seperation.2 ydif)
        else acc.seperation
      num_neighbors := acc.num_neighbors + 1 }
  else acc

/-- The sums a fleet-of-6 branch starts from (lines 630-643): `g_avg[0] = u[1]` and
`g_avg[1] = u[0]` of the slot itself, zero sums and `num_neighbors = 1`. -/
def blendStart (rd : Registry) (self : Fin 6) : BlendAcc F :=
  { g_avg := ((unitVec M rd self).2, (unitVec M rd self).1)
    loc_positions := (M.lit 0, M.lit 0)
    seperation := (M.lit 0, M.lit 0)
    num_neighbors := 1 }

/-- The peers each fleet-of-6 branch visits, in the order of its five blocks. -/
def peersOf (index : Fin 6) : List (Fin 6) :=
  if index = 0 then [1, 2, 3, 4, 5]
  else if index = 1 then [0, 2, 3, 4, 5]
  else if index = 2 then [0, 1, 3, 4, 5]
  else if index = 3 then [0, 1, 2, 4, 5]
  else if index = 4 then [0, 1, 2, 3, 5]
  else [0, 1, 2, 3, 4]

/-- The sums of the branch for `index` after its five peer blocks. -/
def blendSums (rd : Registry) (index : Fin 6) : BlendAcc F :=
  (peersOf index).foldl (peerStep M rd index) (blendStart M rd index)

/-- What a fleet-of-6 branch leaves behind. -/
structure BlendOut (F : Type) where
  num_neighbors : Int
  local_average : F
  combined_theta : F
  local_average_position : F

/-- The end of a fleet-of-6 branch (for instance lines 750-777): the mean heading and
`local_average`, then the three normalisations with `align_weight = 0.0`,
`coh_weight = 0.0` and `sep_weight = 0.5`, then `combined_theta` and
`local_average_position`. -/
def blendFinish (acc : BlendAcc F) : BlendOut F :=
  let g : F × F :=
    if acc.num_neighbors = 1 then acc.g_avg
    else (M.div acc.g_avg.1 (M.lit acc.num_neighbors), M.div acc.g_avg.2 (M.lit acc.num_neighbors))
  let local_average := if acc.num_neighbors = 1 then M.lit 0 else M.atan2 g.2 g.1
  let norm := M.sqrt (M.add (M.mul g.1 g.1) (M.mul g.2 g.2))
  let g0 := M.mul (M.div g.1 norm) (M.lit 0)
  let g1 := M.mul (M.div g.2 norm) (M.lit 0)
  let normL := M.sqrt (M.add (M.mul acc.loc_positions.1 acc.loc_positions.1)
    (M.mul acc.loc_positions.2 acc.loc_positions.2))
  let l0 := M.mul (M.div (M.neg acc.loc_positions.1) normL) (M.lit 0)
  let l1 := M.mul (M.div (M.neg acc.loc_positions.2) normL) (M.lit 0)
  let normS := M.sqrt (M.add (M.mul acc.seperation.1 acc.seperation.1)
    (M.mul acc.seperation.2 acc.seperation.2))
  let s0 := M.mul (M.div (M.neg acc.seperation.1) normS) (M.lit (1 / 2))
  let s1 := M.mul (M.div (M.neg acc.seperation.2) normS) (M.lit (1 / 2))
  { num_neighbors := acc.num_neighbors
    local_average := local_average
    combined_theta := M.atan2 (M.add (M.add g1 l1) s1) (M.add (M.add g0 l0) s0)
    local_average_position := M.atan2 l1 l0 }

/-- The branch `index == 0` of the fleet of 6 (lines 640-782), statement by
statement, from the start values of lines 630-637.  Each `s` is the tuple of `g_avg`,
`loc_positions`, `seperation` and `num_neighbors` after one peer block; the flags
`contained_d1k`, which this branch sets and never reads, are left out. -/
def branchIndex0 (rd : Registry) : BlendOut F :=
  let s0 : BlendAcc F :=
    { g_avg := ((unitVec M rd 0).2, (unitVec M rd 0).1)
      loc_positions := (M.lit 0, M.lit 0)
      seperation := (M.lit 0, M.lit 0)
      num_neighbors := 1 }
  let xdif := M.sub (M.strtof (rd 0 1)) (M.strtof (rd 1 1))
  let ydif := M.sub (M.strtof (rd 0 2)) (M.strtof (rd 1 2))
  let d12 := M.sqrt (M.add (M.mul xdif xdif) (M.mul ydif ydif))
  let s1 : BlendAcc F :=
    if M.le d12 (M.lit 2) then
      { g_avg := (M.add s0.g_avg.1 (unitVec M rd 1).2,
          M.add s0.g_avg.2 (unitVec M rd 1).1)
        loc_positions := (M.add s0.loc_positions.1 xdif, M.add s0.loc_positions.2 ydif)
        seperation :=
          if M.le d12 (M.lit 1) then (M.add s0.seperation.1 xdif, M.add s0.seperation.2 ydif)
          else s0.seperation
        num_neighbors := s0.num_neighbors + 1 }
    else s0
  let xdif := M.sub (M.strtof (rd 0 1)) (M.strtof (rd 2 1))
  let ydif := M.sub (M.strtof (rd 0 2)) (M.strtof (rd 2 2))
  let d13 := M.sqrt (M.add (M.mul xdif xdif) (M.mul ydif ydif))
  let s2 : BlendAcc F :=
    if M.le d13 (M.lit 2) then
      { g_avg := (M.add s1.g_avg.1 (unitVec M rd 2).2,
          M.add s1.g_avg.2 (unitVec M rd 2).1)
        loc_positions := (M.add s1.loc_positions.1 xdif, M.add s1.loc_positions.2 ydif)
        seperation :=
          if M.le d13 (M.lit 1) then (M.add s1.seperation.1 xdif, M.add s1.seperation.2 ydif)
          else s1.seperation
        num_neighbors := s1.num_neighbors + 1 }
    else s1
  let xdif := M.sub (M.strtof (rd 0 1)) (M.strtof (rd 3 1))
  let ydif := M.sub (M.strtof (rd 0 2)) (M.strtof (rd 3 2))
  let d14 := M.sqrt (M.add (M.mul xdif xdif) (M.mul ydif ydif))
  let s3 : BlendAcc F :=
    if M.le d14 (M.lit 2) then
      { g_avg := (M.add s2.g_avg.1 (unitVec M rd 3).2,
          M.add s2.g_avg.2 (unitVec M rd 3).1)
        loc_positions := (M.add s2.loc_positions.1 xdif, M.add s2.loc_positions.2 ydif)
        seperation :=
          if M.le d14 (M.lit 1) then (M.add s2.seperation.1 xdif, M.add s2.seperation.2 ydif)
          else s2.seperation
        num_neighbors := s2.num_neighbors + 1 }
    else s2
  let xdif := M.sub (M.strtof (rd 0 1)) (M.strtof (rd 4 1))
  let ydif := M.sub (M.strtof (rd 0 2)) (M.strtof (rd 4 2))
  let d15 := M.sqrt (M.add (M.mul xdif xdif) (M.mul ydif ydif))
  let s4 : BlendAcc F :=
    if M.le d15 (M.lit 2) then
      { g_avg := (M.add s3.g_avg.1 (unitVec M rd 4).2,
          M.add s3.g_avg.2 (unitVec M rd 4).1)
        loc_positions := (M.add s3.loc_positions.1 xdif, M.add s3.loc_positions.2 ydif)
        seperation :=
          if M.le d15 (M.lit 1) then (M.add s3.seperation.1 xdif, M.add s3.seperation.2 ydif)
          else s3.seperation
        num_neighbors := s3.num_neighbors + 1 }
    else s3
  let xdif := M.sub (M.strtof (rd 0 1)) (M.strtof (rd 5 1))
  let ydif := M.sub (M.strtof (rd 0 2)) (M.strtof (rd 5 2))
  let d16 := M.sqrt (M.add (M.mul xdif xdif) (M.mul ydif ydif))
  let s5 : BlendAcc F :=
    if M.le d16 (M.lit 2) then
      { g_avg := (M.add s4.g_avg.1 (unitVec M rd 5).2,
          M.add s4.g_avg.2 (unitVec M rd 5).1)
        loc_positions := (M.add s4.loc_positions.1 xdif, M.add s4.loc_positions.2 ydif)
        seperation :=
          if M.le d16 (M.lit 1) then (M.add s4.seperation.1 xdif, M.add s4.seperation.2 ydif)
          else s4.seperation
        num_neighbors := s4.num_neighbors + 1 }
    else s4
  let g_avg : F × F :=
    if s5.num_neighbors = 1 then s5.g_avg
    else (M.div s5.g_avg.1 (M.lit s5.num_neighbors), M.div s5.g_avg.2 (M.lit s5.num_neighbors))
  let local_average := if s5.num_neighbors = 1 then M.lit 0 else M.atan2 g_avg.2 g_avg.1
  let norm := M.sqrt (M.add (M.mul g_avg.1 g_avg.1) (M.mul g_avg.2 g_avg.2))
  let g0 := M.mul (M.div g_avg.1 norm) (M.lit 0)
  let g1 := M.mul (M.div g_avg.2 norm) (M.lit 0)
  let normL := M.sqrt (M.add (M.mul s5.loc_positions.1 s5.loc_positions.1)
    (M.mul s5.loc_positions.2 s5.loc_positions.2))
  let l0 := M.mul (M.div (M.neg s5.loc_positions.1) normL) (M.lit 0)
  let l1 := M.mul (M.div (M.neg s5.loc_positions.2) normL) (M.lit 0)
  let normS := M.sqrt (M.add (M.mul s5.seperation.1 s5.seperation.1)
    (M.mul s5.seperation.2 s5.seperation.2))
  let s0x := M.mul (M.div (M.neg s5.seperation.1) normS) (M.lit (1 / 2))
  let s1y := M.mul (M.div (M.neg s5.seperation.2) normS) (M.lit (1 / 2))
  { num_neighbors := s5.num_neighbors
    local_average := local_average
    combined_theta := M.atan2 (M.add (M.add g1 l1) s1y) (M.add (M.add g0 l0) s0x)
    local_average_position := M.atan2 l1 l0 }

/-- The branch `index == 1` of the fleet of 6 (lines 783-925), statement by
statement, from the start values of lines 630-637.  Each `s` is the tuple of `g_avg`,
`loc_positions`, `seperation` and `num_neighbors` after one peer block; the flags
`contained_d1k`, which this branch sets and never reads, are left out. -/
def branchIndex1 (rd : Registry) : BlendOut F :=
  let s0 : BlendAcc F :=
    { g_avg := ((unitVec M rd 1).2, (unitVec M rd 1).1)
      loc_positions := (M.lit 0, M.lit 0)
      seperation := (M.lit 0, M.lit 0)
      num_neighbors := 1 }
  let xdif := M.sub (M.strtof (rd 1 1)) (M.strtof (rd 0 1))
  let ydif := M.sub (M.strtof (rd 1 2)) (M.strtof (rd 0 2))
  let d12 := M.sqrt (M.add (M.mul xdif xdif) (M.mul ydif ydif))
  let s1 : BlendAcc F :=
    if M.le d12 (M.lit 2) then
      { g_avg := (M.add s0.g_avg.1 (unitVec M rd 0).2,
          M.add s0.g_avg.2 (unitVec M rd 0).1)
        loc_positions := (M.add s0.loc_positions.1 xdif, M.add s0.loc_positions.2 ydif)
        seperation :=
          if M.le d12 (M.lit 1) then (M.add s0.seperation.1 xdif, M.add s0.seperation.2 ydif)
          else s0.seperation
        num_neighbors := s0.num_neighbors + 1 }
    else s0
  let xdif := M.sub (M.strtof (rd 1 1)) (M.strtof (rd 2 1))
  let ydif := M.sub (M.strtof (rd 1 2)) (M.strtof (rd 2 2))
  let d13 := M.sqrt (M.add (M.mul xdif xdif) (M.mul ydif ydif))
  let s2 : BlendAcc F :=
    if M.le d13 (M.lit 2) then
      { g_avg := (M.add s1.g_avg.1 (unitVec M rd 2).2,
          M.add s1.g_avg.2 (unitVec M rd 2).1)
        loc_positions := (M.add s1.loc_positions.1 xdif, M.add s1.loc_positions.2 ydif)
        seperation :=
          if M.le d13 (M.lit 1) then (M.add s1.seperation.1 xdif, M.add s1.seperation.2 ydif)
          else s1.seperation
        num_neighbors := s1.num_neighbors + 1 }
    else s1
  let xdif := M.sub (M.strtof (rd 1 1)) (M.strtof (rd 3 1))
  let ydif := M.sub (M.strtof (rd 1 2)) (M.strtof (rd 3 2))
  let d14 := M.sqrt (M.add (M.mul xdif xdif) (M.mul ydif ydif))
  let s3 : BlendAcc F :=
    if M.le d14 (M.lit 2) then
      { g_avg := (M.add s2.g_avg.1 (unitVec M rd 3).2,
          M.add s2.g_avg.2 (unitVec M rd 3).1)
        loc_positions := (M.add s2.loc_positions.1 xdif, M.add s2.loc_positions.2 ydif)
        seperation :=
          if M.le d14 (M.lit 1) then (M.add s2.seperation.1 xdif, M.add s2.seperation.2 ydif)
          else s2.seperation
        num_neighbors := s2.num_neighbors + 1 }
    else s2
  let xdif := M.sub (M.strtof (rd 1 1)) (M.strtof (rd 4 1))
  let ydif := M.sub (M.strtof (rd 1 2)) (M.strtof (rd 4 2))
  let d15 := M.sqrt (M.add (M.mul xdif xdif) (M.mul ydif ydif))
  let s4 : BlendAcc F :=
    if M.le d15 (M.lit 2) then
      { g_avg := (M.add s3.g_avg.1 (unitVec M rd 4).2,
          M.add s3.g_avg.2 (unitVec M rd 4).1)
        loc_positions := (M.add s3.loc_positions.1 xdif, M.add s3.loc_positions.2 ydif)
        seperation :=
          if M.le d15 (M.lit 1) then (M.add s3.seperation.1 xdif, M.add s3.seperation.2 ydif)
          else s3.seperation
        num_neighbors := s3.num_neighbors + 1 }
    else s3
  let xdif := M.sub (M.strtof (rd 1 1)) (M.strtof (rd 5 1))
  let ydif := M.sub (M.strtof (rd 1 2)) (M.strtof (rd 5 2))
  let d16 := M.sqrt (M.add (M.mul xdif xdif) (M.mul ydif ydif))
  let s5 : BlendAcc F :=
    if M.le d16 (M.lit 2) then
      { g_avg := (M.add s4.g_avg.1 (unitVec M rd 5).2,
          M.add s4.g_avg.2 (unitVec M rd 5).1)
        loc_positions := (M.add s4.loc_positions.1 xdif, M.add s4.loc_positions.2 ydif)
        seperation :=
          if M.le d16 (M.lit 1) then (M.add s4.seperation.1 xdif, M.add s4.seperation.2 ydif)
          else s4.seperation
        num_neighbors := s4.num_neighbors + 1 }
    else s4
  let g_avg : F × F :=
    if s5.num_neighbors = 1 then s5.g_avg
    else (M.div s5.g_avg.1 (M.lit s5.num_neighbors), M.div s5.g_avg.2 (M.lit s5.num_neighbors))
  let local_average := if s5.num_neighbors = 1 then M.lit 0 else M.atan2 g_avg.2 g_avg.1
  let norm := M.sqrt (M.add (M.mul g_avg.1 g_avg.1) (M.mul g_avg.2 g_avg.2))
  let g0 := M.mul (M.div g_avg.1 norm) (M.lit 0)
  let g1 := M.mul (M.div g_avg.2 norm) (M.lit 0)
  let normL := M.sqrt (M.add (M.mul s5.loc_positions.1 s5.loc_positions.1)
    (M.mul s5.loc_positions.2 s5.loc_positions.2))
  let l0 := M.mul (M.div (M.neg s5.loc_positions.1) normL) (M.lit 0)
  let l1 := M.mul (M.div (M.neg s5.loc_positions.2) normL) (M.lit 0)
  let normS := M.sqrt (M.add (M.mul s5.seperation.1 s5.seperation.1)
    (M.mul s5.seperation.2 s5.seperation.2))
  let s0x := M.mul (M.div (M.neg s5.seperation.1) normS) (M.lit (1 / 2))
  let s1y := M.mul (M.div (M.neg s5.seperation.2) normS) (M.lit (1 / 2))
  { num_neighbors := s5.num_neighbors
    local_average := local_average
    combined_theta := M.atan2 (M.add (M.add g1 l1) s1y) (M.add (M.add g0 l0) s0x)
    local_average_position := M.atan2 l1 l0 }

/-- The branch `index == 2` of the fleet of 6 (lines 926-1068), statement by
statement, from the start values of lines 630-637.  Each `s` is the tuple of `g_avg`,
`loc_positions`, `seperation` and `num_neighbors` after one peer block; the flags
`contained_d1k`, which this branch sets and never reads, are left out. -/
def branchIndex2 (rd : Registry) : BlendOut F :=
  let s0 : BlendAcc F :=
    { g_avg := ((unitVec M rd 2).2, (unitVec M rd 2).1)
      loc_positions := (M.lit 0, M.lit 0)
      seperation := (M.lit 0, M.lit 0)
      num_neighbors := 1 }
  let xdif := M.sub (M.strtof (rd 2 1)) (M.strtof (rd 0 1))
  let ydif := M.sub (M.strtof (rd 2 2)) (M.strtof (rd 0 2))
  let d12 := M.sqrt (M.add (M.mul xdif xdif) (M.mul ydif ydif))
  let s1 : BlendAcc F :=
    if M.le d12 (M.lit 2) then
      { g_avg := (M.add s0.g_avg.1 (unitVec M rd 0).2,
          M.add s0.g_avg.2 (unitVec M rd 0).1)
        loc_positions := (M.add s0.loc_positions.1 xdif, M.add s0.loc_positions.2 ydif)
        seperation :=
          if M.le d12 (M.lit 1) then (M.add s0.seperation.1 xdif, M.add s0.seperation.2 ydif)
          else s0.seperation
        num_neighbors := s0.num_neighbors + 1 }
    else s0
  let xdif := M.sub (M.strtof (rd 2 1)) (M.strtof (rd 1 1))
  let ydif := M.sub (M.strtof (rd 2 2)) (M.strtof (rd 1 2))
  let d13 := M.sqrt (M.add (M.mul xdif xdif) (M.mul ydif ydif))
  let s2 : BlendAcc F :=
    if M.le d13 (M.lit 2) then
      { g_avg := (M.add s1.g_avg.1 (unitVec M rd 1).2,
          M.add s1.g_avg.2 (unitVec M rd 1).1)
        loc_positions := (M.add s1.loc_positions.1 xdif, M.add s1.loc_positions.2 ydif)
        seperation :=
          if M.le d13 (M.lit 1) then (M.add s1.seperation.1 xdif, M.add s1.seperation.2 ydif)
          else s1.seperation
        num_neighbors := s1.num_neighbors + 1 }
    else s1
  let xdif := M.sub (M.strtof (rd 2 1)) (M.strtof (rd 3 1))
  let ydif := M.sub (M.strtof (rd 2 2)) (M.strtof (rd 3 2))
  let d14 := M.sqrt (M.add (M.mul xdif xdif) (M.mul ydif ydif))
  let s3 : BlendAcc F :=
    if M.le d14 (M.lit 2) then
      { g_avg := (M.add s2.g_avg.1 (unitVec M rd 3).2,
          M.add s2.g_avg.2 (unitVec M rd 3).1)
        loc_positions := (M.add s2.loc_positions.1 xdif, M.add s2.loc_positions.2 ydif)
        seperation :=
          if M.le d14 (M.lit 1) then (M.add s2.seperation.1 xdif, M.add s2.seperation.2 ydif)
          else s2.seperation
        num_neighbors := s2.num_neighbors + 1 }
    else s2
  let xdif := M.sub (M.strtof (rd 2 1)) (M.strtof (rd 4 1))
  let ydif := M.sub (M.strtof (rd 2 2)) (M.strtof (rd 4 2))
  let d15 := M.sqrt (M.add (M.mul xdif xdif) (M.mul ydif ydif))
  let s4 : BlendAcc F :=
    if M.le d15 (M.lit 2) then
      { g_avg := (M.add s3.g_avg.1 (unitVec M rd 4).2,
          M.add s3.g_avg.2 (unitVec M rd 4).1)
        loc_positions := (M.add s3.loc_positions.1 xdif, M.add s3.loc_positions.2 ydif)
        seperation :=
          if M.le d15 (M.lit 1) then (M.add s3.seperation.1 xdif, M.add s3.seperation.2 ydif)
          else s3.seperation
        num_neighbors := s3.num_neighbors + 1 }
    else s3
  let xdif := M.sub (M.strtof (rd 2 1)) (M.strtof (rd 5 1))
  let ydif := M.sub (M.strtof (rd 2 2)) (M.strtof (rd 5 2))
  let d16 := M.sqrt (M.add (M.mul xdif xdif) (M.mul ydif ydif))
  let s5 : BlendAcc F :=
    if M.le d16 (M.lit 2) then
      { g_avg := (M.add s4.g_avg.1 (unitVec M rd 5).2,
          M.add s4.g_avg.2 (unitVec M rd 5).1)
        loc_positions := (M.add s4.loc_positions.1 xdif, M.add s4.loc_positions.2 ydif)
        seperation :=
          if M.le d16 (M.lit 1) then (M.add s4.seperation.1 xdif, M.add s4.seperation.2 ydif)
          else s4.seperation
        num_neighbors := s4.num_neighbors + 1 }
    else s4
  let g_avg : F × F :=
    if s5.num_neighbors = 1 then s5.g_avg
    else (M.div s5.g_avg.1 (M.lit s5.num_neighbors), M.div s5.g_avg.2 (M.lit s5.num_neighbors))
  let local_average := if s5.num_neighbors = 1 then M.lit 0 else M.atan2 g_avg.2 g_avg.1
  let norm := M.sqrt (M.add (M.mul g_avg.1 g_avg.1) (M.mul g_avg.2 g_avg.2))
  let g0 := M.mul (M.div g_avg.1 norm) (M.lit 0)
  let g1 := M.mul (M.div g_avg.2 norm) (M.lit 0)
  let normL := M.sqrt (M.add (M.mul s5.loc_positions.1 s5.loc_positions.1)
    (M.mul s5.loc_positions.2 s5.loc_positions.2))
  let l0 := M.mul (M.div (M.neg s5.loc_positions.1) normL) (M.lit 0)
  let l1 := M.mul (M.div (M.neg s5.loc_positions.2) normL) (M.lit 0)
  let normS := M.sqrt (M.add (M.mul s5.seperation.1 s5.seperation.1)
    (M.mul s5.seperation.2 s5.seperation.2))
  let s0x := M.mul (M.div (M.neg s5.seperation.1) normS) (M.lit (1 / 2))
  let s1y := M.mul (M.div (M.neg s5.seperation.2) normS) (M.lit (1 / 2))
  { num_neighbors := s5.num_neighbors
    local_average := local_average
    combined_theta := M.atan2 (M.add (M.add g1 l1) s1y) (M.add (M.add g0 l0) s0x)
    local_average_position := M.atan2 l1 l0 }

/-- The branch `index == 3` of the fleet of 6 (lines 1069-1211), statement by
statement, from the start values of lines 630-637.  Each `s` is the tuple of `g_avg`,
`loc_positions`, `seperation` and `num_neighbors` after one peer block; the flags
`contained_d1k`, which this branch sets and never reads, are left out. -/
def branchIndex3 (rd : Registry) : BlendOut F :=
  let s0 : BlendAcc F :=
    { g_avg := ((unitVec M rd 3).2, (unitVec M rd 3).1)
      loc_positions := (M.lit 0, M.lit 0)
      seperation := (M.lit 0, M.lit 0)
      num_neighbors := 1 }
  let xdif := M.sub (M.strtof (rd 3 1)) (M.strtof (rd 0 1))
  let ydif := M.sub (M.strtof (rd 3 2)) (M.strtof (rd 0 2))
  let d12 := M.sqrt (M.add (M.mul xdif xdif) (M.mul ydif ydif))
  let s1 : BlendAcc F :=
    if M.le d12 (M.lit 2) then
      { g_avg := (M.add s0.g_avg.1 (unitVec M rd 0).2,
          M.add s0.g_avg.2 (unitVec M rd 0).1)
        loc_positions := (M.add s0.loc_positions.1 xdif, M.add s0.loc_positions.2 ydif)
        seperation :=
          if M.le d12 (M.lit 1) then (M.add s0.seperation.1 xdif, M.add s0.seperation.2 ydif)
          else s0.seperation
        num_neighbors := s0.num_neighbors + 1 }
    else s0
  let xdif := M.sub (M.strtof (rd 3 1)) (M.strtof (rd 1 1))
  let ydif := M.sub (M.strtof (rd 3 2)) (M.strtof (rd 1 2))
  let d13 := M.sqrt (M.add (M.mul xdif xdif) (M.mul ydif ydif))
  let s2 : BlendAcc F :=
    if M.le d13 (M.lit 2) then
      { g_avg := (M.add s1.g_avg.1 (unitVec M rd 1).2,
          M.add s1.g_avg.2 (unitVec M rd 1).1)
        loc_positions := (M.add s1.loc_positions.1 xdif, M.add s1.loc_positions.2 ydif)
        seperation :=
          if M.le d13 (M.lit 1) then (M.add s1.seperation.1 xdif, M.add s1.seperation.2 ydif)
          else s1.seperation
        num_neighbors := s1.num_neighbors + 1 }
    else s1
  let xdif := M.sub (M.strtof (rd 3 1)) (M.strtof (rd 2 1))
  let ydif := M.sub (M.strtof (rd 3 2)) (M.strtof (rd 2 2))
  let d14 := M.sqrt (M.add (M.mul xdif xdif) (M.mul ydif ydif))
  let s3 : BlendAcc F :=
    if M.le d14 (M.lit 2) then
      { g_avg := (M.add s2.g_avg.1 (unitVec M rd 2).2,
          M.add s2.g_avg.2 (unitVec M rd 2).1)
        loc_positions := (M.add s2.loc_positions.1 xdif, M.add s2.loc_positions.2 ydif)
        seperation :=
          if M.le d14 (M.lit 1) then (M.add s2.seperation.1 xdif, M.add s2.seperation.2 ydif)
          else s2.seperation
        num_neighbors := s2.num_neighbors + 1 }
    else s2
  let xdif := M.sub (M.strtof (rd 3 1)) (M.strtof (rd 4 1))
  let ydif := M.sub (M.strtof (rd 3 2)) (M.strtof (rd 4 2))
  let d15 := M.sqrt (M.add (M.mul xdif xdif) (M.mul ydif ydif))
  let s4 : BlendAcc F :=
    if M.le d15 (M.lit 2) then
      { g_avg := (M.add s3.g_avg.1 (unitVec M rd 4).2,
          M.add s3.g_avg.2 (unitVec M rd 4).1)
        loc_positions := (M.add s3.loc_positions.1 xdif, M.add s3.loc_positions.2 ydif)
        seperation :=
          if M.le d15 (M.lit 1) then (M.add s3.seperation.1 xdif, M.add s3.seperation.2 ydif)
          else s3.seperation
        num_neighbors := s3.num_neighbors + 1 }
    else s3
  let xdif := M.sub (M.strtof (rd 3 1)) (M.strtof (rd 5 1))
  let ydif := M.sub (M.strtof (rd 3 2)) (M.strtof (rd 5 2))
  let d16 := M.sqrt (M.add (M.mul xdif xdif) (M.mul ydif ydif))
  let s5 : BlendAcc F :=
    if M.le d16 (M.lit 2) then
      { g_avg := (M.add s4.g_avg.1 (unitVec M rd 5).2,
          M.add s4.g_avg.2 (unitVec M rd 5).1)
        loc_positions := (M.add s4.loc_positions.1 xdif, M.add s4.loc_positions.2 ydif)
        seperation :=
          if M.le d16 (M.lit 1) then (M.add s4.seperation.1 xdif, M.add s4.seperation.2 ydif)
          else s4.seperation
        num_neighbors := s4.num_neighbors + 1 }
    else s4
  let g_avg : F × F :=
    if s5.num_neighbors = 1 then s5.g_avg
    else (M.div s5.g_avg.1 (M.lit s5.num_neighbors), M.div s5.g_avg.2 (M.lit s5.num_neighbors))
  let local_average := if s5.num_neighbors = 1 then M.lit 0 else M.atan2 g_avg.2 g_avg.1
  let norm := M.sqrt (M.add (M.mul g_avg.1 g_avg.1) (M.mul g_avg.2 g_avg.2))
  let g0 := M.mul (M.div g_avg.1 norm) (M.lit 0)
  let g1 := M.mul (M.div g_avg.2 norm) (M.lit 0)
  let normL := M.sqrt (M.add (M.mul s5.loc_positions.1 s5.loc_positions.1)
    (M.mul s5.loc_positions.2 s5.loc_positions.2))
  let l0 := M.mul (M.div (M.neg s5.loc_positions.1) normL) (M.lit 0)
  let l1 := M.mul (M.div (M.neg s5.loc_positions.2) normL) (M.lit 0)
  let normS := M.sqrt (M.add (M.mul s5.seperation.1 s5.seperation.1)
    (M.mul s5.seperation.2 s5.seperation.2))
  let s0x := M.mul (M.div (M.neg s5.seperation.1) normS) (M.lit (1 / 2))
  let s1y := M.mul (M.div (M.neg s5.seperation.2) normS) (M.lit (1 / 2))
  { num_neighbors := s5.num_neighbors
    local_average := local_average
    combined_theta := M.atan2 (M.add (M.add g1 l1) s1y) (M.add (M.add g0 l0) s0x)
    local_average_position := M.atan2 l1 l0 }

/-- The branch `index == 4` of the fleet of 6 (lines 1212-1354), statement by
statement, from the start values of lines 630-637.  Each `s` is the tuple of `g_avg`,
`loc_positions`, `seperation` and `num_neighbors` after one peer block; the flags
`contained_d1k`, which this branch sets and never reads, are left out. -/
def branchIndex4 (rd : Registry) : BlendOut F :=
  let s0 : BlendAcc F :=
    { g_avg := ((unitVec M rd 4).2, (unitVec M rd 4).1)
      loc_positions := (M.lit 0, M.lit 0)
      seperation := (M.lit 0, M.lit 0)
      num_neighbors := 1 }
  let xdif := M.sub (M.strtof (rd 4 1)) (M.strtof (rd 0 1))
  let ydif := M.sub (M.strtof (rd 4 2)) (M.strtof (rd 0 2))
  let d12 := M.sqrt (M.add (M.mul xdif xdif) (M.mul ydif ydif))
  let s1 : BlendAcc F :=
    if M.le d12 (M.lit 2) then
      { g_avg := (M.add s0.g_avg.1 (unitVec M rd 0).2,
          M.add s0.g_avg.2 (unitVec M rd 0).1)
        loc_positions := (M.add s0.loc_positions.1 xdif, M.add s0.loc_positions.2 ydif)
        seperation :=
          if M.le d12 (M.lit 1) then (M.add s0.seperation.1 xdif, M.add s0.seperation.2 ydif)
          else s0.seperation
        num_neighbors := s0.num_neighbors + 1 }
    else s0
  let xdif := M.sub (M.strtof (rd 4 1)) (M.strtof (rd 1 1))
  let ydif := M.sub (M.strtof (rd 4 2)) (M.strtof (rd 1 2))
  let d13 := M.sqrt (M.add (M.mul xdif xdif) (M.mul ydif ydif))
  let s2 : BlendAcc F :=
    if M.le d13 (M.lit 2) then
      { g_avg := (M.add s1.g_avg.1 (unitVec M rd 1).2,
          M.add s1.g_avg.2 (unitVec M rd 1).1)
        loc_positions := (M.add s1.loc_positions.1 xdif, M.add s1.loc_positions.2 ydif)
        seperation :=
          if M.le d13 (M.lit 1) then (M.add s1.seperation.1 xdif, M.add s1.seperation.2 ydif)
          else s1.seperation
        num_neighbors := s1.num_neighbors + 1 }
    else s1
  let xdif := M.sub (M.strtof (rd 4 1)) (M.strtof (rd 2 1))
  let ydif := M.sub (M.strtof (rd 4 2)) (M.strtof (rd 2 2))
  let d14 := M.sqrt (M.add (M.mul xdif xdif) (M.mul ydif ydif))
  let s3 : BlendAcc F :=
    if M.le d14 (M.lit 2) then
      { g_avg := (M.add s2.g_avg.1 (unitVec M rd 2).2,
          M.add s2.g_avg.2 (unitVec M rd 2).1)
        loc_positions := (M.add s2.loc_positions.1 xdif, M.add s2.loc_positions.2 ydif)
        seperation :=
          if M.le d14 (M.lit 1) then (M.add s2.seperation.1 xdif, M.add s2.seperation.2 ydif)
          else s2.seperation
        num_neighbors := s2.num_neighbors + 1 }
    else s2
  let xdif := M.sub (M.strtof (rd 4 1)) (M.strtof (rd 3 1))
  let ydif := M.sub (M.strtof (rd 4 2)) (M.strtof (rd 3 2))
  let d15 := M.sqrt (M.add (M.mul xdif xdif) (M.mul ydif ydif))
  let s4 : BlendAcc F :=
    if M.le d15 (M.lit 2) then
      { g_avg := (M.add s3.g_avg.1 (unitVec M rd 3).2,
          M.add s3.g_avg.2 (unitVec M rd 3).1)
        loc_positions := (M.add s3.loc_positions.1 xdif, M.add s3.loc_positions.2 ydif)
        seperation :=
          if M.le d15 (M.lit 1) then (M.add s3.seperation.1 xdif, M.add s3.seperation.2 ydif)
          else s3.seperation
        num_neighbors := s3.num_neighbors + 1 }
    else s3
  let xdif := M.sub (M.strtof (rd 4 1)) (M.strtof (rd 5 1))
  let ydif := M.sub (M.strtof (rd 4 2)) (M.strtof (rd 5 2))
  let d16 := M.sqrt (M.add (M.mul xdif xdif) (M.mul ydif ydif))
  let s5 : BlendAcc F :=
    if M.le d16 (M.lit 2) then
      { g_avg := (M.add s4.g_avg.1 (unitVec M rd 5).2,
          M.add s4.g_avg.2 (unitVec M rd 5).1)
        loc_positions := (M.add s4.loc_positions.1 xdif, M.add s4.loc_positions.2 ydif)
        seperation :=
          if M.le d16 (M.lit 1) then (M.add s4.seperation.1 xdif, M.add s4.seperation.2 ydif)
          else s4.seperation
        num_neighbors := s4.num_neighbors + 1 }
    else s4
  let g_avg : F × F :=
    if s5.num_neighbors = 1 then s5.g_avg
    else (M.div s5.g_avg.1 (M.lit s5.num_neighbors), M.div s5.g_avg.2 (M.lit s5.num_neighbors))
  let local_average := if s5.num_neighbors = 1 then M.lit 0 else M.atan2 g_avg.2 g_avg.1
  let norm := M.sqrt (M.add (M.mul g_avg.1 g_avg.1) (M.mul g_avg.2 g_avg.2))
  let g0 := M.mul (M.div g_avg.1 norm) (M.lit 0)
  let g1 := M.mul (M.div g_avg.2 norm) (M.lit 0)
  let normL := M.sqrt (M.add (M.mul s5.loc_positions.1 s5.loc_positions.1)
    (M.mul s5.loc_positions.2 s5.loc_positions.2))
  let l0 := M.mul (M.div (M.neg s5.loc_positions.1) normL) (M.lit 0)
  let l1 := M.mul (M.div (M.neg s5.loc_positions.2) normL) (M.lit 0)
  let normS := M.sqrt (M.add (M.mul s5.seperation.1 s5.seperation.1)
    (M.mul s5.seperation.2 s5.seperation.2))
  let s0x := M.mul (M.div (M.neg s5.seperation.1) normS) (M.lit (1 / 2))
  let s1y := M.mul (M.div (M.neg s5.seperation.2) normS) (M.lit (1 / 2))
  { num_neighbors := s5.num_neighbors
    local_average := local_average
    combined_theta := M.atan2 (M.add (M.add g1 l1) s1y) (M.add (M.add g0 l0) s0x)
    local_average_position := M.atan2 l1 l0 }

/-- The branch `index == 5` of the fleet of 6 (lines 1355-1500), statement by
statement, from the start values of lines 630-637.  Each `s` is the tuple of `g_avg`,
`loc_positions`, `seperation` and `num_neighbors` after one peer block; the flags
`contained_d1k`, which this branch sets and never reads, are left out. -/
def branchIndex5 (rd : Registry) : BlendOut F :=
  let s0 : BlendAcc F :=
    { g_avg := ((unitVec M rd 5).2, (unitVec M rd 5).1)
      loc_positions := (M.lit 0, M.lit 0)
      seperation := (M.lit 0, M.lit 0)
      num_neighbors := 1 }
  let xdif := M.sub (M.strtof (rd 5 1)) (M.strtof (rd 0 1))
  let ydif := M.sub (M.strtof (rd 5 2)) (M.strtof (rd 0 2))
  let d12 := M.sqrt (M.add (M.mul xdif xdif) (M.mul ydif ydif))
  let s1 : BlendAcc F :=
    if M.le d12 (M.lit 2) then
      { g_avg := (M.add s0.g_avg.1 (unitVec M rd 0).2,
          M.add s0.g_avg.2 (unitVec M rd 0).1)
        loc_positions := (M.add s0.loc_positions.1 xdif, M.add s0.loc_positions.2 ydif)
        seperation :=
          if M.le d12 (M.lit 1) then (M.add s0.seperation.1 xdif, M.add s0.seperation.2 ydif)
          else s0.seperation
        num_neighbors := s0.num_neighbors + 1 }
    else s0
  let xdif := M.sub (M.strtof (rd 5 1)) (M.strtof (rd 1 1))
  let ydif := M.sub (M.strtof (rd 5 2)) (M.strtof (rd 1 2))
  let d13 := M.sqrt (M.add (M.mul xdif xdif) (M.mul ydif ydif))
  let s2 : BlendAcc F :=
    if M.le d13 (M.lit 2) then
      { g_avg := (M.add s1.g_avg.1 (unitVec M rd 1).2,
          M.add s1.g_avg.2 (unitVec M rd 1).1)
        loc_positions := (M.add s1.loc_positions.1 xdif, M.add s1.loc_positions.2 ydif)
        seperation :=
          if M.le d13 (M.lit 1) then (M.add s1.seperation.1 xdif, M.add s1.seperation.2 ydif)
          else s1.seperation
        num_neighbors := s1.num_neighbors + 1 }
    else s1
  let xdif := M.sub (M.strtof (rd 5 1)) (M.strtof (rd 2 1))
  let ydif := M.sub (M.strtof (rd 5 2)) (M.strtof (rd 2 2))
  let d14 := M.sqrt (M.add (M.mul xdif xdif) (M.mul ydif ydif))
  let s3 : BlendAcc F :=
    if M.le d14 (M.lit 2) then
      { g_avg := (M.add s2.g_avg.1 (unitVec M rd 2).2,
          M.add s2.g_avg.2 (unitVec M rd 2).1)
        loc_positions := (M.add s2.loc_positions.1 xdif, M.add s2.loc_positions.2 ydif)
        seperation :=
          if M.le d14 (M.lit 1) then (M.add s2.seperation.1 xdif, M.add s2.seperation.2 ydif)
          else s2.seperation
        num_neighbors := s2.num_neighbors + 1 }
    else s2
  let xdif := M.sub (M.strtof (rd 5 1)) (M.strtof (rd 3 1))
  let ydif := M.sub (M.strtof (rd 5 2)) (M.strtof (rd 3 2))
  let d15 := M.sqrt (M.add (M.mul xdif xdif) (M.mul ydif ydif))
  let s4 : BlendAcc F :=
    if M.le d15 (M.lit 2) then
      { g_avg := (M.add s3.g_avg.1 (unitVec M rd 3).2,
          M.add s3.g_avg.2 (unitVec M rd 3).1)
        loc_positions := (M.add s3.loc_positions.1 xdif, M.add s3.loc_positions.2 ydif)
        seperation :=
          if M.le d15 (M.lit 1) then (M.add s3.seperation.1 xdif, M.add s3.seperation.2 ydif)
          else s3.seperation
        num_neighbors := s3.num_neighbors + 1 }
    else s3
  let xdif := M.sub (M.strtof (rd 5 1)) (M.strtof (rd 4 1))
  let ydif := M.sub (M.strtof (rd 5 2)) (M.strtof (rd 4 2))
  let d16 := M.sqrt (M.add (M.mul xdif xdif) (M.mul ydif ydif))
  let s5 : BlendAcc F :=
    if M.le d16 (M.lit 2) then
      { g_avg := (M.add s4.g_avg.1 (unitVec M rd 4).2,
          M.add s4.g_avg.2 (unitVec M rd 4).1)
        loc_positions := (M.add s4.loc_positions.1 xdif, M.add s4.loc_positions.2 ydif)
        seperation :=
          if M.le d16 (M.lit 1) then (M.add s4.seperation.1 xdif, M.add s4.seperation.2 ydif)
          else s4.seperation
        num_neighbors := s4.num_neighbors + 1 }
    else s4
  let g_avg : F × F :=
    if s5.num_neighbors = 1 then s5.g_avg
    else (M.div s5.g_avg.1 (M.lit s5.num_neighbors), M.div s5.g_avg.2 (M.lit s5.num_neighbors))
  let local_average := if s5.num_neighbors = 1 then M.lit 0 else M.atan2 g_avg.2 g_avg.1
  let norm := M.sqrt (M.add (M.mul g_avg.1 g_avg.1) (M.mul g_avg.2 g_avg.2))
  let g0 := M.mul (M.div g_avg.1 norm) (M.lit 0)
  let g1 := M.mul (M.div g_avg.2 norm) (M.lit 0)
  let normL := M.sqrt (M.add (M.mul s5.loc_positions.1 s5.loc_positions.1)
    (M.mul s5.loc_positions.2 s5.loc_positions.2))
  let l0 := M.mul (M.div (M.neg s5.loc_positions.1) normL) (M.lit 0)
  let l1 := M.mul (M.div (M.neg s5.loc_positions.2) normL) (M.lit 0)
  let normS := M.sqrt (M.add (M.mul s5.seperation.1 s5.seperation.1)
    (M.mul s5.seperation.2 s5.seperation.2))
  let s0x := M.mul (M.div (M.neg s5.seperation.1) normS) (M.lit (1 / 2))
  let s1y := M.mul (M.div (M.neg s5.seperation.2) normS) (M.lit (1 / 2))
  { num_neighbors := s5.num_neighbors
    local_average := local_average
    combined_theta := M.atan2 (M.add (M.add g1 l1) s1y) (M.add (M.add g0 l0) s0x)
    local_average_position := M.atan2 l1 l0 }

/-- The fleet-of-6 part of `poseHandler` (lines 640-1500): the chain
`if (index == 0) ... else if (index == 1) ... else if (index == 5)` over the six
branches.  `index` is below 6, so the last branch is the one for 5. -/
def blend6 (rd : Registry) (index : Fin 6) : BlendOut F :=
  if index = 0 then branchIndex0 M rd
  else if index = 1 then branchIndex1 M rd
  else if index = 2 then branchIndex2 M rd
  else if index = 3 then branchIndex3 M rd
  else if index = 4 then branchIndex4 M rd
  else branchIndex5 M rd

/-- The handler `poseHandler` for a message whose `data` is `data`: the new state and
what it publishes.  The handler works on the copy `msg = message->data.c_str()`. -/
def poseHandler (st : State F) (data : Str) : State F × List (Effect F) :=
  let msg := cStr data
  let upd := updateRegistry st.n_o_r st.rover_data msg
  let rd := upd.1
  let index := upd.2
  let st1 : State F := { st with rover_data := rd }
  let st2 : State F :=
    if st.n_o_r = 3 then { st1 with glob_average := globAverage3 M rd }
    else if st.n_o_r = 6 then { st1 with glob_average := globAverage6 M rd }
    else st1
  let out1 : List (Effect F) :=
    if st.n_o_r = 3 ∨ st.n_o_r = 6 then [Effect.globalAverageHeading st2.glob_average] else []
  if st.n_o_r = 3 then
    let r := localAverage3 M rd index
    let st3 : State F := if index = 0 then { st2 with local_average := r.2 } else st2
    (st3, out1 ++ [Effect.localAverageHeading st.rover_name r.1 false r.2])
  else if st.n_o_r = 6 then
    let b := blend6 M rd index
    ({ st2 with
        local_average := b.local_average
        combined_theta := b.combined_theta
        local_average_position := b.local_average_position },
      out1 ++ [Effect.localAverageHeading st.rover_name b.num_neighbors true b.combined_theta])
  else (st2, out1)

/-- The value of the local variable `index` of `poseHandler` after the selection loop. -/
def poseIndex (st : State F) (data : Str) : Fin 6 :=
  (updateRegistry st.n_o_r st.rover_data (cStr data)).2

/-- No slot other than `i` passes the test `d <= 2` of the branch for `i`. -/
def isolated (rd : Registry) (i : Fin 6) : Prop :=
  ∀ j, j ≠ i → M.le (distance M rd i j) (M.lit 2) = false

/-- The function `setVelocity`: restarts the kill-switch timer and publishes the scaled
velocity. -/
def setVelocity (linearVel angularVel : F) : List (Effect F) :=
  [Effect.killSwitchTimerStop, Effect.killSwitchTimerStart,
    Effect.velocityPublish (M.mul linearVel (M.lit (3 / 2))) (M.mul angularVel (M.lit 8))]

/-- The `angular_velocity` of the state `STATE_MACHINE_TRANSLATE`:
`k * (combined_theta - current_location.theta)` with `k = 0.1`. -/
def translateAngular (combined_theta theta : F) : F :=
  M.mul (M.lit (1 / 10)) (M.sub combined_theta theta)

/-- The `linear_velocity` of the state `STATE_MACHINE_TRANSLATE`. -/
def translateLinear : F := M.lit (1 / 20)

/-- The pose text `rover_name << " (" << x << ", " << y << ", " << theta << ")"` of the
tick, from the texts the stream prints for the three numbers. -/
def poseText (rover_name sx sy st : Str) : Str :=
  rover_name ++ " (".toList ++ sx ++ ", ".toList ++ sy ++ ", ".toList ++ st ++ ")".toList

/-- The timer callback `mobilityStateMachine`.  `now` is the value of
`ros::Time::now().toSec()` and `fmt` is the text the stream prints for a float. -/
def mobilityStateMachine (fmt : F → Str) (now : F) (st : State F) : State F × List (Effect F) :=
  let auto := st.simulation_mode = 2 ∨ st.simulation_mode = 3
  let st1 : State F :=
    if auto ∧ st.transitions_to_auto = 0 then
      { st with
        transitions_to_auto := st.transitions_to_auto + 1
        time_stamp_transition_to_auto := now }
    else st
  let vel : List (Effect F) :=
    if auto ∧ st.state_machine_state = 0 then
      setVelocity M (translateLinear M)
        (translateAngular M st.combined_theta st.current_location.theta)
    else []
  let state_machine_msg : Str :=
    if auto then
      if st.state_machine_state = 0 then "TRANSLATING".toList
      else "DEFAULT CASE: SOMETHING WRONG!!!!".toList
    else "WAITING, ".toList ++ ("CURRENT MODE: ".toList ++ (toString st.simulation_mode).toList)
  let pose_msg := poseText st.rover_name (fmt st.current_location.x) (fmt st.current_location.y)
    (fmt st.current_location.theta)
  (st1, vel ++ [Effect.posePublish pose_msg, Effect.stateMachinePublish state_machine_msg])

/-- The callback `modeHandler` for a message carrying the `UInt8` value `data`. -/
def modeHandler (st : State F) (data : Fin 256) : State F × List (Effect F) :=
  ({ st with simulation_mode := (data.val : Int) }, setVelocity M (M.lit 0) (M.lit 0))

/-- The callback `joyCmdHandler` for a joystick message with the given `linear.x` and
`angular.z`. -/
def joyCmdHandler (st : State F) (linear_x angular_z : F) : State F × List (Effect F) :=
  if st.simulation_mode = 0 ∨ st.simulation_mode = 1 then
    (st, setVelocity M linear_x angular_z)
  else (st, [])

/-- The callback `odometryHandler`: `x` and `y` are the position of the message and
`yaw` is the angle that `m.getRPY` of the `tf` library returns for its orientation. -/
def odometryHandler (st : State F) (x y yaw : F) : State F × List (Effect F) :=
  ({ st with current_location := { x := x, y := y, theta := yaw } }, [])

/-- The timer callback `killSwitchTimerEventHandler`: it calls `setVelocity(0.0, 0.0)` and
writes a log line. -/
def killSwitchTimerEventHandler (st : State F) : State F × List (Effect F) :=
  (st, setVelocity M (M.lit 0) (M.lit 0))

/-- The signal handler `sigintEventHandler`: its one statement is `ros::shutdown()`. -/
def sigintEventHandler (st : State F) (_sig : Int) : State F × List (Effect F) :=
  (st, [Effect.shutdown])

end Blend

/-- Whether an output is a velocity command sent on `velocityPublish`. -/
def Effect.isVelocity {F : Type} : Effect F → Bool
  | Effect.velocityPublish _ _ => true
  | _ => false

/-- Whether an output stops or starts the kill-switch timer. -/
def Effect.isTimer {F : Type} : Effect F → Bool
  | Effect.killSwitchTimerStop => true
  | Effect.killSwitchTimerStart => true
  | _ => false

/-! ## The end of a fleet-of-6 branch, term by term -/

/-- The vector `g_avg` at the start of the normalisations: the sums divided by
`num_neighbors` unless `num_neighbors == 1` (for instance lines 750-758). -/
def meanHeading {F : Type} (M : FloatOps F) (acc : BlendAcc F) : F × F :=
  if acc.num_neighbors = 1 then acc.g_avg
  else (M.div acc.g_avg.1 (M.lit acc.num_neighbors), M.div acc.g_avg.2 (M.lit acc.num_neighbors))

/-- The three values of `norm` by which the end of a fleet-of-6 branch divides (for
instance lines 762, 766 and 770): the magnitudes of `g_avg`, of `loc_positions` and of
`seperation`. -/
def blendNorms {F : Type} (M : FloatOps F) (acc : BlendAcc F) : F × F × F :=
  let g := meanHeading M acc
  (M.sqrt (M.add (M.mul g.1 g.1) (M.mul g.2 g.2)),
    M.sqrt (M.add (M.mul acc.loc_positions.1 acc.loc_positions.1)
      (M.mul acc.loc_positions.2 acc.loc_positions.2)),
    M.sqrt (M.add (M.mul acc.seperation.1 acc.seperation.1)
      (M.mul acc.seperation.2 acc.seperation.2)))

/-- The alignment term `g_avg[k] = g_avg[k]/norm * align_weight` with
`align_weight = 0.0`. -/
def alignmentTerm {F : Type} (M : FloatOps F) (acc : BlendAcc F) : F × F :=
  (M.mul (M.div (meanHeading M acc).1 (blendNorms M acc).1) (M.lit 0),
    M.mul (M.div (meanHeading M acc).2 (blendNorms M acc).1) (M.lit 0))

/-- The cohesion term `loc_positions[k] = -loc_positions[k]/norm * coh_weight` with
`coh_weight = 0.0`. -/
def cohesionTerm {F : Type} (M : FloatOps F) (acc : BlendAcc F) : F × F :=
  (M.mul (M.div (M.neg acc.loc_positions.1) (blendNorms M acc).2.1) (M.lit 0),
    M.mul (M.div (M.neg acc.loc_positions.2) (blendNorms M acc).2.1) (M.lit 0))

/-- The separation term `seperation[k] = -seperation[k]/norm * sep_weight` with
`sep_weight = 0.5`. -/
def separationTerm {F : Type} (M : FloatOps F) (acc : BlendAcc F) : F × F :=
  (M.mul (M.div (M.neg acc.seperation.1) (blendNorms M acc).2.2) (M.lit (1 / 2)),
    M.mul (M.div (M.neg acc.seperation.2) (blendNorms M acc).2.2) (M.lit (1 / 2)))

/-- The generalised routine the specification describes, for any self index: it
starts from the heading vector of `self` and visits every other slot in ascending
index order, applying the per-peer block and then the end of the branch. -/
def blendGeneral {F : Type} (M : FloatOps F) (rd : Registry) (self : Fin 6) : BlendOut F :=
  blendFinish M
    (((List.finRange 6).filter (fun j => decide (j ≠ self))).foldl (peerStep M rd self)
      (blendStart M rd self))

/-! ## The kill-switch timer -/

/-- The state of the ROS timer `killSwitchTimer`: whether it is running, and the time
that has passed since it was started, in whole time units. -/
structure Timer where
  running : Bool
  elapsed : Nat
  deriving DecidableEq

/-- What the calls `killSwitchTimer.stop()` and `killSwitchTimer.start()` do to the
timer, as the ROS timer library documents them: `stop` stops it, `start` starts a
stopped timer from 0 and does nothing to a running one.  Other outputs leave it. -/
def timerEffect {F : Type} (t : Timer) : Effect F → Timer
  | Effect.killSwitchTimerStop => { t with running := false }
  | Effect.killSwitchTimerStart => if t.running then t else { running := true, elapsed := 0 }
  | _ => t

/-- The timer after the outputs of one callback. -/
def timerRun {F : Type} (t : Timer) (out : List (Effect F)) : Timer :=
  out.foldl timerEffect t

/-- One time unit during which no message arrives and no other callback sets a
velocity.  A running timer counts up; when it reaches `timeout` the library calls
`killSwitchTimerEventHandler`, after putting the timer back to 0 (a periodic timer,
which is what `createTimer` makes by default) or stopping it (`oneshot`).  The result
is the new state and timer and what the callback sent. -/
def idleStep {F : Type} (M : FloatOps F) (oneshot : Bool) (timeout : Nat)
    (sys : State F × Timer) : (State F × Timer) × List (Effect F) :=
  if sys.2.running then
    if sys.2.elapsed + 1 < timeout then
      ((sys.1, { sys.2 with elapsed := sys.2.elapsed + 1 }), [])
    else
      let t1 : Timer := { running := !oneshot, elapsed := 0 }
      let r := killSwitchTimerEventHandler M sys.1
      ((r.1, timerRun t1 r.2), r.2)
  else (sys, [])

/-- The outputs of `k` idle time units in a row, with the state and timer reached. -/
def idleRun {F : Type} (M : FloatOps F) (oneshot : Bool) (timeout : Nat) :
    Nat → State F × Timer → (State F × Timer) × List (Effect F)
  | 0, sys => (sys, [])
  | k + 1, sys =>
    let r := idleStep M oneshot timeout sys
    let r2 := idleRun M oneshot timeout k r.1
    (r2.1, r.2 ++ r2.2)

/-! ## Runs of `poseHandler` -/

/-- The states the node reaches from a state with the all-empty registry by running
`poseHandler` on any finite sequence of messages. -/
inductive Reachable {F : Type} (M : FloatOps F) : State F → Prop where
  | start (st : State F) (h : st.rover_data = emptyRegistry) : Reachable M st
  | pose (st : State F) (msg : Str) (h : Reachable M st) : Reachable M (poseHandler M st msg).1

/-- The states the node reaches from its initial state by any finite sequence of its
callbacks.  The callbacks `targetHandler`, `obstacleHandler` and `messageHandler` do
nothing, and `publishStatusTimerEventHandler` touches none of the variables of
`State`. -/
inductive NodeReachable {F : Type} (M : FloatOps F) : State F → Prop where
  | start (rover_name : Str) (loc : Pose F) (n_o_r : Nat) :
      NodeReachable M (initialState M rover_name loc n_o_r)
  | pose (st : State F) (msg : Str) (h : NodeReachable M st) :
      NodeReachable M (poseHandler M st msg).1
  | tick (st : State F) (fmt : F → Str) (now : F) (h : NodeReachable M st) :
      NodeReachable M (mobilityStateMachine M fmt now st).1
  | mode (st : State F) (data : Fin 256) (h : NodeReachable M st) :
      NodeReachable M (modeHandler M st data).1
  | joy (st : State F) (linear_x angular_z : F) (h : NodeReachable M st) :
      NodeReachable M (joyCmdHandler M st linear_x angular_z).1
  | odometry (st : State F) (x y yaw : F) (h : NodeReachable M st) :
      NodeReachable M (odometryHandler st x y yaw).1
  | killSwitch (st : State F) (h : NodeReachable M st) :
      NodeReachable M (killSwitchTimerEventHandler M st).1
  | sigint (st : State F) (sig : Int) (h : NodeReachable M st) :
      NodeReachable M (sigintEventHandler st sig).1

/-- The number of slots below the fleet size `n`, other than `i`, that pass the test
`d <= 2` against slot `i`. -/
def neighbourCount {F : Type} (M : FloatOps F) (rd : Registry) (n : Nat) (i : Fin 6) : Nat :=
  ((List.finRange 6).filter
    (fun j => decide (j.val < n) && decide (j ≠ i) && M.le (distance M rd i j) (M.lit 2))).length

/-- The number of claimed slots: those whose name is not empty. -/
def claimedCount (rd : Registry) : Nat :=
  (Finset.univ.filter (fun i : Fin 6 => rd i 0 ≠ [])).card

/-- The shape of the name column in every reachable registry: the claimed slots come
first, hold pairwise different names, and lie below the fleet size `n`. -/
def registryInv (n : Nat) (rd : Registry) : Prop :=
  (∀ i j : Fin 6, i < j → rd i 0 = [] → rd j 0 = []) ∧
  (∀ i j : Fin 6, rd i 0 ≠ [] → rd i 0 = rd j 0 → i = j) ∧
  (∀ i : Fin 6, n ≤ i.val → rd i 0 = [])

/-- A character that the stripping loop removes although it is not the space: a letter
or a parenthesis. -/
def isLetterOrParen (c : Char) : Prop := c ∈ remove_char ∧ c ≠ ' '

/-- A character of a plain decimal numeral: a digit, the point or the minus sign. -/
def isNumeralChar (c : Char) : Prop := c ∈ "0123456789.-".toList

/-- A message of the form identity, space, `(`, x text, `,`, y text, `,`, theta text,
`)`, with no space after the commas. -/
def fieldMessage (identity sx sy st : Str) : Str :=
  identity ++ " (".toList ++ sx ++ ",".toList ++ sy ++ ",".toList ++ st ++ ")".toList

/-! ## Runs of the node -/

/-- A callback of the node together with what it receives: a tick of the state machine
timer at time `now`, a mode message, a joystick message, an odometry message, a pose
broadcast, an expiry of the kill-switch timer, or a signal. -/
inductive Event (F : Type) where
  | tick (now : F) : Event F
  | mode (data : Fin 256) : Event F
  | joy (linear_x angular_z : F) : Event F
  | odometry (x y yaw : F) : Event F
  | pose (data : Str) : Event F
  | killSwitch : Event F
  | sigint (sig : Int) : Event F

/-- The callback that `ros::spin()` runs for one event. -/
def stepEvent {F : Type} (M : FloatOps F) (fmt : F → Str) (st : State F) :
    Event F → State F × List (Effect F)
  | Event.tick now => mobilityStateMachine M fmt now st
  | Event.mode data => modeHandler M st data
  | Event.joy linear_x angular_z => joyCmdHandler M st linear_x angular_z
  | Event.odometry x y yaw => odometryHandler st x y yaw
  | Event.pose data => poseHandler M st data
  | Event.killSwitch => killSwitchTimerEventHandler M st
  | Event.sigint sig => sigintEventHandler st sig

/-- The callbacks for a sequence of events, one after the other: the state reached and
everything that was sent. -/
def runEvents {F : Type} (M : FloatOps F) (fmt : F → Str) :
    State F → List (Event F) → State F × List (Effect F)
  | st, [] => (st, [])
  | st, ev :: evs =>
    let r := stepEvent M fmt st ev
    let r2 := runEvents M fmt r.1 evs
    (r2.1, r.2 ++ r2.2)

/-- The time `now` of the first tick of the sequence that runs while the mode is
autonomous (2 or 3), when the mode before the sequence is `mode`; `none` when there
is no such tick.  Only mode messages change the mode. -/
def firstAutoTick {F : Type} (mode : Int) : List (Event F) → Option F
  | [] => none
  | Event.tick now :: evs =>
    if mode = 2 ∨ mode = 3 then some now else firstAutoTick mode evs
  | Event.mode data :: evs => firstAutoTick (data.val : Int) evs
  | _ :: evs => firstAutoTick mode evs

/-- The state with `transitions_to_auto` and `time_stamp_transition_to_auto` put back
to their initial values. -/
def forgetTransition {F : Type} (M : FloatOps F) (st : State F) : State F :=
  { st with transitions_to_auto := 0, time_stamp_transition_to_auto := M.lit 0 }

/-- The statements of `main` that write variables of `State` (lines 123-131 and
163-178).  `rover_name` is `argv[1]` or the host name.  The condition of the first
`if` is the assignment `n_o_r = 3`, whose value 3 is tested against 0; the `else if`
has the assignment `n_o_r = 6` as its condition.  Each branch empties the names of
its slots, and `local_average_position` is set to 0.0 before `ros::spin()`. -/
def mainStartup {F : Type} (M : FloatOps F) (name : Str) (st : State F) : State F :=
  let st1 : State F := { st with rover_name := name, n_o_r := 3 }
  let st2 : State F :=
    if st1.n_o_r ≠ 0 then
      { st1 with
        rover_data := setField (setField (setField st1.rover_data 0 0 []) 1 0 []) 2 0 [] }
    else
      let st3 : State F := { st1 with n_o_r := 6 }
      if st3.n_o_r ≠ 0 then
        { st3 with
          rover_data := setField (setField (setField (setField (setField (setField
            st3.rover_data 0 0 []) 1 0 []) 2 0 []) 3 0 []) 4 0 []) 5 0 [] }
      else st3
  { st2 with local_average_position := M.lit 0 }

/-! ## The reference decoder -/

/-- The letters `a` to `z` and `A` to `Z`. -/
def referenceLetters : Str := "abcdefghijklmnopqrstuvwxyzABCDEFGHIJKLMNOPQRSTUVWXYZ".toList

/-- The text `s` of the reference decoder: the text `m` with every letter, `(`, `)` and
space removed. -/
def referenceStrip (m : Str) : Str :=
  m.filter (fun c => !(referenceLetters.contains c || c == '(' || c == ')' || c == ' '))

/-- One step of the reference decoder: the part of `s` before its first comma and the
rest after that comma; when `s` has no comma the part is all of `s` and the rest is
`s` again. -/
def referenceSplit (s : Str) : Str × Str :=
  if ',' ∈ s then
    (s.takeWhile (fun c => c != ','), (s.dropWhile (fun c => c != ',')).tail)
  else (s, s)

/-- The reference decoder of the specification: the texts x, y and theta it assigns to
a message text `m`. -/
def referenceDecode (m : Str) : Str × Str × Str :=
  let s := referenceStrip m
  let a := referenceSplit s
  let b := referenceSplit a.2
  (a.1, b.1, b.2)

/-! ## Sample inputs -/

/-- The registry whose rows are the given lists of texts (missing texts are empty). -/
def regOf (rows : List (List String)) : Registry :=
  fun i k => ((rows.getD i.val []).getD k.val "").toList

/-- A state of the node with the given fleet size and registry; the rover is called
`ajax`, is in manual mode at the origin, and all averages are 0. -/
def stateOf {F : Type} (M : FloatOps F) (n_o_r : Nat) (rd : Registry) : State F :=
  { initialState M "ajax".toList ⟨M.lit 0, M.lit 0, M.lit 0⟩ n_o_r with rover_data := rd }

/-- Six claimed slots: slot 0 at the origin with heading 1, the others at distance 3. -/
def soloRegistry : Registry :=
  regOf [["a", "0", "0", "1"], ["b", "3", "0", "0"], ["c", "-3", "0", "0"],
    ["d", "0", "3", "0"], ["e", "0", "-3", "0"], ["f", "3", "0", "0"]]

/-- Six claimed slots: slot 0 at the origin with heading 0, slot 1 at (1, 0), the
others at distance 3. -/
def pairRegistry : Registry :=
  regOf [["a", "0", "0", "0"], ["b", "1", "0", "0"], ["c", "-3", "0", "0"],
    ["d", "0", "3", "0"], ["e", "0", "-3", "0"], ["f", "3", "0", "0"]]

/-- The scenario of three rovers at (0, 0), (1, 0) and (5, 5) with the headings 0,
3.14159 and 1.5708 (0, 180 and 90 degrees, as the stream prints them); the slots 3
to 5 are empty. -/
def scenarioRegistry : Registry :=
  regOf [["a", "0", "0", "0"], ["b", "1", "0", "3.14159"], ["c", "5", "5", "1.5708"]]

/-- The broadcast of the third rover of the scenario. -/
def scenarioMessage : Str := "c (5, 5, 1.5708)".toList

/-- A message whose identity `r2` contains a digit. -/
def digitNameMessage : Str := fieldMessage "r2".toList "1".toList "2".toList "3".toList

/-- The pose text of a rover called `r2` at (1, 2) with heading 3. -/
def digitNameText : Str := poseText "r2".toList "1".toList "2".toList "3".toList

/-- The pose text of a rover called `g` at (1, 2) with heading 3. -/
def seventhRoverText : Str := poseText "g".toList "1".toList "2".toList "3".toList

/-- The pose text of a rover called `a` whose x is printed with an exponent. -/
def exponentText : Str := poseText "a".toList "1e-05".toList "0".toList "0".toList

/-- A message with an identity and one number, without any comma. -/
def shortMessage : Str := "ajax 5".toList

/-- A broadcast of a seventh rover `g`, at (7, 8) with heading 9. -/
def strangerMessage : Str := "g (7, 8, 9)".toList

/-- A broadcast of rover `b` at (1, 0) with heading 0. -/
def secondMessage : Str := "b (1, 0, 0)".toList

/-- A broadcast of rover `a` at the origin with heading 1. -/
def soloMessage : Str := "a (0, 0, 1)".toList

/-- A broadcast of rover `a` at the origin with heading 0. -/
def pairMessage : Str := "a (0, 0, 0)".toList

/-- The state of the third rover of the scenario, called `c` and standing at (5, 5)
with heading 1.5708, once it has started with a fleet size of 3 and heard the
broadcasts of the rovers `a` and `b`. -/
def scenarioState {F : Type} (M : FloatOps F) : State F :=
  (poseHandler M
    (poseHandler M
      (initialState M "c".toList ⟨M.lit 5, M.lit 5, M.lit (15708 / 10000)⟩ 3)
      "a (0, 0, 0)".toList).1
    "b (1, 0, 3.14159)".toList).1

/-- The registry of `scenarioState`: the slots of `a` and `b`. -/
def scenarioHeard : Registry :=
  regOf [["a", "0", "0", "0"], ["b", "1", "0", "3.14159"]]

/-- Three rovers of a fleet of 3: `a` at (5, 5) with heading 0, `b` at the origin with
heading 1 and `c` at (1, 0) with heading 0.  Slot 2 is the only slot within distance
2 of slot 1. -/
def cornerRegistry : Registry :=
  regOf [["a", "5", "5", "0"], ["b", "0", "0", "1"], ["c", "1", "0", "0"]]

/-- A broadcast of rover `b` at the origin with heading 1. -/
def cornerMessage : Str := "b (0, 0, 1)".toList

/-- Three rovers of a fleet of 3 that all store the heading 0. -/
def alignedRegistry : Registry :=
  regOf [["a", "0", "0", "0"], ["b", "1", "0", "0"], ["c", "5", "5", "0"]]

/-- Six rovers that all store the heading 0.  From slot 0 at the origin, `b` at (1, 0)
is within distance 1, `c` at (-0.5, 1) and `d` at (-0.5, -1) are farther than 1 and
within 2, and `e` and `f` are at distance 3; the displacements of `b`, `c` and `d`
add up to zero. -/
def balancedRegistry : Registry :=
  regOf [["a", "0.0", "0.0", "0"], ["b", "1.0", "0.0", "0"], ["c", "-0.5", "1.0", "0"],
    ["d", "-0.5", "-1.0", "0"], ["e", "0.0", "-3.0", "0"], ["f", "3.0", "0.0", "0"]]

/-- The registry `balancedRegistry` with `c` moved from (-0.5, 1) to (-0.5, 3). -/
def shiftedRegistry : Registry :=
  regOf [["a", "0.0", "0.0", "0"], ["b", "1.0", "0.0", "0"], ["c", "-0.5", "3.0", "0"],
    ["d", "-0.5", "-1.0", "0"], ["e", "0.0", "-3.0", "0"], ["f", "3.0", "0.0", "0"]]

/-- A broadcast of rover `a` at the origin with heading 0, with one decimal. -/
def balancedMessage : Str := "a (0.0, 0.0, 0)".toList

/-- A message whose data holds a NUL character after the closing parenthesis, followed
by more text. -/
def nulMessage : Str := "a (1,2,3)".toList ++ '\x00' :: ",9".toList

theorem setField_apply (rd : Registry) (i : Fin 6) (k : Fin 4) (v : Str) (j : Fin 6)
    (m : Fin 4) : setField rd i k v j m = if j = i ∧ m = k then v else rd j m := by
  unfold setField
  by_cases hj : j = i
  · subst hj
    by_cases hm : m = k
    · subst hm; simp
    · simp [Function.update_noteq hm, hm]
  · simp [Function.update_noteq hj, hj]

theorem foldl_filter_ne (l : Str) (msg : Str) :
    l.foldl (fun m c => m.filter (fun d => d != c)) msg
      = msg.filter (fun d => !l.contains d) := by
  induction l generalizing msg with
  | nil => simp
  | cons c l ih =>
    rw [List.foldl_cons, ih, List.filter_filter]
    congr 1
    funext d
    by_cases hd : d = c <;> simp [List.contains_cons, hd, bne]

/-- The stripping loop keeps exactly the characters that are not in `remove_char`. -/
theorem stripChars_eq_filter (msg : Str) :
    stripChars msg = msg.filter (fun d => !remove_char.contains d) :=
  foldl_filter_ne remove_char msg

theorem stripChars_append (a b : Str) : stripChars (a ++ b) = stripChars a ++ stripChars b := by
  simp [stripChars_eq_filter]

theorem stripChars_removed (a : Str) (h : ∀ c ∈ a, c ∈ remove_char) : stripChars a = [] := by
  rw [stripChars_eq_filter, List.filter_eq_nil_iff]
  intro c hc
  simp [h c hc]

theorem stripChars_kept (a : Str) (h : ∀ c ∈ a, c ∉ remove_char) : stripChars a = a := by
  rw [stripChars_eq_filter, List.filter_eq_self]
  intro c hc
  simp [h c hc]

theorem find_append_cons (a b : Str) (c : Char) (h : c ∉ a) :
    find (a ++ c :: b) c = a.length := by
  have e : List.indexOf c (a ++ c :: b) = a.length := by
    rw [List.indexOf_append_of_not_mem h, List.indexOf_cons_self, Nat.add_zero]
  unfold find
  rw [e, if_pos]
  simp

theorem find_not_mem (s : Str) (c : Char) (h : c ∉ s) : find s c = npos := by
  unfold find
  rw [if_neg]
  rw [List.indexOf_eq_length.2 h]
  exact Nat.lt_irrefl _

theorem nameOf_append (identity rest : Str) (h : ' ' ∉ identity) :
    nameOf (identity ++ ' ' :: rest) = identity := by
  unfold nameOf substr
  rw [find_append_cons _ _ _ h, List.drop_zero, List.take_left]

theorem toInt_small (n : Nat) (h : n < 2 ^ 31) : toInt n = (n : Int) := by
  unfold toInt
  have e : n % 2 ^ 32 = n := Nat.mod_eq_of_lt (by omega)
  rw [e, if_pos h]

theorem toSizeT_natCast (n : Nat) (h : n < 2 ^ 31) : toSizeT (n : Int) = n := by
  unfold toSizeT
  have e : (n : Int) % 2 ^ 64 = (n : Int) := Int.emod_eq_of_lt (by omega) (by omega)
  rw [e, Int.toNat_natCast]

theorem toInt_npos : toInt npos = -1 := by decide

theorem toSizeT_neg_one : toSizeT (-1) = npos := by decide

/-- Splitting at the first comma: the field is the text before it, the rest the text
after it. -/
theorem splitField_comma (a b : Str) (h : ',' ∉ a) (hl : a.length < 2 ^ 31) :
    splitField (a ++ ',' :: b) = (a, b) := by
  unfold splitField
  simp only [find_append_cons _ _ _ h, toInt_small _ hl]
  have e1 : substr (a ++ ',' :: b) 0 (toSizeT (a.length : Int)) = a := by
    rw [toSizeT_natCast _ hl]
    unfold substr
    rw [List.drop_zero, List.take_left]
  have e2 : addSizeT (a.length : Int) 1 = a.length + 1 := by
    unfold addSizeT
    rw [toSizeT_natCast _ hl]
    exact Nat.mod_eq_of_lt (by omega)
  have e3 : erase (a ++ ',' :: b) 0 (a.length + 1) = b := by
    unfold erase
    have e4 : min (a.length + 1) ((a ++ ',' :: b).length - 0) = a.length + 1 := by
      simp
    rw [e4, List.take_zero, List.nil_append, Nat.zero_add]
    have e5 : a ++ ',' :: b = (a ++ [',']) ++ b := by simp
    rw [e5]
    have e6 : (a ++ [',']).length = a.length + 1 := by simp
    rw [← e6, List.drop_left]
  rw [e1, e2, e3]

/-- Without a comma `find` gives `npos`, the `int` is -1, and neither `substr` nor
`erase` removes anything: the field and the rest are both the whole text. -/
theorem splitField_no_comma (s : Str) (h : ',' ∉ s) (hl : s.length < 2 ^ 31) :
    splitField s = (s, s) := by
  unfold splitField
  simp only [find_not_mem _ _ h, toInt_npos, toSizeT_neg_one]
  have e1 : substr s 0 npos = s := by
    unfold substr
    rw [List.drop_zero, List.take_of_length_le]
    have : (2 : Nat) ^ 31 ≤ npos := by decide
    omega
  have e2 : addSizeT (-1) 1 = 0 := by decide
  have e3 : erase s 0 0 = s := by
    unfold erase
    simp
  rw [e1, e2, e3]

/-! ## The selection loop and the registry update -/

/-- The outcome of the selection loop over the indices `l`: either it stops at the
first index whose slot is empty or holds `name`, or no index of `l` is such and
`index` stays 0. -/
theorem slotLoop_spec (name : Str) (rd : Registry) (l : List (Fin 6)) :
    (∃ pre i post, l = pre ++ i :: post ∧ (∀ j ∈ pre, rd j 0 ≠ [] ∧ rd j 0 ≠ name) ∧
      (rd i 0 = [] ∨ rd i 0 = name) ∧
      slotLoop name rd l = (if rd i 0 = [] then setField rd i 0 name else rd, i)) ∨
    ((∀ j ∈ l, rd j 0 ≠ [] ∧ rd j 0 ≠ name) ∧ slotLoop name rd l = (rd, 0)) := by
  induction l with
  | nil => right; exact ⟨by simp, rfl⟩
  | cons a l ih =>
    by_cases h1 : rd a 0 = []
    · left
      exact ⟨[], a, l, rfl, by simp, Or.inl h1, by simp [slotLoop, h1]⟩
    · by_cases h2 : rd a 0 = name
      · left
        exact ⟨[], a, l, rfl, by simp, Or.inr h2, by rw [slotLoop, if_neg h1, if_pos h2, if_neg h1]⟩
      · have e : slotLoop name rd (a :: l) = slotLoop name rd l := by
          simp [slotLoop, h1, h2]
        rcases ih with ⟨pre, i, post, hl, hpre, hi, hres⟩ | ⟨hall, hres⟩
        · left
          refine ⟨a :: pre, i, post, by rw [hl]; rfl, ?_, hi, by rw [e, hres]⟩
          intro j hj
          rcases List.mem_cons.1 hj with rfl | hj
          · exact ⟨h1, h2⟩
          · exact hpre j hj
        · right
          refine ⟨?_, by rw [e, hres]⟩
          intro j hj
          rcases List.mem_cons.1 hj with rfl | hj
          · exact ⟨h1, h2⟩
          · exact hall j hj

theorem mem_loopIndices (n : Nat) (j : Fin 6) : j ∈ loopIndices n ↔ j.val < n := by
  simp [loopIndices, List.mem_finRange]

theorem loopIndices_sorted (n : Nat) : (loopIndices n).Pairwise (fun a b => a < b) :=
  (List.pairwise_lt_finRange 6).filter _

theorem loopIndices_split (n : Nat) (pre post : List (Fin 6)) (i : Fin 6)
    (h : loopIndices n = pre ++ i :: post) :
    i.val < n ∧ ∀ j : Fin 6, j < i → j ∈ pre := by
  have hs := loopIndices_sorted n
  rw [h] at hs
  have hi : i.val < n := by
    rw [← mem_loopIndices, h]
    simp
  refine ⟨hi, ?_⟩
  intro j hj
  have hjn : j ∈ loopIndices n := by
    rw [mem_loopIndices]
    exact lt_trans hj hi
  rw [h] at hjn
  rcases List.mem_append.1 hjn with hp | hp
  · exact hp
  · exfalso
    rcases List.mem_cons.1 hp with rfl | hp
    · exact lt_irrefl _ hj
    · have h2 := (List.pairwise_append.1 hs).2.1
      have h3 := (List.pairwise_cons.1 h2).1 j hp
      exact lt_asymm hj h3

/-- The selection loop of `poseHandler` for fleet size `n`: it selects the lowest slot
below `n` that is empty or holds `name` (claiming it when empty), and when there is
none it changes nothing and leaves `index` at 0. -/
theorem slotLoop_loopIndices (name : Str) (rd : Registry) (n : Nat) :
    (∃ i : Fin 6, i.val < n ∧ (∀ j : Fin 6, j < i → rd j 0 ≠ [] ∧ rd j 0 ≠ name) ∧
      (rd i 0 = [] ∨ rd i 0 = name) ∧
      slotLoop name rd (loopIndices n) =
        (if rd i 0 = [] then setField rd i 0 name else rd, i)) ∨
    ((∀ j : Fin 6, j.val < n → rd j 0 ≠ [] ∧ rd j 0 ≠ name) ∧
      slotLoop name rd (loopIndices n) = (rd, 0)) := by
  rcases slotLoop_spec name rd (loopIndices n) with ⟨pre, i, post, hl, hpre, hi, hres⟩ | ⟨hall, hres⟩
  · left
    have hsp := loopIndices_split n pre post i hl
    exact ⟨i, hsp.1, fun j hj => hpre j (hsp.2 j hj), hi, hres⟩
  · right
    exact ⟨fun j hj => hall j ((mem_loopIndices n j).2 hj), hres⟩

theorem updateRegistry_index (n : Nat) (rd : Registry) (msg : Str) :
    (updateRegistry n rd msg).2 = (slotLoop (nameOf msg) rd (loopIndices n)).2 := rfl

/-- The registry update writes the name column only in the selection loop. -/
theorem updateRegistry_name (n : Nat) (rd : Registry) (msg : Str) (j : Fin 6) :
    (updateRegistry n rd msg).1 j 0 = (slotLoop (nameOf msg) rd (loopIndices n)).1 j 0 := by
  simp [updateRegistry, setField_apply]

/-- The registry update leaves the slots other than the selected one as the selection
loop left them. -/
theorem updateRegistry_other (n : Nat) (rd : Registry) (msg : Str) (j : Fin 6) (k : Fin 4)
    (hj : j ≠ (updateRegistry n rd msg).2) :
    (updateRegistry n rd msg).1 j k = (slotLoop (nameOf msg) rd (loopIndices n)).1 j k := by
  rw [updateRegistry_index] at hj
  simp [updateRegistry, setField_apply, hj]

/-- The three texts the registry update stores in the selected slot. -/
theorem updateRegistry_fields (n : Nat) (rd : Registry) (msg : Str) :
    (updateRegistry n rd msg).1 (updateRegistry n rd msg).2 1
      = (splitField (stripChars msg)).1 ∧
    (updateRegistry n rd msg).1 (updateRegistry n rd msg).2 2
      = (splitField (splitField (stripChars msg)).2).1 ∧
    (updateRegistry n rd msg).1 (updateRegistry n rd msg).2 3
      = (splitField (splitField (stripChars msg)).2).2 := by
  simp [updateRegistry, setField_apply]

/-- The handler changes the registry by `updateRegistry` and nothing else of the fleet
size, the registry or the rover name. -/
theorem poseHandler_registry {F : Type} (M : FloatOps F) (st : State F) (msg : Str) :
    (poseHandler M st msg).1.rover_data
      = (updateRegistry st.n_o_r st.rover_data (cStr msg)).1 ∧
    (poseHandler M st msg).1.n_o_r = st.n_o_r := by
  unfold poseHandler
  by_cases h3 : st.n_o_r = 3
  · by_cases h0 : (updateRegistry 3 st.rover_data (cStr msg)).2 = 0 <;> simp [h3, h0]
  · by_cases h6 : st.n_o_r = 6 <;> simp [h3, h6]

/-- The selection loop changes at most the name of the slot it selects. -/
theorem slotLoop_other (name : Str) (rd : Registry) (n : Nat) (j : Fin 6) (k : Fin 4)
    (h : j ≠ (slotLoop name rd (loopIndices n)).2 ∨ k ≠ 0) :
    (slotLoop name rd (loopIndices n)).1 j k = rd j k := by
  rcases slotLoop_loopIndices name rd n with ⟨i, _, _, _, hres⟩ | ⟨_, hres⟩
  · rw [hres] at h ⊢
    by_cases he : rd i 0 = []
    · simp only [he, if_true, setField_apply]
      rw [if_neg]
      rintro ⟨rfl, rfl⟩
      simp at h
    · simp [he]
  · rw [hres]

/-- A non-empty name is never overwritten by the selection loop. -/
theorem slotLoop_keeps_name (name : Str) (rd : Registry) (n : Nat) (j : Fin 6)
    (h : rd j 0 ≠ []) : (slotLoop name rd (loopIndices n)).1 j 0 = rd j 0 := by
  rcases slotLoop_loopIndices name rd n with ⟨i, _, _, _, hres⟩ | ⟨_, hres⟩
  · rw [hres]
    by_cases he : rd i 0 = []
    · simp only [he, if_true, setField_apply]
      rw [if_neg]
      rintro ⟨rfl, _⟩
      exact h he
    · simp [he]
  · rw [hres]

/-- The selection loop gives a name only to a slot below the fleet size. -/
theorem slotLoop_claims_below (name : Str) (rd : Registry) (n : Nat) (j : Fin 6)
    (h0 : rd j 0 = []) (h1 : (slotLoop name rd (loopIndices n)).1 j 0 ≠ []) : j.val < n := by
  rcases slotLoop_loopIndices name rd n with ⟨i, hin, _, _, hres⟩ | ⟨_, hres⟩
  · rw [hres] at h1
    by_cases hj : j = i
    · rw [hj]; exact hin
    · exfalso
      apply h1
      by_cases he : rd i 0 = []
      · simp [he, setField_apply, hj, h0]
      · simp [he, h0]
  · rw [hres] at h1
    exact absurd h0 h1

/-- One registry update keeps the shape of the name column. -/
theorem registryInv_step (n : Nat) (rd : Registry) (msg : Str) (h : registryInv n rd) :
    registryInv n (updateRegistry n rd msg).1 := by
  obtain ⟨hpre, hdis, hbnd⟩ := h
  have hname : ∀ j, (updateRegistry n rd msg).1 j 0
      = (slotLoop (nameOf msg) rd (loopIndices n)).1 j 0 := updateRegistry_name n rd msg
  rcases slotLoop_loopIndices (nameOf msg) rd n with ⟨i, hin, hbefore, hi, hres⟩ | ⟨_, hres⟩
  · by_cases he : rd i 0 = []
    · by_cases hn : nameOf msg = []
      · have hsame : ∀ j, (updateRegistry n rd msg).1 j 0 = rd j 0 := by
          intro j
          rw [hname, hres]
          simp only [he, if_true, setField_apply]
          by_cases hj : j = i
          · subst hj; simp [hn, he]
          · simp [hj]
        refine ⟨?_, ?_, ?_⟩
        · intro a b hab; rw [hsame, hsame]; exact hpre a b hab
        · intro a b; rw [hsame, hsame]; exact hdis a b
        · intro a; rw [hsame]; exact hbnd a
      · have hnew : ∀ j, (updateRegistry n rd msg).1 j 0
            = if j = i then nameOf msg else rd j 0 := by
          intro j
          rw [hname, hres]
          simp only [he, if_true, setField_apply]
          by_cases hj : j = i <;> simp [hj]
        refine ⟨?_, ?_, ?_⟩
        · intro a b hab
          rw [hnew, hnew]
          by_cases ha : a = i
          · simp [ha, hn]
          · by_cases hb : b = i
            · subst hb
              simp only [ha, if_false, if_true]
              intro h0
              exact absurd h0 (hbefore a hab).1
            · simp only [ha, hb, if_false]
              exact hpre a b hab
        · intro a b
          rw [hnew, hnew]
          by_cases ha : a = i
          · by_cases hb : b = i
            · intro _ _; rw [ha, hb]
            · simp only [ha, hb, if_true, if_false]
              intro _ hab
              exfalso
              rcases lt_or_gt_of_ne hb with hlt | hgt
              · exact (hbefore b hlt).2 hab.symm
              · exact hn (hab.trans (hpre i b hgt he))
          · by_cases hb : b = i
            · simp only [ha, hb, if_true, if_false]
              intro hne hab
              exfalso
              rcases lt_or_gt_of_ne ha with hlt | hgt
              · exact (hbefore a hlt).2 hab
              · exact hne (hpre i a hgt he)
            · simp only [ha, hb, if_false]
              exact hdis a b
        · intro a ha
          rw [hnew]
          have hai : a ≠ i := by
            rintro rfl
            omega
          simp only [hai, if_false]
          exact hbnd a ha
    · have hsame : ∀ j, (updateRegistry n rd msg).1 j 0 = rd j 0 := by
        intro j
        rw [hname, hres]
        simp [he]
      refine ⟨?_, ?_, ?_⟩
      · intro a b hab; rw [hsame, hsame]; exact hpre a b hab
      · intro a b; rw [hsame, hsame]; exact hdis a b
      · intro a; rw [hsame]; exact hbnd a
  · have hsame : ∀ j, (updateRegistry n rd msg).1 j 0 = rd j 0 := by
      intro j
      rw [hname, hres]
    refine ⟨?_, ?_, ?_⟩
    · intro a b hab; rw [hsame, hsame]; exact hpre a b hab
    · intro a b; rw [hsame, hsame]; exact hdis a b
    · intro a; rw [hsame]; exact hbnd a

/-- Every reachable state has a registry of the shape `registryInv`. -/
theorem registryInv_reachable {F : Type} (M : FloatOps F) (st : State F) (h : Reachable M st) :
    registryInv st.n_o_r st.rover_data := by
  induction h with
  | start st h0 =>
    rw [h0]
    exact ⟨fun _ _ _ _ => rfl, fun _ _ hne _ => absurd rfl hne, fun _ _ => rfl⟩
  | pose st msg _ ih =>
    rw [(poseHandler_registry M st msg).1, (poseHandler_registry M st msg).2]
    exact registryInv_step _ _ (cStr msg) ih

/-! ## Decoding a well-formed message -/

theorem cStr_of_no_nul (s : Str) (h : ∀ c ∈ s, c ≠ '\x00') : cStr s = s := by
  unfold cStr
  rw [List.takeWhile_eq_self_iff]
  intro c hc
  simp [h c hc]

theorem cStr_length_le (s : Str) : (cStr s).length ≤ s.length := by
  unfold cStr
  exact (List.takeWhile_sublist _).length_le

theorem removed_not_nul (c : Char) (h : c ∈ remove_char) : c ≠ '\x00' := by
  rintro rfl
  revert h
  decide

theorem numeral_not_nul (c : Char) (h : isNumeralChar c) : c ≠ '\x00' := by
  rintro rfl
  revert h
  unfold isNumeralChar
  decide

/-- A message made of an identity of letters and parentheses and of plain numerals
contains no NUL, so `c_str()` gives all of it. -/
theorem cStr_message (identity sx sy st sep : Str)
    (hid : ∀ c ∈ identity, isLetterOrParen c) (hsep : ∀ c ∈ sep, c ∈ remove_char)
    (hx : ∀ c ∈ sx, isNumeralChar c) (hy : ∀ c ∈ sy, isNumeralChar c)
    (ht : ∀ c ∈ st, isNumeralChar c) :
    cStr (identity ++ " (".toList ++ sx ++ (',' :: sep) ++ sy ++ (',' :: sep) ++ st
        ++ ")".toList)
      = identity ++ " (".toList ++ sx ++ (',' :: sep) ++ sy ++ (',' :: sep) ++ st
        ++ ")".toList := by
  apply cStr_of_no_nul
  intro c hc
  simp only [List.mem_append, List.mem_cons, String.toList, List.mem_singleton] at hc
  rcases hc with (((((((hc | hc) | hc) | hc) | hc) | hc) | hc) | hc)
  · exact removed_not_nul c (hid c hc).1
  · rcases hc with rfl | rfl | hc
    · decide
    · decide
    · simp at hc
  · exact numeral_not_nul c (hx c hc)
  · rcases hc with rfl | hc
    · decide
    · exact removed_not_nul c (hsep c hc)
  · exact numeral_not_nul c (hy c hc)
  · rcases hc with rfl | hc
    · decide
    · exact removed_not_nul c (hsep c hc)
  · exact numeral_not_nul c (ht c hc)
  · rcases hc with rfl | hc
    · decide
    · simp at hc

theorem numeral_not_removed (c : Char) (h : isNumeralChar c) : c ∉ remove_char := by
  simp only [isNumeralChar, String.toList, List.mem_cons, List.mem_singleton] at h
  rcases h with h | h | h | h | h | h | h | h | h | h | h | h | h
  all_goals first
    | (subst h; decide)
    | simp at h

theorem numeral_not_comma (a : Str) (h : ∀ c ∈ a, isNumeralChar c) : ',' ∉ a := by
  intro hc
  have h1 := h ',' hc
  revert h1
  unfold isNumeralChar
  decide

theorem letters_no_space (a : Str) (h : ∀ c ∈ a, isLetterOrParen c) : ' ' ∉ a :=
  fun hc => (h ' ' hc).2 rfl

theorem stripChars_length_le (msg : Str) : (stripChars msg).length ≤ msg.length := by
  rw [stripChars_eq_filter]
  exact List.length_filter_le _ _

/-- The stripped text of a message whose fields are plain numerals, with any text
`sep` of spaces after each comma: the stripped identity, then the three numerals
separated by commas. -/
theorem stripChars_message (identity sx sy st sep : Str)
    (hsep : ∀ c ∈ sep, c ∈ remove_char)
    (hx : ∀ c ∈ sx, isNumeralChar c) (hy : ∀ c ∈ sy, isNumeralChar c)
    (ht : ∀ c ∈ st, isNumeralChar c) :
    stripChars (identity ++ " (".toList ++ sx ++ (',' :: sep) ++ sy ++ (',' :: sep) ++ st
        ++ ")".toList)
      = stripChars identity ++ (sx ++ ',' :: (sy ++ ',' :: st)) := by
  have k1 : stripChars " (".toList = [] := by decide
  have k2 : stripChars ")".toList = [] := by decide
  have k3 : stripChars (',' :: sep) = [','] := by
    have : (',' :: sep) = [','] ++ sep := rfl
    rw [this, stripChars_append, stripChars_removed sep hsep]
    decide
  simp only [stripChars_append, k1, k2, k3,
    stripChars_kept sx (fun c hc => numeral_not_removed c (hx c hc)),
    stripChars_kept sy (fun c hc => numeral_not_removed c (hy c hc)),
    stripChars_kept st (fun c hc => numeral_not_removed c (ht c hc))]
  simp

/-- The two splitting rounds on three numerals separated by commas give the numerals. -/
theorem splitField_numerals (sx sy st : Str) (hx : ∀ c ∈ sx, isNumeralChar c)
    (hy : ∀ c ∈ sy, isNumeralChar c)
    (hlen : (sx ++ ',' :: (sy ++ ',' :: st)).length < 2 ^ 31) :
    (splitField (sx ++ ',' :: (sy ++ ',' :: st))).1 = sx ∧
    (splitField (splitField (sx ++ ',' :: (sy ++ ',' :: st))).2).1 = sy ∧
    (splitField (splitField (sx ++ ',' :: (sy ++ ',' :: st))).2).2 = st := by
  simp only [List.length_append, List.length_cons] at hlen
  rw [splitField_comma sx _ (numeral_not_comma sx hx) (by omega),
    splitField_comma sy _ (numeral_not_comma sy hy) (by omega)]
  exact ⟨rfl, rfl, rfl⟩

/-- Decoding a message whose identity is made of letters and parentheses and whose
fields are plain numerals (with `sep` after the commas): the selected slot receives
exactly the three numerals. -/
theorem decode_fields (n : Nat) (rd : Registry) (identity sx sy st sep : Str)
    (hid : ∀ c ∈ identity, isLetterOrParen c) (hsep : ∀ c ∈ sep, c ∈ remove_char)
    (hx : ∀ c ∈ sx, isNumeralChar c) (hy : ∀ c ∈ sy, isNumeralChar c)
    (ht : ∀ c ∈ st, isNumeralChar c)
    (hlen : (identity ++ " (".toList ++ sx ++ (',' :: sep) ++ sy ++ (',' :: sep) ++ st
        ++ ")".toList).length < 2 ^ 31) :
    nameOf (identity ++ " (".toList ++ sx ++ (',' :: sep) ++ sy ++ (',' :: sep) ++ st
        ++ ")".toList) = identity ∧
    (updateRegistry n rd (identity ++ " (".toList ++ sx ++ (',' :: sep) ++ sy ++ (',' :: sep)
        ++ st ++ ")".toList)).1
      (updateRegistry n rd (identity ++ " (".toList ++ sx ++ (',' :: sep) ++ sy ++ (',' :: sep)
        ++ st ++ ")".toList)).2 1 = sx ∧
    (updateRegistry n rd (identity ++ " (".toList ++ sx ++ (',' :: sep) ++ sy ++ (',' :: sep)
        ++ st ++ ")".toList)).1
      (updateRegistry n rd (identity ++ " (".toList ++ sx ++ (',' :: sep) ++ sy ++ (',' :: sep)
        ++ st ++ ")".toList)).2 2 = sy ∧
    (updateRegistry n rd (identity ++ " (".toList ++ sx ++ (',' :: sep) ++ sy ++ (',' :: sep)
        ++ st ++ ")".toList)).1
      (updateRegistry n rd (identity ++ " (".toList ++ sx ++ (',' :: sep) ++ sy ++ (',' :: sep)
        ++ st ++ ")".toList)).2 3 = st := by
  have hs := stripChars_message identity sx sy st sep hsep hx hy ht
  rw [stripChars_removed identity (fun c hc => (hid c hc).1), List.nil_append] at hs
  have hle := stripChars_length_le (identity ++ " (".toList ++ sx ++ (',' :: sep) ++ sy
    ++ (',' :: sep) ++ st ++ ")".toList)
  rw [hs] at hle
  have hf := updateRegistry_fields n rd (identity ++ " (".toList ++ sx ++ (',' :: sep) ++ sy
    ++ (',' :: sep) ++ st ++ ")".toList)
  rw [hs] at hf
  have hsp := splitField_numerals sx sy st hx hy (by omega)
  refine ⟨?_, hf.1.trans hsp.1, hf.2.1.trans hsp.2.1, hf.2.2.trans hsp.2.2⟩
  have e : identity ++ " (".toList ++ sx ++ (',' :: sep) ++ sy ++ (',' :: sep) ++ st
      ++ ")".toList = identity ++ ' ' :: ('(' :: (sx ++ (',' :: sep) ++ sy ++ (',' :: sep) ++ st
      ++ ")".toList)) := by simp
  rw [e]
  exact nameOf_append _ _ (letters_no_space identity hid)

/-- When a slot below the fleet size is empty or holds the identity of the message,
the selected slot holds that identity after the update. -/
theorem updateRegistry_selected_name (n : Nat) (rd : Registry) (msg : Str)
    (hslot : ∃ i : Fin 6, i.val < n ∧ (rd i 0 = [] ∨ rd i 0 = nameOf msg)) :
    (updateRegistry n rd msg).1 (updateRegistry n rd msg).2 0 = nameOf msg := by
  rw [updateRegistry_name, updateRegistry_index]
  rcases slotLoop_loopIndices (nameOf msg) rd n with ⟨i, _, _, hi, hres⟩ | ⟨hall, _⟩
  · rw [hres]
    by_cases he : rd i 0 = []
    · simp [he, setField_apply]
    · rcases hi with hi | hi
      · exact absurd hi he
      · rw [if_neg he]
        exact hi
  · obtain ⟨i, hin, hi⟩ := hslot
    rcases hi with hi | hi
    · exact absurd hi (hall i hin).1
    · exact absurd hi (hall i hin).2

/-- The handler leaves every slot other than the selected one as it was. -/
theorem poseHandler_other {F : Type} (M : FloatOps F) (st : State F) (msg : Str) (j : Fin 6)
    (k : Fin 4) (hj : j ≠ poseIndex st msg) :
    (poseHandler M st msg).1.rover_data j k = st.rover_data j k := by
  rw [(poseHandler_registry M st msg).1, updateRegistry_other _ _ _ _ _ hj]
  exact slotLoop_other _ _ _ _ _ (Or.inl hj)

/-- The handler never overwrites a non-empty name. -/
theorem poseHandler_keeps_name {F : Type} (M : FloatOps F) (st : State F) (msg : Str)
    (j : Fin 6) (h : st.rover_data j 0 ≠ []) :
    (poseHandler M st msg).1.rover_data j 0 = st.rover_data j 0 := by
  rw [(poseHandler_registry M st msg).1, updateRegistry_name]
  exact slotLoop_keeps_name _ _ _ _ h

theorem claimedCount_le_of_bound (n : Nat) (rd : Registry)
    (h : ∀ i : Fin 6, rd i 0 ≠ [] → i.val < n) : claimedCount rd ≤ n := by
  unfold claimedCount
  have h1 : (Finset.univ.filter (fun i : Fin 6 => rd i 0 ≠ [])).card
      ≤ (Finset.range n).card := by
    apply Finset.card_le_card_of_injOn (fun i : Fin 6 => i.val)
    · intro i hi
      have hi2 := (Finset.mem_filter.1 (Finset.mem_coe.1 hi)).2
      exact Finset.mem_coe.2 (Finset.mem_range.2 (h i hi2))
    · intro a _ b _ hab
      exact Fin.ext hab
  rwa [Finset.card_range] at h1

/-! ## The idealised arithmetic on numbers -/

@[simp] theorem realOps_lit (q : ℚ) : realOps.lit q = some (q : ℝ) := rfl

@[simp] theorem realOps_add (x y : ℝ) : realOps.add (some x) (some y) = some (x + y) := rfl

@[simp] theorem realOps_sub (x y : ℝ) : realOps.sub (some x) (some y) = some (x - y) := rfl

@[simp] theorem realOps_mul (x y : ℝ) : realOps.mul (some x) (some y) = some (x * y) := rfl

@[simp] theorem realOps_neg (x : ℝ) : realOps.neg (some x) = some (-x) := rfl

@[simp] theorem realOps_cos (x : ℝ) : realOps.cos (some x) = some (Real.cos x) := rfl

@[simp] theorem realOps_sin (x : ℝ) : realOps.sin (some x) = some (Real.sin x) := rfl

@[simp] theorem realOps_atan2 (y x : ℝ) :
    realOps.atan2 (some y) (some x) = some (Complex.arg ⟨x, y⟩) := rfl

@[simp] theorem realOps_le (x y : ℝ) : realOps.le (some x) (some y) = decide (x ≤ y) := rfl

@[simp] theorem realOps_add_none_left (b : RealNaN) : realOps.add none b = none := rfl

@[simp] theorem realOps_add_none_right (a : RealNaN) : realOps.add a none = none := by
  cases a <;> rfl

@[simp] theorem realOps_sub_none_left (b : RealNaN) : realOps.sub none b = none := rfl

@[simp] theorem realOps_mul_none_left (b : RealNaN) : realOps.mul none b = none := rfl

@[simp] theorem realOps_sub_none_right (a : RealNaN) : realOps.sub a none = none := by
  cases a <;> rfl

@[simp] theorem realOps_mul_none_right (a : RealNaN) : realOps.mul a none = none := by
  cases a <;> rfl

@[simp] theorem realOps_atan2_none_left (b : RealNaN) : realOps.atan2 none b = none := rfl

@[simp] theorem realOps_atan2_none_right (a : RealNaN) : realOps.atan2 a none = none := by
  cases a <;> rfl

theorem realOps_div (x y : ℝ) :
    realOps.div (some x) (some y) = if y = 0 then none else some (x / y) := rfl

theorem realOps_sqrt (x : ℝ) :
    realOps.sqrt (some x) = if x < 0 then none else some (Real.sqrt x) := rfl

theorem realOps_strtof (s : Str) :
    realOps.strtof s = some (((strtofDec s).1 : ℝ) * (10 : ℝ) ^ (strtofDec s).2) := rfl

theorem realOps_strtof_numVal (s : Str) : realOps.strtof s = some (numVal s) := rfl

theorem numVal_of_dec {s : Str} {m : Int} (h : strtofDec s = (m, 0)) : numVal s = m := by
  simp [numVal, h]

theorem vec6_five {α : Type} (a b c d e f : α) : (![a, b, c, d, e, f] : Fin 6 → α) 5 = f := rfl

theorem coordDif_real (rd : Registry) (i j : Fin 6) (k : Fin 4) :
    coordDif realOps rd i j k = some (numVal (rd i k) - numVal (rd j k)) := rfl

theorem unitVec_real (rd : Registry) (i : Fin 6) :
    unitVec realOps rd i =
      (some (Real.cos (numVal (rd i 3))), some (Real.sin (numVal (rd i 3)))) := rfl

theorem distance_real (rd : Registry) (i j : Fin 6) :
    distance realOps rd i j = some (Real.sqrt
      ((numVal (rd i 1) - numVal (rd j 1)) * (numVal (rd i 1) - numVal (rd j 1)) +
       (numVal (rd i 2) - numVal (rd j 2)) * (numVal (rd i 2) - numVal (rd j 2)))) := by
  simp only [distance, coordDif_real, realOps_mul, realOps_add, realOps_sqrt]
  rw [if_neg]
  have h1 := mul_self_nonneg (numVal (rd i 1) - numVal (rd j 1))
  have h2 := mul_self_nonneg (numVal (rd i 2) - numVal (rd j 2))
  linarith

/-- In the idealised arithmetic the test `d <= r` on the distance of two slots compares
the squared distance of their positions with the square of `r`. -/
theorem within_iff (rd : Registry) (i j : Fin 6) (r : ℚ) (hr : 0 ≤ r) :
    realOps.le (distance realOps rd i j) (realOps.lit r) = true ↔
      (numVal (rd i 1) - numVal (rd j 1)) * (numVal (rd i 1) - numVal (rd j 1)) +
       (numVal (rd i 2) - numVal (rd j 2)) * (numVal (rd i 2) - numVal (rd j 2)) ≤ (r : ℝ) ^ 2 := by
  have hr1 : (0 : ℝ) ≤ (r : ℝ) := by exact_mod_cast hr
  rw [distance_real, realOps_lit, realOps_le, decide_eq_true_iff, Real.sqrt_le_left hr1]

/-! ## The fleet-of-6 blend -/

/-- Each of the six branches is its start values, the per-peer block for its five peers
in the order of the branch, and the common end of the branch. -/
theorem blend6_eq_sums {F : Type} (M : FloatOps F) (rd : Registry) (i : Fin 6) :
    blend6 M rd i = blendFinish M (blendSums M rd i) := by
  fin_cases i <;> rfl

theorem poseHandler_six {F : Type} (M : FloatOps F) (st : State F) (msg : Str)
    (h6 : st.n_o_r = 6) :
    poseHandler M st msg =
      ({ st with
          rover_data := (updateRegistry 6 st.rover_data (cStr msg)).1
          glob_average := globAverage6 M (updateRegistry 6 st.rover_data (cStr msg)).1
          local_average :=
            (blend6 M (updateRegistry 6 st.rover_data (cStr msg)).1
              (updateRegistry 6 st.rover_data (cStr msg)).2).local_average
          combined_theta :=
            (blend6 M (updateRegistry 6 st.rover_data (cStr msg)).1
              (updateRegistry 6 st.rover_data (cStr msg)).2).combined_theta
          local_average_position :=
            (blend6 M (updateRegistry 6 st.rover_data (cStr msg)).1
              (updateRegistry 6 st.rover_data (cStr msg)).2).local_average_position },
        [Effect.globalAverageHeading (globAverage6 M (updateRegistry 6 st.rover_data (cStr msg)).1),
          Effect.localAverageHeading st.rover_name
            (blend6 M (updateRegistry 6 st.rover_data (cStr msg)).1
              (updateRegistry 6 st.rover_data (cStr msg)).2).num_neighbors true
            (blend6 M (updateRegistry 6 st.rover_data (cStr msg)).1
              (updateRegistry 6 st.rover_data (cStr msg)).2).combined_theta]) := by
  simp [poseHandler, h6]

theorem peerStep_far {F : Type} (M : FloatOps F) (rd : Registry) (i j : Fin 6) (acc : BlendAcc F)
    (h : M.le (distance M rd i j) (M.lit 2) = false) : peerStep M rd i acc j = acc := by
  simp only [distance] at h
  simp [peerStep, h]

theorem peerStep_sep {F : Type} (M : FloatOps F) (rd : Registry) (i j : Fin 6) (acc : BlendAcc F)
    (h2 : M.le (distance M rd i j) (M.lit 2) = true)
    (h1 : M.le (distance M rd i j) (M.lit 1) = true) :
    peerStep M rd i acc j =
      { g_avg := (M.add acc.g_avg.1 (unitVec M rd j).2, M.add acc.g_avg.2 (unitVec M rd j).1)
        loc_positions := (M.add acc.loc_positions.1 (coordDif M rd i j 1),
          M.add acc.loc_positions.2 (coordDif M rd i j 2))
        seperation := (M.add acc.seperation.1 (coordDif M rd i j 1),
          M.add acc.seperation.2 (coordDif M rd i j 2))
        num_neighbors := acc.num_neighbors + 1 } := by
  simp only [distance] at h1 h2
  simp [peerStep, h1, h2]

/-- With no other slot within distance 2 the five peer blocks change nothing. -/
theorem blendSums_alone {F : Type} (M : FloatOps F) (rd : Registry) (i : Fin 6)
    (hfar : ∀ j, j ≠ i → M.le (distance M rd i j) (M.lit 2) = false) :
    blendSums M rd i = blendStart M rd i := by
  have hne : ∀ i : Fin 6, ∀ j ∈ peersOf i, j ≠ i := by decide
  have key : ∀ (l : List (Fin 6)) (acc : BlendAcc F), (∀ j ∈ l, j ≠ i) →
      l.foldl (peerStep M rd i) acc = acc := by
    intro l
    induction l with
    | nil => intro acc _; rfl
    | cons j l ih =>
      intro acc hl
      rw [List.foldl_cons, peerStep_far M rd i j acc (hfar j (hl j (List.mem_cons_self j l)))]
      exact ih acc (fun k hk => hl k (List.mem_cons_of_mem j hk))
  exact key _ _ (hne i)

/-- The end of a branch that found no neighbour: the division of the zero cohesion
sum by its zero norm is NaN, and so is `combined_theta`. -/
theorem blendFinish_start (rd : Registry) (i : Fin 6) :
    blendFinish realOps (blendStart realOps rd i) =
      { num_neighbors := 1
        local_average := some 0
        combined_theta := none
        local_average_position := none } := by
  simp [blendFinish, blendStart, unitVec_real, realOps_sqrt, realOps_div]

theorem blend6_alone (rd : Registry) (i : Fin 6) (hfar : isolated realOps rd i) :
    blend6 realOps rd i =
      { num_neighbors := 1
        local_average := some 0
        combined_theta := none
        local_average_position := none } := by
  rw [blend6_eq_sums, blendSums_alone realOps rd i hfar, blendFinish_start]

theorem isolated_setField_theta (rd : Registry) (i : Fin 6) (theta : Str)
    (hfar : isolated realOps rd i) : isolated realOps (setField rd i 3 theta) i := by
  intro j hj
  have h := hfar j hj
  have e : ∀ (a : Fin 6) (k : Fin 4), k ≠ 3 → setField rd i 3 theta a k = rd a k := by
    intro a k hk
    by_cases ha : a = i
    · subst ha; simp [setField, Function.update_noteq hk]
    · simp [setField, Function.update_noteq ha]
  simp only [distance, coordDif] at h ⊢
  rw [e i 1 (by decide), e i 2 (by decide), e j 1 (by decide), e j 2 (by decide)]
  exact h

theorem soloRegistry_update :
    updateRegistry 6 soloRegistry (cStr soloMessage) = (soloRegistry, 0) := by decide

theorem soloRegistry_index : poseIndex (stateOf realOps 6 soloRegistry) soloMessage = 0 := by
  show (updateRegistry 6 soloRegistry (cStr soloMessage)).2 = 0
  rw [soloRegistry_update]

theorem soloRegistry_isolated : isolated realOps soloRegistry 0 := by
  have hx : ∀ j, strtofDec (soloRegistry j 1) = (![0, 3, -3, 0, 0, 3] j, 0) := by decide
  have hy : ∀ j, strtofDec (soloRegistry j 2) = (![0, 0, 0, 3, -3, 0] j, 0) := by decide
  intro j hj
  rw [Bool.eq_false_iff, Ne, within_iff _ _ _ _ (by norm_num), numVal_of_dec (hx _),
    numVal_of_dec (hx _), numVal_of_dec (hy _), numVal_of_dec (hy _)]
  fin_cases j <;> simp [vec6_five] at hj ⊢ <;> norm_num

theorem arg_of_nonneg (x : ℝ) (hx : 0 ≤ x) : Complex.arg ⟨x, 0⟩ = 0 := by
  have : (⟨x, 0⟩ : ℂ) = ((x : ℝ) : ℂ) := by apply Complex.ext <;> simp
  rw [this, Complex.arg_ofReal_of_nonneg hx]

theorem arg_of_neg (x : ℝ) (hx : x < 0) : Complex.arg ⟨x, 0⟩ = Real.pi := by
  have : (⟨x, 0⟩ : ℂ) = ((x : ℝ) : ℂ) := by apply Complex.ext <;> simp
  rw [this, Complex.arg_ofReal_of_neg hx]

theorem arg_zero_one : Complex.arg ⟨0, 1⟩ = Real.pi / 2 := by
  have : (⟨0, 1⟩ : ℂ) = Complex.I := by apply Complex.ext <;> simp
  rw [this, Complex.arg_I]

theorem pairRegistry_update :
    updateRegistry 6 pairRegistry (cStr pairMessage) = (pairRegistry, 0) := by decide

theorem pairRegistry_index : poseIndex (stateOf realOps 6 pairRegistry) pairMessage = 0 := by
  show (updateRegistry 6 pairRegistry (cStr pairMessage)).2 = 0
  rw [pairRegistry_update]

theorem pairRegistry_x (j : Fin 6) :
    numVal (pairRegistry j 1) = ((![0, 1, -3, 0, 0, 3] j : ℤ) : ℝ) :=
  numVal_of_dec ((by decide :
    ∀ j, strtofDec (pairRegistry j 1) = (![0, 1, -3, 0, 0, 3] j, 0)) j)

theorem pairRegistry_y (j : Fin 6) :
    numVal (pairRegistry j 2) = ((![0, 0, 0, 3, -3, 0] j : ℤ) : ℝ) :=
  numVal_of_dec ((by decide :
    ∀ j, strtofDec (pairRegistry j 2) = (![0, 0, 0, 3, -3, 0] j, 0)) j)

theorem pairRegistry_theta (j : Fin 6) : numVal (pairRegistry j 3) = 0 := by
  rw [numVal_of_dec ((by decide : ∀ j, strtofDec (pairRegistry j 3) = (0, 0)) j)]
  simp

/-- In `pairRegistry` the slots 2 to 5 are farther than `r` from slot 0 when `r ≤ 2`. -/
theorem pairRegistry_far (r : ℚ) (h0 : 0 ≤ r) (h2 : r ≤ 2) (j : Fin 6) (hj0 : j ≠ 0)
    (hj1 : j ≠ 1) : realOps.le (distance realOps pairRegistry 0 j) (realOps.lit r) = false := by
  have hr0 : (0 : ℝ) ≤ (r : ℝ) := by exact_mod_cast h0
  have hr2 : (r : ℝ) ≤ 2 := by exact_mod_cast h2
  have hsq : (r : ℝ) ^ 2 < 9 := by nlinarith
  rw [Bool.eq_false_iff, Ne, within_iff _ _ _ _ h0, pairRegistry_x, pairRegistry_x,
    pairRegistry_y, pairRegistry_y]
  fin_cases j <;> simp [vec6_five] at hj0 hj1 ⊢ <;> linarith

/-- In `pairRegistry` slot 1 is within `r` of slot 0 when `1 ≤ r`. -/
theorem pairRegistry_near (r : ℚ) (hr : 1 ≤ r) :
    realOps.le (distance realOps pairRegistry 0 1) (realOps.lit r) = true := by
  have hr1 : (1 : ℝ) ≤ (r : ℝ) := by exact_mod_cast hr
  rw [within_iff _ _ _ _ (by linarith), pairRegistry_x, pairRegistry_x, pairRegistry_y,
    pairRegistry_y]
  have h2 : (1 : ℝ) ≤ (r : ℝ) ^ 2 := by nlinarith
  simpa using h2

theorem pairRegistry_blend :
    blend6 realOps pairRegistry 0 =
      { num_neighbors := 2
        local_average := some (Real.pi / 2)
        combined_theta := some 0
        local_average_position := some 0 } := by
  have hs : blendSums realOps pairRegistry 0 =
      { g_avg := (some 0, some 2)
        loc_positions := (some (-1), some 0)
        seperation := (some (-1), some 0)
        num_neighbors := 2 } := by
    simp only [blendSums, peersOf, if_true, List.foldl]
    rw [peerStep_sep realOps _ _ _ _ (pairRegistry_near 2 (by norm_num))
        (pairRegistry_near 1 (by norm_num)),
      peerStep_far realOps _ _ _ _ (pairRegistry_far 2 (by norm_num) (by norm_num) 2
        (by decide) (by decide)),
      peerStep_far realOps _ _ _ _ (pairRegistry_far 2 (by norm_num) (by norm_num) 3
        (by decide) (by decide)),
      peerStep_far realOps _ _ _ _ (pairRegistry_far 2 (by norm_num) (by norm_num) 4
        (by decide) (by decide)),
      peerStep_far realOps _ _ _ _ (pairRegistry_far 2 (by norm_num) (by norm_num) 5
        (by decide) (by decide))]
    simp [blendStart, unitVec_real, coordDif_real, pairRegistry_x, pairRegistry_y,
      pairRegistry_theta]
    norm_num
  rw [blend6_eq_sums, hs]
  norm_num [blendFinish, realOps_sqrt, realOps_div, arg_of_nonneg, arg_zero_one]

theorem translateAngular_real (c t : ℝ) :
    translateAngular realOps (some c) (some t) = some (1 / 10 * (c - t)) := by
  simp [translateAngular]

/-! ## The claims -/

/-- C1 (the code at the failing input): the six slots are claimed, slot 0 is at the
origin with the stored heading 1 and every other slot is at distance 3, so no other
slot lies within distance 2 of slot 0.  After a broadcast of slot 0 `combined_theta`
is NaN, the zero cohesion sum divided by its zero norm, and not the stored heading
1, and the angular velocity for the current heading 1 is NaN and not 0.  The same
NaN results for every registry and every slot without a neighbour. -/
theorem C1_lone_slot_heading_is_nan :
    (poseHandler realOps (stateOf realOps 6 soloRegistry) soloMessage).1.rover_data
      = soloRegistry ∧
    poseIndex (stateOf realOps 6 soloRegistry) soloMessage = 0 ∧
    isolated realOps soloRegistry 0 ∧
    realOps.strtof (soloRegistry 0 3) = some 1 ∧
    (poseHandler realOps (stateOf realOps 6 soloRegistry) soloMessage).1.combined_theta
      = none ∧
    (poseHandler realOps (stateOf realOps 6 soloRegistry) soloMessage).1.combined_theta
      ≠ some 1 ∧
    translateAngular realOps
      (poseHandler realOps (stateOf realOps 6 soloRegistry) soloMessage).1.combined_theta
      (some 1) = none ∧
    translateAngular realOps
      (poseHandler realOps (stateOf realOps 6 soloRegistry) soloMessage).1.combined_theta
      (some 1) ≠ some 0 ∧
    (∀ (rd : Registry) (i : Fin 6), isolated realOps rd i →
      (blend6 realOps rd i).combined_theta = none) := by
  have hp := poseHandler_six realOps (stateOf realOps 6 soloRegistry) soloMessage rfl
  have hu : updateRegistry 6 (stateOf realOps 6 soloRegistry).rover_data (cStr soloMessage)
      = (soloRegistry, 0) := soloRegistry_update
  rw [hu] at hp
  simp only [blend6_alone soloRegistry 0 soloRegistry_isolated] at hp
  have ht : strtofDec (soloRegistry 0 3) = (1, 0) := by decide
  refine ⟨by rw [hp], soloRegistry_index, soloRegistry_isolated, ?_, by rw [hp],
    by rw [hp]; simp, by rw [hp]; simp [translateAngular],
    by rw [hp]; simp [translateAngular], ?_⟩
  · rw [realOps_strtof_numVal, numVal_of_dec ht]; simp
  · intro rd i hfar
    rw [blend6_alone rd i hfar]

/-- C2 (the code at the failing input): slot 0 is at the origin, slot 1 at (1, 0) is its
only peer within distance 1 (the others are at distance 3).  After a broadcast of
slot 0 `combined_theta` is 0, the direction from slot 0 towards slot 1,
atan2(y_1 - y_0, x_1 - x_0), and not pi, the direction atan2(y_0 - y_1, x_0 - x_1)
pointing away from it. -/
theorem C2_heads_toward_peer :
    (poseHandler realOps (stateOf realOps 6 pairRegistry) pairMessage).1.rover_data
      = pairRegistry ∧
    poseIndex (stateOf realOps 6 pairRegistry) pairMessage = 0 ∧
    (∀ j : Fin 6, j ≠ 0 →
      (realOps.le (distance realOps pairRegistry 0 j) (realOps.lit 1) = true ↔ j = 1)) ∧
    distance realOps pairRegistry 0 1 = some 1 ∧
    (poseHandler realOps (stateOf realOps 6 pairRegistry) pairMessage).1.combined_theta
      = some 0 ∧
    realOps.atan2 (coordDif realOps pairRegistry 1 0 2) (coordDif realOps pairRegistry 1 0 1)
      = some 0 ∧
    realOps.atan2 (coordDif realOps pairRegistry 0 1 2) (coordDif realOps pairRegistry 0 1 1)
      = some Real.pi ∧
    (some 0 : RealNaN) ≠ some Real.pi := by
  have hp := poseHandler_six realOps (stateOf realOps 6 pairRegistry) pairMessage rfl
  have hu : updateRegistry 6 (stateOf realOps 6 pairRegistry).rover_data (cStr pairMessage)
      = (pairRegistry, 0) := pairRegistry_update
  rw [hu] at hp
  simp only [pairRegistry_blend] at hp
  refine ⟨by rw [hp], pairRegistry_index, ?_, ?_, by rw [hp], ?_, ?_, ?_⟩
  · intro j hj
    constructor
    · intro h
      by_contra hj1
      rw [pairRegistry_far 1 (by norm_num) (by norm_num) j hj hj1] at h
      exact Bool.false_ne_true h
    · intro h
      rw [h]
      exact pairRegistry_near 1 (by norm_num)
  · rw [distance_real, pairRegistry_x, pairRegistry_x, pairRegistry_y, pairRegistry_y]
    norm_num
  · rw [coordDif_real, coordDif_real, pairRegistry_x, pairRegistry_x, pairRegistry_y,
      pairRegistry_y]
    norm_num [arg_of_nonneg]
  · rw [coordDif_real, coordDif_real, pairRegistry_x, pairRegistry_x, pairRegistry_y,
      pairRegistry_y]
    norm_num [arg_of_neg]
  · intro h
    have := Real.pi_pos
    have := Option.some.inj h
    linarith

/-- C3 (counterexample): with commanded heading 3 and current heading -3, both in
(-pi, pi], the tick computes 0.1 * 6, which is not 0.1 times the shortest signed
angular difference 6 - 2 pi. -/
theorem C3_counterexample :
    ((-Real.pi < 3 ∧ (3 : ℝ) ≤ Real.pi) ∧ (-Real.pi < -3 ∧ (-3 : ℝ) ≤ Real.pi)) ∧
    translateAngular realOps (some 3) (some (-3)) = some (6 / 10) ∧
    translateAngular realOps (some 3) (some (-3)) ≠
      some (1 / 10 * toIocMod Real.two_pi_pos (-Real.pi) (3 - (-3))) := by
  have h3 := Real.pi_gt_three
  refine ⟨⟨⟨by linarith, by linarith⟩, ⟨by linarith, by linarith⟩⟩, ?_, ?_⟩
  · rw [translateAngular_real]; norm_num
  · rw [translateAngular_real]
    intro h
    have h4 := Real.pi_le_four
    have h1 : toIocMod Real.two_pi_pos (-Real.pi) (3 - (-3)) = (3 : ℝ) - (-3) := by
      have h5 := Option.some.inj h
      generalize toIocMod Real.two_pi_pos (-Real.pi) (3 - (-3)) = X at h5 ⊢
      linarith
    have h2 := (toIocMod_eq_self Real.two_pi_pos).1 h1
    have := h2.2
    linarith

/-- C3 (amended): on a tick in autonomous mode in the state TRANSLATE the velocity
handed to `setVelocity` is the linear velocity 0.05 and the angular velocity
0.1 * (c - t), computed from the plain difference of the commanded heading c and the
current heading t; this angular velocity is 0.1 times the shortest signed angular
difference exactly when c - t itself lies in (-pi, pi]. -/
theorem C3_translate_plain_difference (c t : ℝ) :
    translateAngular realOps (some c) (some t) = some (1 / 10 * (c - t)) ∧
    translateLinear realOps = some (1 / 20) ∧
    (translateAngular realOps (some c) (some t) =
        some (1 / 10 * toIocMod Real.two_pi_pos (-Real.pi) (c - t)) ↔
      -Real.pi < c - t ∧ c - t ≤ Real.pi) ∧
    (∀ (fmt : RealNaN → Str) (now : RealNaN) (st : State RealNaN),
      (st.simulation_mode = 2 ∨ st.simulation_mode = 3) → st.state_machine_state = 0 →
      st.combined_theta = some c → st.current_location.theta = some t →
      (mobilityStateMachine realOps fmt now st).2 =
        setVelocity realOps (some (1 / 20)) (some (1 / 10 * (c - t))) ++
          [Effect.posePublish (poseText st.rover_name (fmt st.current_location.x)
              (fmt st.current_location.y) (fmt st.current_location.theta)),
            Effect.stateMachinePublish "TRANSLATING".toList]) := by
  refine ⟨translateAngular_real c t, by simp [translateLinear], ?_, ?_⟩
  · rw [translateAngular_real]
    constructor
    · intro h
      have h1 : toIocMod Real.two_pi_pos (-Real.pi) (c - t) = c - t := by
        have h5 := Option.some.inj h
        generalize toIocMod Real.two_pi_pos (-Real.pi) (c - t) = X at h5 ⊢
        linarith
      have h2 := (toIocMod_eq_self Real.two_pi_pos).1 h1
      exact ⟨h2.1, by have := h2.2; linarith⟩
    · intro h
      have h2 : c - t ∈ Set.Ioc (-Real.pi) (-Real.pi + 2 * Real.pi) :=
        ⟨h.1, by have := h.2; linarith⟩
      rw [(toIocMod_eq_self Real.two_pi_pos).2 h2]
  · intro fmt now st hm hs hc ht
    have e1 : translateLinear realOps = some (1 / 20) := by simp [translateLinear]
    simp only [mobilityStateMachine, hm, hs, hc, ht, translateAngular_real, e1, true_and,
      if_true]

/-- C4 (counterexample): three pose texts of the encoder that do not come back.  The
identity `r2` has no space, x is printed as `1`, and the stored x text `21` reads
back as 21.  The identity `g` meets a registry whose six slots are claimed by other
rovers, and the selected slot keeps the name `a`.  The x value 0.00001 is printed as
`1e-05`, the stored text is `1-05`, and it reads back as 1. -/
theorem C4_counterexample :
    (' ' ∉ "r2".toList ∧
      realOps.strtof "1".toList = some 1 ∧
      realOps.strtof ((poseHandler realOps (stateOf realOps 6 emptyRegistry)
        digitNameText).1.rover_data (poseIndex (stateOf realOps 6 emptyRegistry)
          digitNameText) 1) = some 21) ∧
    (' ' ∉ "g".toList ∧
      (poseHandler realOps (stateOf realOps 6 soloRegistry) seventhRoverText).1.rover_data
        (poseIndex (stateOf realOps 6 soloRegistry) seventhRoverText) 0 = "a".toList ∧
      "a".toList ≠ "g".toList) ∧
    (' ' ∉ "a".toList ∧
      realOps.strtof "1e-05".toList = some (1 / 100000) ∧
      realOps.strtof ((poseHandler realOps (stateOf realOps 6 emptyRegistry)
        exponentText).1.rover_data (poseIndex (stateOf realOps 6 emptyRegistry)
          exponentText) 1) = some 1) := by
  have e1 : (poseHandler realOps (stateOf realOps 6 emptyRegistry) digitNameText).1.rover_data
      (poseIndex (stateOf realOps 6 emptyRegistry) digitNameText) 1 = "21".toList := by
    rw [(poseHandler_registry realOps _ _).1]
    decide
  have e2 : (poseHandler realOps (stateOf realOps 6 soloRegistry)
      seventhRoverText).1.rover_data
      (poseIndex (stateOf realOps 6 soloRegistry) seventhRoverText) 0 = "a".toList := by
    rw [(poseHandler_registry realOps _ _).1]
    decide
  have e3 : (poseHandler realOps (stateOf realOps 6 emptyRegistry) exponentText).1.rover_data
      (poseIndex (stateOf realOps 6 emptyRegistry) exponentText) 1 = "1-05".toList := by
    rw [(poseHandler_registry realOps _ _).1]
    decide
  have d1 : strtofDec "1".toList = (1, 0) := by decide
  have d2 : strtofDec "21".toList = (21, 0) := by decide
  have d3 : strtofDec "1e-05".toList = (1, -5) := by decide
  have d4 : strtofDec "1-05".toList = (1, 0) := by decide
  refine ⟨⟨by decide, ?_, ?_⟩, ⟨by decide, e2, by decide⟩, ⟨by decide, ?_, ?_⟩⟩
  · rw [realOps_strtof, d1]; norm_num
  · rw [e1, realOps_strtof, d2]; norm_num
  · rw [realOps_strtof, d3]; norm_num
  · rw [e3, realOps_strtof, d4]; norm_num

/-- C4 (amended): for every identity made only of letters and parentheses, when some
slot below `n_o_r` is empty or already holds the identity and the three numbers are
printed as plain numerals (digits, '.', '-'), passing the text the tick builds to
`poseHandler` stores the identity as the selected slot's name and stores exactly the
printed x, y and theta texts, so that `strtof` reads back the printed values (the
text is shorter than 2^31 characters). -/
theorem C4_round_trip_plain_numerals {F : Type} (M : FloatOps F) (st : State F)
    (identity sx sy stheta : Str)
    (hid : ∀ c ∈ identity, isLetterOrParen c)
    (hslot : ∃ i : Fin 6, i.val < st.n_o_r ∧
      (st.rover_data i 0 = [] ∨ st.rover_data i 0 = identity))
    (hx : ∀ c ∈ sx, isNumeralChar c) (hy : ∀ c ∈ sy, isNumeralChar c)
    (ht : ∀ c ∈ stheta, isNumeralChar c)
    (hlen : (poseText identity sx sy stheta).length < 2 ^ 31) :
    (poseHandler M st (poseText identity sx sy stheta)).1.rover_data
      (poseIndex st (poseText identity sx sy stheta)) 0 = identity ∧
    (poseHandler M st (poseText identity sx sy stheta)).1.rover_data
      (poseIndex st (poseText identity sx sy stheta)) 1 = sx ∧
    (poseHandler M st (poseText identity sx sy stheta)).1.rover_data
      (poseIndex st (poseText identity sx sy stheta)) 2 = sy ∧
    (poseHandler M st (poseText identity sx sy stheta)).1.rover_data
      (poseIndex st (poseText identity sx sy stheta)) 3 = stheta ∧
    M.strtof ((poseHandler M st (poseText identity sx sy stheta)).1.rover_data
      (poseIndex st (poseText identity sx sy stheta)) 1) = M.strtof sx ∧
    M.strtof ((poseHandler M st (poseText identity sx sy stheta)).1.rover_data
      (poseIndex st (poseText identity sx sy stheta)) 2) = M.strtof sy ∧
    M.strtof ((poseHandler M st (poseText identity sx sy stheta)).1.rover_data
      (poseIndex st (poseText identity sx sy stheta)) 3) = M.strtof stheta := by
  have hd := decode_fields st.n_o_r st.rover_data identity sx sy stheta [' '] hid
    (by decide) hx hy ht hlen
  have hc : cStr (poseText identity sx sy stheta) = poseText identity sx sy stheta :=
    cStr_message identity sx sy stheta [' '] hid (by decide) hx hy ht
  have hi : poseIndex st (poseText identity sx sy stheta)
      = (updateRegistry st.n_o_r st.rover_data (poseText identity sx sy stheta)).2 := by
    rw [poseIndex, hc]
  have h0 : (updateRegistry st.n_o_r st.rover_data (poseText identity sx sy stheta)).1
      (updateRegistry st.n_o_r st.rover_data (poseText identity sx sy stheta)).2 0
        = identity := by
    have h1 := updateRegistry_selected_name st.n_o_r st.rover_data
      (poseText identity sx sy stheta)
    have h2 : nameOf (poseText identity sx sy stheta) = identity := hd.1
    rw [h2] at h1
    exact h1 hslot
  have h1 : (updateRegistry st.n_o_r st.rover_data (poseText identity sx sy stheta)).1
      (updateRegistry st.n_o_r st.rover_data (poseText identity sx sy stheta)).2 1 = sx :=
    hd.2.1
  have h2 : (updateRegistry st.n_o_r st.rover_data (poseText identity sx sy stheta)).1
      (updateRegistry st.n_o_r st.rover_data (poseText identity sx sy stheta)).2 2 = sy :=
    hd.2.2.1
  have h3 : (updateRegistry st.n_o_r st.rover_data (poseText identity sx sy stheta)).1
      (updateRegistry st.n_o_r st.rover_data (poseText identity sx sy stheta)).2 3 = stheta :=
    hd.2.2.2
  rw [(poseHandler_registry M st _).1, hc, hi]
  exact ⟨h0, h1, h2, h3, by rw [h1], by rw [h2], by rw [h3]⟩

/-- C4 (witness): the amended statement applies to the rover `ajax` at (1.5, -2) with
heading 0.25 and an empty registry. -/
theorem C4_round_trip_plain_numerals_witness :
    (poseHandler realOps (stateOf realOps 6 emptyRegistry)
        (poseText "ajax".toList "1.5".toList "-2".toList "0.25".toList)).1.rover_data
      (poseIndex (stateOf realOps 6 emptyRegistry)
        (poseText "ajax".toList "1.5".toList "-2".toList "0.25".toList)) 0 = "ajax".toList :=
  (C4_round_trip_plain_numerals realOps (stateOf realOps 6 emptyRegistry) "ajax".toList
    "1.5".toList "-2".toList "0.25".toList (by unfold isLetterOrParen; decide)
    ⟨0, by decide, Or.inl rfl⟩
    (by unfold isNumeralChar; decide) (by unfold isNumeralChar; decide)
    (by unfold isNumeralChar; decide) (by decide)).1

/-- C5 (counterexample): the identity `r2` is non-empty and has no space, the numerals
are 1, 2 and 3, yet field 1 of the selected slot receives `21`: the digit of the
identity reaches the x field. -/
theorem C5_counterexample :
    ("r2".toList ≠ [] ∧ ' ' ∉ "r2".toList) ∧
    nameOf (cStr digitNameMessage) = "r2".toList ∧
    (poseHandler realOps (stateOf realOps 6 emptyRegistry) digitNameMessage).1.rover_data
      (poseIndex (stateOf realOps 6 emptyRegistry) digitNameMessage) 1 = "21".toList ∧
    "21".toList ≠ "1".toList := by
  refine ⟨by decide, by decide, ?_, by decide⟩
  rw [(poseHandler_registry realOps _ _).1]
  decide

/-- C5 (amended): for every message identity + " (" + sx + "," + sy + "," + st + ")"
shorter than 2^31 characters, where the identity is made only of letters and
parentheses and sx, sy, st are made only of digits, '.' and '-', `poseHandler` takes
the identity as the name and stores exactly sx, sy and st in fields 1, 2 and 3 of
the selected slot. -/
theorem C5_fields_of_letter_identity {F : Type} (M : FloatOps F) (st : State F)
    (identity sx sy stheta : Str)
    (hid : ∀ c ∈ identity, isLetterOrParen c)
    (hx : ∀ c ∈ sx, isNumeralChar c) (hy : ∀ c ∈ sy, isNumeralChar c)
    (ht : ∀ c ∈ stheta, isNumeralChar c)
    (hlen : (fieldMessage identity sx sy stheta).length < 2 ^ 31) :
    nameOf (cStr (fieldMessage identity sx sy stheta)) = identity ∧
    (poseHandler M st (fieldMessage identity sx sy stheta)).1.rover_data
      (poseIndex st (fieldMessage identity sx sy stheta)) 1 = sx ∧
    (poseHandler M st (fieldMessage identity sx sy stheta)).1.rover_data
      (poseIndex st (fieldMessage identity sx sy stheta)) 2 = sy ∧
    (poseHandler M st (fieldMessage identity sx sy stheta)).1.rover_data
      (poseIndex st (fieldMessage identity sx sy stheta)) 3 = stheta := by
  have hc : cStr (fieldMessage identity sx sy stheta) = fieldMessage identity sx sy stheta :=
    cStr_message identity sx sy stheta [] hid (fun _ h => absurd h (List.not_mem_nil _))
      hx hy ht
  rw [(poseHandler_registry M st _).1, poseIndex, hc]
  exact decode_fields st.n_o_r st.rover_data identity sx sy stheta [] hid
    (fun _ h => absurd h (List.not_mem_nil _)) hx hy ht hlen

/-- C5 (witness): the amended statement applies to the identity `ajax` with the
numerals 1.5, -2 and 0.25. -/
theorem C5_fields_of_letter_identity_witness :
    (poseHandler realOps (stateOf realOps 6 emptyRegistry)
        (fieldMessage "ajax".toList "1.5".toList "-2".toList "0.25".toList)).1.rover_data
      (poseIndex (stateOf realOps 6 emptyRegistry)
        (fieldMessage "ajax".toList "1.5".toList "-2".toList "0.25".toList)) 1 = "1.5".toList :=
  (C5_fields_of_letter_identity realOps (stateOf realOps 6 emptyRegistry) "ajax".toList
    "1.5".toList "-2".toList "0.25".toList (by unfold isLetterOrParen; decide)
    (by unfold isNumeralChar; decide) (by unfold isNumeralChar; decide)
    (by unfold isNumeralChar; decide) (by decide)).2.1

/-- C6 (counterexample): the message `ajax 5` leaves the single numeral 5 and no comma
after stripping, and `poseHandler` does not discard it: slot 0 of the empty registry
becomes (`ajax`, 5, 5, 5). -/
theorem C6_counterexample :
    (stripChars (cStr shortMessage)).count ',' = 0 ∧
    (poseHandler realOps (stateOf realOps 6 emptyRegistry) shortMessage).1.rover_data 0
      = ["ajax".toList, "5".toList, "5".toList, "5".toList].get ∧
    (stateOf realOps 6 emptyRegistry).rover_data 0 = [[], [], [], []].get ∧
    (poseHandler realOps (stateOf realOps 6 emptyRegistry) shortMessage).1.rover_data 0 1
      ≠ (stateOf realOps 6 emptyRegistry).rover_data 0 1 := by
  rw [(poseHandler_registry realOps _ _).1]
  decide

/-- C6 (amended): a message whose stripped text has fewer than two commas is not
discarded.  `poseHandler` leaves every slot other than the selected one as it was
and overwrites x, y and theta of the selected slot: with no comma all three become
the stripped text, with one comma x becomes the part before it and y and theta the
part after it (for a message shorter than 2^31 characters; the text is the message
up to its first NUL, as `c_str()` gives it). -/
theorem C6_short_message_is_stored {F : Type} (M : FloatOps F) (st : State F) (msg : Str)
    (hc : (stripChars (cStr msg)).count ',' < 2) (hlen : msg.length < 2 ^ 31) :
    (∀ j, j ≠ poseIndex st msg → ∀ k, (poseHandler M st msg).1.rover_data j k
      = st.rover_data j k) ∧
    (',' ∉ stripChars (cStr msg) →
      (poseHandler M st msg).1.rover_data (poseIndex st msg) 1 = stripChars (cStr msg) ∧
      (poseHandler M st msg).1.rover_data (poseIndex st msg) 2 = stripChars (cStr msg) ∧
      (poseHandler M st msg).1.rover_data (poseIndex st msg) 3 = stripChars (cStr msg)) ∧
    (∀ a b, stripChars (cStr msg) = a ++ ',' :: b →
      (poseHandler M st msg).1.rover_data (poseIndex st msg) 1 = a ∧
      (poseHandler M st msg).1.rover_data (poseIndex st msg) 2 = b ∧
      (poseHandler M st msg).1.rover_data (poseIndex st msg) 3 = b) := by
  have hle := stripChars_length_le (cStr msg)
  have hle2 := cStr_length_le msg
  have hf := updateRegistry_fields st.n_o_r st.rover_data (cStr msg)
  have hidx : poseIndex st msg = (updateRegistry st.n_o_r st.rover_data (cStr msg)).2 := rfl
  refine ⟨fun j hj k => poseHandler_other M st msg j k hj, ?_, ?_⟩
  · intro hno
    rw [(poseHandler_registry M st msg).1, hidx]
    have e := splitField_no_comma (stripChars (cStr msg)) hno (by omega)
    have e1 : (splitField (stripChars (cStr msg))).1 = stripChars (cStr msg) := by rw [e]
    have e2 : (splitField (stripChars (cStr msg))).2 = stripChars (cStr msg) := by rw [e]
    refine ⟨hf.1.trans e1, hf.2.1.trans ?_, hf.2.2.trans ?_⟩
    · rw [e2, e1]
    · rw [e2, e2]
  · intro a b hab
    rw [(poseHandler_registry M st msg).1, hidx]
    rw [hab] at hc hle
    simp only [List.count_append, List.count_cons_self, List.length_append,
      List.length_cons] at hc hle
    have ha : ',' ∉ a := List.count_eq_zero.1 (by omega)
    have hb : ',' ∉ b := List.count_eq_zero.1 (by omega)
    have e := splitField_comma a b ha (by omega)
    have e1 : (splitField (stripChars (cStr msg))).1 = a := by rw [hab, e]
    have e2 : (splitField (stripChars (cStr msg))).2 = b := by rw [hab, e]
    have e3 := splitField_no_comma b hb (by omega)
    refine ⟨hf.1.trans e1, hf.2.1.trans ?_, hf.2.2.trans ?_⟩
    · rw [e2, e3]
    · rw [e2, e3]

/-- C6 (witness): the amended statement applies to the message `ajax 5`. -/
theorem C6_short_message_is_stored_witness :
    (poseHandler realOps (stateOf realOps 6 emptyRegistry) shortMessage).1.rover_data
      (poseIndex (stateOf realOps 6 emptyRegistry) shortMessage) 3 = "5".toList :=
  ((C6_short_message_is_stored realOps (stateOf realOps 6 emptyRegistry) shortMessage
    (by decide) (by decide)).2.1 (by decide)).2.2

/-- C7 (the code at the failing input): all six slots are claimed by the rovers `a` to
`f` and the message comes from `g`.  The selection loop finds no slot, `index` stays
0, and the x, y and theta texts of slot 0, which belongs to `a`, are overwritten with
the pose of `g`: the registry does not stay unchanged. -/
theorem C7_full_roster_overwrites_slot_zero :
    (∀ i : Fin 6, soloRegistry i 0 ≠ [] ∧ soloRegistry i 0 ≠ nameOf (cStr strangerMessage)) ∧
    poseIndex (stateOf realOps 6 soloRegistry) strangerMessage = 0 ∧
    soloRegistry 0 = ["a".toList, "0".toList, "0".toList, "1".toList].get ∧
    (poseHandler realOps (stateOf realOps 6 soloRegistry) strangerMessage).1.rover_data 0
      = ["a".toList, "7".toList, "8".toList, "9".toList].get ∧
    (poseHandler realOps (stateOf realOps 6 soloRegistry) strangerMessage).1.rover_data
      ≠ (stateOf realOps 6 soloRegistry).rover_data := by
  have e : (poseHandler realOps (stateOf realOps 6 soloRegistry)
      strangerMessage).1.rover_data
      = (updateRegistry 6 soloRegistry (cStr strangerMessage)).1 :=
    (poseHandler_registry realOps _ _).1
  rw [e]
  refine ⟨by decide, by decide, by decide, by decide, ?_⟩
  intro h
  have h1 := congrFun (congrFun h 0) 1
  revert h1
  decide

/-- C8: in every state reachable from the all-empty registry by `poseHandler` calls, two
distinct slots never hold the same non-empty identity. -/
theorem C8_distinct_identities {F : Type} (M : FloatOps F) (st : State F)
    (h : Reachable M st) (i j : Fin 6) (hij : i ≠ j) (hne : st.rover_data i 0 ≠ []) :
    st.rover_data i 0 ≠ st.rover_data j 0 :=
  fun he => hij ((registryInv_reachable M st h).2.1 i j hne he)

/-- C8 (witness): after the broadcasts of `a` and of `b` slots 0 and 1 hold different
names. -/
theorem C8_distinct_identities_witness :
    (poseHandler realOps (poseHandler realOps (stateOf realOps 6 emptyRegistry)
        soloMessage).1 secondMessage).1.rover_data 0 0 ≠
      (poseHandler realOps (poseHandler realOps (stateOf realOps 6 emptyRegistry)
        soloMessage).1 secondMessage).1.rover_data 1 0 :=
  C8_distinct_identities realOps _
    (Reachable.pose _ secondMessage (Reachable.pose _ soloMessage (Reachable.start _ rfl)))
    0 1 (by decide)
    (by
      rw [(poseHandler_registry realOps _ _).1, (poseHandler_registry realOps _ _).1,
        (poseHandler_registry realOps _ _).2]
      decide)

/-- C9: `poseHandler` never changes a non-empty name, so the number of claimed slots
does not decrease; when every claimed slot lies below `n_o_r` before the call, the
same holds after it and the number of claimed slots is at most `n_o_r`; this is so
in every state reachable from the all-empty registry. -/
theorem C9_names_are_kept {F : Type} (M : FloatOps F) (st : State F) (msg : Str) :
    (∀ i, st.rover_data i 0 ≠ [] →
      (poseHandler M st msg).1.rover_data i 0 = st.rover_data i 0) ∧
    claimedCount st.rover_data ≤ claimedCount (poseHandler M st msg).1.rover_data ∧
    ((∀ i : Fin 6, st.rover_data i 0 ≠ [] → i.val < st.n_o_r) →
      (∀ i : Fin 6, (poseHandler M st msg).1.rover_data i 0 ≠ [] → i.val < st.n_o_r) ∧
      claimedCount (poseHandler M st msg).1.rover_data ≤ st.n_o_r) ∧
    (Reachable M st → claimedCount st.rover_data ≤ st.n_o_r ∧
      claimedCount (poseHandler M st msg).1.rover_data ≤ st.n_o_r) := by
  have hbelow : (∀ i : Fin 6, st.rover_data i 0 ≠ [] → i.val < st.n_o_r) →
      ∀ i : Fin 6, (poseHandler M st msg).1.rover_data i 0 ≠ [] → i.val < st.n_o_r := by
    intro hb i hi
    by_cases h0 : st.rover_data i 0 = []
    · rw [(poseHandler_registry M st msg).1, updateRegistry_name] at hi
      exact slotLoop_claims_below _ _ _ i h0 hi
    · exact hb i h0
  refine ⟨fun i hi => poseHandler_keeps_name M st msg i hi, ?_,
    fun hb => ⟨hbelow hb, claimedCount_le_of_bound _ _ (hbelow hb)⟩, ?_⟩
  · unfold claimedCount
    apply Finset.card_le_card
    intro i hi
    have hi2 := (Finset.mem_filter.1 hi).2
    refine Finset.mem_filter.2 ⟨Finset.mem_univ i, ?_⟩
    rw [poseHandler_keeps_name M st msg i hi2]
    exact hi2
  · intro hr
    have h1 := registryInv_reachable M st hr
    have hb : ∀ i : Fin 6, st.rover_data i 0 ≠ [] → i.val < st.n_o_r := by
      intro i hi
      by_contra hlt
      exact hi (h1.2.2 i (by omega))
    exact ⟨claimedCount_le_of_bound _ _ hb, claimedCount_le_of_bound _ _ (hbelow hb)⟩

/-- C10: in every state reachable from the all-empty registry, for a message with a
non-empty identity, `poseHandler` selects the slot that already holds the identity;
when no slot holds it, it selects the lowest empty slot below `n_o_r` and sets that
slot's name to the identity. -/
theorem C10_first_seen_slot {F : Type} (M : FloatOps F) (st : State F) (msg : Str)
    (h : Reachable M st) (hne : nameOf (cStr msg) ≠ []) :
    (∀ i, st.rover_data i 0 = nameOf (cStr msg) → poseIndex st msg = i) ∧
    ((∀ i, st.rover_data i 0 ≠ nameOf (cStr msg)) →
      ∀ i : Fin 6, i.val < st.n_o_r → st.rover_data i 0 = [] →
        (∀ j, j < i → st.rover_data j 0 ≠ []) →
        poseIndex st msg = i ∧
          (poseHandler M st msg).1.rover_data i 0 = nameOf (cStr msg)) := by
  obtain ⟨hpre, hdis, hbnd⟩ := registryInv_reachable M st h
  have hidx : poseIndex st msg
      = (slotLoop (nameOf (cStr msg)) st.rover_data (loopIndices st.n_o_r)).2 := rfl
  constructor
  · intro i hi
    have hin : i.val < st.n_o_r := by
      by_contra hlt
      exact hne (hi.symm.trans (hbnd i (by omega)))
    rw [hidx]
    rcases slotLoop_loopIndices (nameOf (cStr msg)) st.rover_data st.n_o_r with
      ⟨a, _, hbefore, ha, hres⟩ | ⟨hall, _⟩
    · rw [hres]
      show a = i
      rcases lt_trichotomy a i with hlt | heq | hgt
      · exfalso
        rcases ha with ha | ha
        · exact hne (hi.symm.trans (hpre a i hlt ha))
        · have hane : st.rover_data a 0 ≠ [] := by rw [ha]; exact hne
          exact absurd (hdis a i hane (ha.trans hi.symm)) (ne_of_lt hlt)
      · exact heq
      · exact absurd hi (hbefore i hgt).2
    · exact absurd hi (hall i hin).2
  · intro hnone i hin hi hlow
    have hsel : poseIndex st msg = i := by
      rw [hidx]
      rcases slotLoop_loopIndices (nameOf (cStr msg)) st.rover_data st.n_o_r with
        ⟨a, _, hbefore, ha, hres⟩ | ⟨hall, _⟩
      · rw [hres]
        show a = i
        rcases lt_trichotomy a i with hlt | heq | hgt
        · exfalso
          rcases ha with ha | ha
          · exact hlow a hlt ha
          · exact hnone a ha
        · exact heq
        · exact absurd hi (hbefore i hgt).1
      · exact absurd hi (hall i hin).1
    refine ⟨hsel, ?_⟩
    have hn := updateRegistry_selected_name st.n_o_r st.rover_data (cStr msg)
      ⟨i, hin, Or.inl hi⟩
    rw [(poseHandler_registry M st msg).1]
    have hsel2 : (updateRegistry st.n_o_r st.rover_data (cStr msg)).2 = i := hsel
    rw [hsel2] at hn
    exact hn

/-- C10 (witness): after a first broadcast of `a`, a second broadcast of `a` selects
slot 0, the slot that holds its identity. -/
theorem C10_first_seen_slot_witness :
    poseIndex (poseHandler realOps (stateOf realOps 6 emptyRegistry) soloMessage).1
      soloMessage = 0 :=
  (C10_first_seen_slot realOps _ soloMessage (Reachable.pose _ soloMessage
    (Reachable.start _ rfl)) (by decide)).1 0
    (by
      rw [(poseHandler_registry realOps _ _).1]
      decide)

/-! ## The callbacks and the tick -/

theorem setVelocity_real (l a : ℝ) :
    setVelocity realOps (some l) (some a) =
      [Effect.killSwitchTimerStop, Effect.killSwitchTimerStart,
        Effect.velocityPublish (some (l * (3 / 2))) (some (a * 8))] := by
  simp [setVelocity]

theorem setVelocity_velocity_count {F : Type} (M : FloatOps F) (l a : F) :
    (setVelocity M l a).countP Effect.isVelocity = 1 := by
  simp [setVelocity, Effect.isVelocity]

/-- C15 (counterexample): the shutdown handler sends the shutdown request and nothing
else; no velocity command is among its outputs. -/
theorem C15_counterexample :
    (sigintEventHandler (stateOf realOps 6 emptyRegistry) 2).2
      = [(Effect.shutdown : Effect RealNaN)] ∧
    ((sigintEventHandler (stateOf realOps 6 emptyRegistry) 2).2).countP Effect.isVelocity
      = 0 := by
  constructor <;> rfl

/-- C15 (amended): on process shutdown the handler `sigintEventHandler` emits no
velocity command at all: for every state and signal it leaves the state as it is, and
its only output is the shutdown of the node. -/
theorem C15_shutdown_only {F : Type} (st : State F) (sig : Int) :
    (sigintEventHandler st sig).1 = st ∧
    (sigintEventHandler st sig).2 = [Effect.shutdown] ∧
    ((sigintEventHandler st sig).2).countP Effect.isVelocity = 0 ∧
    (∀ e ∈ (sigintEventHandler st sig).2, e.isVelocity = false) := by
  refine ⟨rfl, rfl, rfl, ?_⟩
  intro e he
  simp only [sigintEventHandler, List.mem_singleton] at he
  rw [he]
  rfl

/-- C16 (counterexample): in manual mode (mode 0) a joystick message with linear 1 and
angular 1 is published as linear.x = 1.5 and angular.z = 8, not as 1 and 1. -/
theorem C16_counterexample :
    (stateOf realOps 6 emptyRegistry).simulation_mode = 0 ∧
    (joyCmdHandler realOps (stateOf realOps 6 emptyRegistry) (some 1) (some 1)).2 =
      [Effect.killSwitchTimerStop, Effect.killSwitchTimerStart,
        Effect.velocityPublish (some (3 / 2)) (some 8)] ∧
    (some (3 / 2) : RealNaN) ≠ some 1 ∧ (some 8 : RealNaN) ≠ some 1 := by
  refine ⟨rfl, ?_, ?_, ?_⟩
  · have h : (stateOf realOps 6 emptyRegistry).simulation_mode = 0 := rfl
    simp only [joyCmdHandler, h, true_or, if_true, setVelocity_real]
    norm_num
  · intro h
    have := Option.some.inj h
    norm_num at this
  · intro h
    have := Option.some.inj h
    norm_num at this

/-- C16 (amended): in manual mode (`simulation_mode` 0 or 1), for every joystick message
with linear l and angular a, `joyCmdHandler` restarts the kill-switch timer and
publishes exactly one velocity command, whose linear.x is l * 1.5 and whose
angular.z is a * 8; it leaves the state as it is. -/
theorem C16_manual_scaled_passthrough {F : Type} (M : FloatOps F) (st : State F) (l a : F)
    (hm : st.simulation_mode = 0 ∨ st.simulation_mode = 1) :
    (joyCmdHandler M st l a).1 = st ∧
    (joyCmdHandler M st l a).2 =
      [Effect.killSwitchTimerStop, Effect.killSwitchTimerStart,
        Effect.velocityPublish (M.mul l (M.lit (3 / 2))) (M.mul a (M.lit 8))] ∧
    ((joyCmdHandler M st l a).2).countP Effect.isVelocity = 1 := by
  have e : joyCmdHandler M st l a = (st, setVelocity M l a) := by
    simp only [joyCmdHandler, hm, if_true]
  rw [e]
  exact ⟨rfl, rfl, setVelocity_velocity_count M l a⟩

/-- C16 (witness): the amended statement applies in mode 0 to a joystick message with
linear 1 and angular 1. -/
theorem C16_manual_scaled_passthrough_witness :
    ((joyCmdHandler realOps (stateOf realOps 6 emptyRegistry) (some 1) (some 1)).2).countP
      Effect.isVelocity = 1 :=
  (C16_manual_scaled_passthrough realOps (stateOf realOps 6 emptyRegistry) (some 1) (some 1)
    (Or.inl rfl)).2.2

/-- C17: in autonomous mode (`simulation_mode` 2 or 3) `joyCmdHandler` publishes
nothing, does not touch the kill-switch timer and leaves the state as it is. -/
theorem C17_joystick_ignored_in_auto {F : Type} (M : FloatOps F) (st : State F) (l a : F)
    (hm : st.simulation_mode = 2 ∨ st.simulation_mode = 3) :
    (joyCmdHandler M st l a).1 = st ∧
    (joyCmdHandler M st l a).2 = [] ∧
    (∀ e ∈ (joyCmdHandler M st l a).2, e.isVelocity = false ∧ e.isTimer = false) := by
  have h : ¬ (st.simulation_mode = 0 ∨ st.simulation_mode = 1) := by
    rcases hm with h | h <;> rw [h] <;> decide
  have e : joyCmdHandler M st l a = (st, []) := by
    simp only [joyCmdHandler, h, if_false]
  rw [e]
  exact ⟨rfl, rfl, fun e he => absurd he (List.not_mem_nil e)⟩

/-- C17 (witness): the statement applies to the state reached by a mode message with
the value 2. -/
theorem C17_joystick_ignored_in_auto_witness :
    (joyCmdHandler realOps (modeHandler realOps (stateOf realOps 6 emptyRegistry) 2).1
      (some 1) (some 1)).2 = [] :=
  (C17_joystick_ignored_in_auto realOps
    (modeHandler realOps (stateOf realOps 6 emptyRegistry) 2).1 (some 1) (some 1)
    (Or.inl rfl)).2.1

/-- C19 (counterexample): for the identity `a` and the texts 1, 2 and 3 the tick builds
`a (1, 2, 3)`, with a space after each comma, and not `a (1,2,3)`. -/
theorem C19_counterexample :
    poseText "a".toList "1".toList "2".toList "3".toList = "a (1, 2, 3)".toList ∧
    fieldMessage "a".toList "1".toList "2".toList "3".toList = "a (1,2,3)".toList ∧
    poseText "a".toList "1".toList "2".toList "3".toList
      ≠ fieldMessage "a".toList "1".toList "2".toList "3".toList := by
  decide

/-- C19 (amended): the pose text the tick publishes is the identity, one space, '(',
the x text, ',' and one space, the y text, ',' and one space, the theta text, ')';
the tick publishes it on every call, whatever the mode. -/
theorem C19_pose_text_layout {F : Type} (M : FloatOps F) (fmt : F → Str) (now : F)
    (st : State F) (identity sx sy stheta : Str) :
    poseText identity sx sy stheta =
      identity ++ [' ', '('] ++ sx ++ [',', ' '] ++ sy ++ [',', ' '] ++ stheta ++ [')'] ∧
    Effect.posePublish (poseText st.rover_name (fmt st.current_location.x)
      (fmt st.current_location.y) (fmt st.current_location.theta))
        ∈ (mobilityStateMachine M fmt now st).2 ∧
    (∀ data, Effect.posePublish data ∈ (mobilityStateMachine M fmt now st).2 →
      data = poseText st.rover_name (fmt st.current_location.x)
        (fmt st.current_location.y) (fmt st.current_location.theta)) := by
  refine ⟨rfl, ?_, ?_⟩
  · simp [mobilityStateMachine]
  · intro data hd
    simp only [mobilityStateMachine, List.mem_append, List.mem_cons, List.mem_singleton,
      List.not_mem_nil, or_false] at hd
    rcases hd with hd | hd | hd
    · split at hd
      · simp [setVelocity] at hd
      · simp at hd
    · exact Effect.posePublish.inj hd
    · cases hd

/-! ## Neighbours -/

theorem mem_peersOf (i j : Fin 6) : j ∈ peersOf i ↔ j ≠ i := by
  revert i j
  decide

theorem peersOf_nodup (i : Fin 6) : (peersOf i).Nodup := by
  revert i
  decide

/-- The block of branch `i` for the peer `j` counts the peer exactly when the test
`d <= 2` on `distance rd i j` succeeds. -/
theorem peerStep_count {F : Type} (M : FloatOps F) (rd : Registry) (i j : Fin 6)
    (acc : BlendAcc F) :
    (peerStep M rd i acc j).num_neighbors =
      acc.num_neighbors + (if M.le (distance M rd i j) (M.lit 2) then 1 else 0) := by
  by_cases h : M.le (distance M rd i j) (M.lit 2) = true
  · have h2 := h
    simp only [distance] at h2
    simp [peerStep, h, h2]
  · have h2 := h
    simp only [distance] at h2
    simp [peerStep, h, h2]

/-- The fleet-of-3 branch for `self` counts `p` and `q` exactly when the test `d <= 2`
on their distance to `self` succeeds. -/
theorem localAverage3Branch_count {F : Type} (M : FloatOps F) (rd : Registry)
    (self p q a12 b12 a13 b13 : Fin 6) :
    (localAverage3Branch M rd self p q a12 b12 a13 b13).1 =
      (if M.le (distance M rd self p) (M.lit 2) then 1 else 0) +
      (if M.le (distance M rd self q) (M.lit 2) then 1 else 0) := rfl

/-- C11: in the idealised arithmetic, for every registry and every two slots i and j,
the distance that the branch for i computes for the pair (`xdif`, `ydif` and `sqrt`
with i as self and j as peer) equals the one the branch for j computes, and the test
`d <= 2` gives the same answer both ways.  For a fleet of 6 each of the two branches
visits the other slot and counts it exactly when this test succeeds; for a fleet of
3 the branches of the indices 0, 1 and 2 test exactly the other two slots. -/
theorem C11_neighbour_symmetry (rd : Registry) (i j : Fin 6) :
    distance realOps rd i j = distance realOps rd j i ∧
    realOps.le (distance realOps rd i j) (realOps.lit 2)
      = realOps.le (distance realOps rd j i) (realOps.lit 2) ∧
    (i ≠ j → j ∈ peersOf i ∧ i ∈ peersOf j) ∧
    (∀ acc : BlendAcc RealNaN, (peerStep realOps rd i acc j).num_neighbors =
      acc.num_neighbors + (if realOps.le (distance realOps rd i j) (realOps.lit 2)
        then 1 else 0)) ∧
    ((localAverage3 realOps rd 0).1 =
        (if realOps.le (distance realOps rd 0 1) (realOps.lit 2) then 1 else 0) +
        (if realOps.le (distance realOps rd 0 2) (realOps.lit 2) then 1 else 0) ∧
      (localAverage3 realOps rd 1).1 =
        (if realOps.le (distance realOps rd 1 0) (realOps.lit 2) then 1 else 0) +
        (if realOps.le (distance realOps rd 1 2) (realOps.lit 2) then 1 else 0) ∧
      (localAverage3 realOps rd 2).1 =
        (if realOps.le (distance realOps rd 2 0) (realOps.lit 2) then 1 else 0) +
        (if realOps.le (distance realOps rd 2 1) (realOps.lit 2) then 1 else 0)) := by
  have hd : distance realOps rd i j = distance realOps rd j i := by
    rw [distance_real, distance_real]
    congr 2
    ring
  refine ⟨hd, by rw [hd], ?_, fun acc => peerStep_count realOps rd i j acc, ?_, ?_, ?_⟩
  · intro hij
    exact ⟨(mem_peersOf i j).2 (Ne.symm hij), (mem_peersOf j i).2 hij⟩
  · exact localAverage3Branch_count realOps rd 0 1 2 0 1 0 2
  · exact localAverage3Branch_count realOps rd 1 0 2 0 1 0 2
  · exact localAverage3Branch_count realOps rd 2 0 1 0 2 1 2

/-! ## Running the handler twice -/

/-- After one run of the selection loop a second run with the same name selects the
same slot and changes nothing, in any registry with the same name column. -/
theorem slotLoop_again (name : Str) (rd rd4 : Registry) (n : Nat)
    (hn : ∀ j, rd4 j 0 = (slotLoop name rd (loopIndices n)).1 j 0) :
    slotLoop name rd4 (loopIndices n) = (rd4, (slotLoop name rd (loopIndices n)).2) := by
  rcases slotLoop_loopIndices name rd n with ⟨i, hin, hbefore, hi, hres⟩ | ⟨hall, hres⟩
  · rw [hres] at hn ⊢
    have hlow : ∀ j, j < i → rd4 j 0 = rd j 0 := by
      intro j hj
      rw [hn j]
      by_cases he : rd i 0 = []
      · simp [he, setField_apply, ne_of_lt hj]
      · simp [he]
    have hat : rd4 i 0 = name := by
      rw [hn i]
      by_cases he : rd i 0 = []
      · simp [he, setField_apply]
      · rw [if_neg he]
        rcases hi with hi | hi
        · exact absurd hi he
        · exact hi
    rcases slotLoop_loopIndices name rd4 n with ⟨a, _, hbefore2, ha, hres2⟩ | ⟨hall2, _⟩
    · have hai : a = i := by
        rcases lt_trichotomy a i with hlt | heq | hgt
        · exfalso
          rw [hlow a hlt] at ha
          rcases ha with ha | ha
          · exact (hbefore a hlt).1 ha
          · exact (hbefore a hlt).2 ha
        · exact heq
        · exact absurd hat (hbefore2 i hgt).2
      subst hai
      rw [hres2]
      by_cases he : rd4 a 0 = []
      · rw [if_pos he]
        have : setField rd4 a 0 name = rd4 := by
          funext j k
          rw [setField_apply]
          by_cases hjk : j = a ∧ k = 0
          · rw [if_pos hjk, hjk.1, hjk.2, hat]
          · rw [if_neg hjk]
        rw [this]
      · rw [if_neg he]
    · exact absurd hat (hall2 i hin).2
  · rw [hres] at hn ⊢
    rcases slotLoop_loopIndices name rd4 n with ⟨a, han, _, ha, _⟩ | ⟨_, hres2⟩
    · exfalso
      rw [hn a] at ha
      rcases ha with ha | ha
      · exact (hall a han).1 ha
      · exact (hall a han).2 ha
    · exact hres2

/-- Running the registry update twice on the same text gives what one run gives. -/
theorem updateRegistry_idem (n : Nat) (rd : Registry) (msg : Str) :
    updateRegistry n (updateRegistry n rd msg).1 msg = updateRegistry n rd msg := by
  have hs := slotLoop_again (nameOf msg) rd (updateRegistry n rd msg).1 n
    (fun j => updateRegistry_name n rd msg j)
  have hf := updateRegistry_fields n rd msg
  rw [updateRegistry_index] at hf
  have e : updateRegistry n (updateRegistry n rd msg).1 msg
      = (setField (setField (setField (updateRegistry n rd msg).1
          (slotLoop (nameOf msg) rd (loopIndices n)).2 1 (splitField (stripChars msg)).1)
          (slotLoop (nameOf msg) rd (loopIndices n)).2 2
            (splitField (splitField (stripChars msg)).2).1)
          (slotLoop (nameOf msg) rd (loopIndices n)).2 3
            (splitField (splitField (stripChars msg)).2).2,
          (slotLoop (nameOf msg) rd (loopIndices n)).2) := by
    conv_lhs => rw [updateRegistry]
    simp only [hs]
  rw [e]
  apply Prod.ext
  · funext j k
    simp only [setField_apply]
    by_cases hj : j = (slotLoop (nameOf msg) rd (loopIndices n)).2
    · subst hj
      by_cases h3 : k = 3
      · subst h3; simp [hf.2.2]
      · by_cases h2 : k = 2
        · subst h2; simp [hf.2.1]
        · by_cases h1 : k = 1
          · subst h1; simp [hf.1]
          · simp [h1, h2, h3]
    · simp [hj]
  · rfl


/-- C20: for every state, fleet size and message, running `poseHandler` on the message a
second time leaves the whole state (the registry, `glob_average`, `local_average`,
`combined_theta`, `local_average_position` and everything else) as the first run left
it, and publishes the same outputs again. -/
theorem C20_idempotent_overwrite {F : Type} (M : FloatOps F) (st : State F) (m : Str) :
    (poseHandler M (poseHandler M st m).1 m).1 = (poseHandler M st m).1 ∧
    (poseHandler M (poseHandler M st m).1 m).2 = (poseHandler M st m).2 := by
  have hu := updateRegistry_idem st.n_o_r st.rover_data (cStr m)
  by_cases h3 : st.n_o_r = 3
  · rw [h3] at hu
    by_cases h0 : (updateRegistry 3 st.rover_data (cStr m)).2 = 0
    · have e : poseHandler M st m =
          ({ st with
              rover_data := (updateRegistry 3 st.rover_data (cStr m)).1
              glob_average := globAverage3 M (updateRegistry 3 st.rover_data (cStr m)).1
              local_average := (localAverage3 M (updateRegistry 3 st.rover_data (cStr m)).1
                0).2 },
            [Effect.globalAverageHeading
                (globAverage3 M (updateRegistry 3 st.rover_data (cStr m)).1),
              Effect.localAverageHeading st.rover_name
                (localAverage3 M (updateRegistry 3 st.rover_data (cStr m)).1 0).1 false
                (localAverage3 M (updateRegistry 3 st.rover_data (cStr m)).1 0).2]) := by
        simp [poseHandler, h3, h0]
      rw [e]
      simp [poseHandler, h3, hu, h0]
    · have e : poseHandler M st m =
          ({ st with
              rover_data := (updateRegistry 3 st.rover_data (cStr m)).1
              glob_average := globAverage3 M (updateRegistry 3 st.rover_data (cStr m)).1 },
            [Effect.globalAverageHeading
                (globAverage3 M (updateRegistry 3 st.rover_data (cStr m)).1),
              Effect.localAverageHeading st.rover_name
                (localAverage3 M (updateRegistry 3 st.rover_data (cStr m)).1
                  (updateRegistry 3 st.rover_data (cStr m)).2).1 false
                (localAverage3 M (updateRegistry 3 st.rover_data (cStr m)).1
                  (updateRegistry 3 st.rover_data (cStr m)).2).2]) := by
        simp [poseHandler, h3, h0]
      rw [e]
      simp [poseHandler, h3, hu, h0]
  · by_cases h6 : st.n_o_r = 6
    · rw [h6] at hu
      rw [poseHandler_six M st m h6]
      simp [poseHandler, h6, hu]
    · have e : poseHandler M st m =
          ({ st with rover_data := (updateRegistry st.n_o_r st.rover_data (cStr m)).1 }, []) := by
        simp [poseHandler, h3, h6]
      rw [e]
      simp [poseHandler, h3, h6, hu]

/-! ## The tick and the modes -/

/-- No callback writes `state_machine_state`: it is 0 (`STATE_MACHINE_TRANSLATE`) in
every reachable state. -/
theorem state_machine_state_reachable {F : Type} (M : FloatOps F) (st : State F)
    (h : NodeReachable M st) : st.state_machine_state = 0 := by
  induction h with
  | start rover_name loc n => rfl
  | pose st msg _ ih =>
    unfold poseHandler
    by_cases h3 : st.n_o_r = 3
    · by_cases h0 : (updateRegistry 3 st.rover_data (cStr msg)).2 = 0 <;> simp [h3, h0, ih]
    · by_cases h6 : st.n_o_r = 6 <;> simp [h3, h6, ih]
  | tick st fmt now _ ih =>
    unfold mobilityStateMachine
    simp only
    split <;> exact ih
  | mode st data _ ih => exact ih
  | joy st l a _ ih =>
    unfold joyCmdHandler
    split <;> exact ih
  | odometry st x y yaw _ ih => exact ih
  | killSwitch st _ ih => exact ih
  | sigint st sig _ ih => exact ih

/-- The outputs of a tick in the state TRANSLATE: the velocity of `setVelocity` in
autonomous mode and none otherwise, followed by the pose text and the state text. -/
theorem mobilityStateMachine_outputs {F : Type} (M : FloatOps F) (fmt : F → Str) (now : F)
    (st : State F) (h0 : st.state_machine_state = 0) :
    (st.simulation_mode = 2 ∨ st.simulation_mode = 3 →
      (mobilityStateMachine M fmt now st).2 =
        setVelocity M (translateLinear M)
          (translateAngular M st.combined_theta st.current_location.theta) ++
        [Effect.posePublish (poseText st.rover_name (fmt st.current_location.x)
            (fmt st.current_location.y) (fmt st.current_location.theta)),
          Effect.stateMachinePublish "TRANSLATING".toList]) ∧
    (¬ (st.simulation_mode = 2 ∨ st.simulation_mode = 3) →
      (mobilityStateMachine M fmt now st).2 =
        [Effect.posePublish (poseText st.rover_name (fmt st.current_location.x)
            (fmt st.current_location.y) (fmt st.current_location.theta)),
          Effect.stateMachinePublish ("WAITING, ".toList ++
            ("CURRENT MODE: ".toList ++ (toString st.simulation_mode).toList))]) := by
  constructor
  · intro hm
    simp only [mobilityStateMachine, hm, h0, true_and, if_true]
  · intro hm
    simp only [mobilityStateMachine, hm, false_and, if_false, List.nil_append]

/-- C18: in every state the node can reach, one tick publishes a velocity command if
and only if `simulation_mode` is 2 or 3 (it then publishes exactly one); in every
other mode the tick publishes no velocity command and neither stops nor starts the
kill-switch timer. -/
theorem C18_tick_velocity_only_in_auto {F : Type} (M : FloatOps F) (fmt : F → Str) (now : F)
    (st : State F) (h : NodeReachable M st) :
    ((∃ e ∈ (mobilityStateMachine M fmt now st).2, e.isVelocity = true) ↔
      (st.simulation_mode = 2 ∨ st.simulation_mode = 3)) ∧
    (st.simulation_mode = 2 ∨ st.simulation_mode = 3 →
      ((mobilityStateMachine M fmt now st).2).countP Effect.isVelocity = 1) ∧
    (¬ (st.simulation_mode = 2 ∨ st.simulation_mode = 3) →
      ∀ e ∈ (mobilityStateMachine M fmt now st).2, e.isVelocity = false ∧ e.isTimer = false) := by
  have h0 := state_machine_state_reachable M st h
  obtain ⟨ha, hn⟩ := mobilityStateMachine_outputs M fmt now st h0
  have hnone : ¬ (st.simulation_mode = 2 ∨ st.simulation_mode = 3) →
      ∀ e ∈ (mobilityStateMachine M fmt now st).2,
        e.isVelocity = false ∧ e.isTimer = false := by
    intro hm e he
    rw [hn hm] at he
    simp only [List.mem_cons, List.mem_singleton, List.not_mem_nil, or_false] at he
    rcases he with rfl | rfl <;> exact ⟨rfl, rfl⟩
  refine ⟨⟨?_, ?_⟩, ?_, hnone⟩
  · rintro ⟨e, he, hv⟩
    by_contra hm
    rw [(hnone hm e he).1] at hv
    exact Bool.false_ne_true hv
  · intro hm
    rw [ha hm]
    exact ⟨Effect.velocityPublish (M.mul (translateLinear M) (M.lit (3 / 2)))
      (M.mul (translateAngular M st.combined_theta st.current_location.theta) (M.lit 8)),
      by simp [setVelocity], rfl⟩
  · intro hm
    rw [ha hm]
    simp [setVelocity, Effect.isVelocity]

/-- C18 (witness): the statement applies to the state reached by a mode message with
the value 2, where the tick publishes one velocity command. -/
theorem C18_tick_velocity_only_in_auto_witness :
    ((mobilityStateMachine realOps (fun _ => []) (some 0)
      (modeHandler realOps (initialState realOps "ajax".toList ⟨some 0, some 0, some 0⟩ 3)
        2).1).2).countP Effect.isVelocity = 1 :=
  (C18_tick_velocity_only_in_auto realOps (fun _ => []) (some 0) _
    (NodeReachable.mode _ 2 (NodeReachable.start "ajax".toList ⟨some 0, some 0, some 0⟩ 3))).2.1
    (Or.inl rfl)

/-! ## The kill switch -/

/-- Whatever the timer was doing, the outputs of `setVelocity` leave it running from 0. -/
theorem timerRun_setVelocity {F : Type} (M : FloatOps F) (t : Timer) (l a : F) :
    timerRun t (setVelocity M l a) = { running := true, elapsed := 0 } := by
  simp [timerRun, setVelocity, timerEffect]

theorem idleRun_add {F : Type} (M : FloatOps F) (oneshot : Bool) (timeout : Nat) (a b : Nat)
    (sys : State F × Timer) :
    idleRun M oneshot timeout (a + b) sys =
      ((idleRun M oneshot timeout b (idleRun M oneshot timeout a sys).1).1,
        (idleRun M oneshot timeout a sys).2 ++
          (idleRun M oneshot timeout b (idleRun M oneshot timeout a sys).1).2) := by
  induction a generalizing sys with
  | zero => simp [idleRun]
  | succ a ih =>
    have e : a + 1 + b = (a + b) + 1 := by omega
    rw [e]
    simp only [idleRun, ih, List.append_assoc]

/-- While the running timer stays below the timeout nothing happens. -/
theorem idleRun_quiet {F : Type} (M : FloatOps F) (oneshot : Bool) (timeout : Nat) (j e : Nat)
    (st : State F) (h : e + j < timeout) :
    idleRun M oneshot timeout j (st, { running := true, elapsed := e }) =
      ((st, { running := true, elapsed := e + j }), []) := by
  induction j generalizing e with
  | zero => rfl
  | succ j ih =>
    have h1 : e + 1 < timeout := by omega
    have h2 : idleStep M oneshot timeout (st, { running := true, elapsed := e }) =
        ((st, { running := true, elapsed := e + 1 }), []) := by
      simp [idleStep, h1]
    simp only [idleRun, h2, List.nil_append]
    rw [ih (e + 1) (by omega)]
    have e3 : e + 1 + j = e + (j + 1) := by omega
    rw [e3]

/-- One full timeout of silence: the timer expires once, the callback sends its three
outputs, and the timer is running from 0 again. -/
theorem idleRun_timeout {F : Type} (M : FloatOps F) (oneshot : Bool) (timeout : Nat)
    (st : State F) (h : 0 < timeout) :
    idleRun M oneshot timeout timeout (st, { running := true, elapsed := 0 }) =
      ((st, { running := true, elapsed := 0 }), setVelocity M (M.lit 0) (M.lit 0)) := by
  obtain ⟨k, rfl⟩ : ∃ k, timeout = k + 1 := ⟨timeout - 1, by omega⟩
  rw [idleRun_add, idleRun_quiet M oneshot (k + 1) k 0 st (by omega), Nat.zero_add]
  have h2 : idleStep M oneshot (k + 1) (st, { running := true, elapsed := k }) =
      ((st, { running := true, elapsed := 0 }), setVelocity M (M.lit 0) (M.lit 0)) := by
    simp [idleStep, killSwitchTimerEventHandler, timerRun_setVelocity]
  simp [idleRun, h2]

/-- During `k` timeouts of silence the callback sends `k` velocity commands. -/
theorem idleRun_cycles {F : Type} (M : FloatOps F) (oneshot : Bool) (timeout : Nat)
    (st : State F) (h : 0 < timeout) (k : Nat) :
    (idleRun M oneshot timeout (k * timeout) (st, { running := true, elapsed := 0 })).1
      = (st, { running := true, elapsed := 0 }) ∧
    ((idleRun M oneshot timeout (k * timeout)
      (st, { running := true, elapsed := 0 })).2).countP Effect.isVelocity = k := by
  induction k with
  | zero => simp [idleRun]
  | succ k ih =>
    have e : (k + 1) * timeout = k * timeout + timeout := by ring
    rw [e, idleRun_add, ih.1, idleRun_timeout M oneshot timeout st h]
    refine ⟨rfl, ?_⟩
    rw [List.countP_append, ih.2, setVelocity_velocity_count]


/-- C14 (counterexample): the expiry callback sends stop, start and a zero velocity, and
these outputs start even a stopped timer again; with a timeout of 10 time units and
no other event, 20 time units of silence bring two zero-velocity commands, whether
the library timer is one-shot or periodic. -/
theorem C14_counterexample :
    (killSwitchTimerEventHandler realOps (stateOf realOps 6 emptyRegistry)).2 =
      [Effect.killSwitchTimerStop, Effect.killSwitchTimerStart,
        Effect.velocityPublish (some 0) (some 0)] ∧
    timerRun { running := false, elapsed := 0 }
      (killSwitchTimerEventHandler realOps (stateOf realOps 6 emptyRegistry)).2
        = { running := true, elapsed := 0 } ∧
    ((idleRun realOps true 10 20
      (stateOf realOps 6 emptyRegistry, { running := true, elapsed := 0 })).2).countP
        Effect.isVelocity = 2 ∧
    ((idleRun realOps false 10 20
      (stateOf realOps 6 emptyRegistry, { running := true, elapsed := 0 })).2).countP
        Effect.isVelocity = 2 := by
  refine ⟨?_, timerRun_setVelocity realOps _ _ _, ?_, ?_⟩
  · simp [killSwitchTimerEventHandler, setVelocity]
  · exact (idleRun_cycles realOps true 10 (stateOf realOps 6 emptyRegistry) (by norm_num) 2).2
  · exact (idleRun_cycles realOps false 10 (stateOf realOps 6 emptyRegistry) (by norm_num) 2).2

/-- C14 (amended): with the watchdog as an explicit timer state, the expiry callback
`killSwitchTimerEventHandler` leaves the state as it is and emits one velocity
command (the zero velocity) through `setVelocity`, which stops and starts the
kill-switch timer; so the callback itself re-arms the timer, whatever its state,
and during `k` further timeouts without any other event it emits `k` more
zero-velocity commands. -/
theorem C14_expiry_rearms_timer {F : Type} (M : FloatOps F) (oneshot : Bool) (timeout : Nat)
    (st : State F) (t : Timer) (k : Nat) (h : 0 < timeout) :
    (killSwitchTimerEventHandler M st).1 = st ∧
    (killSwitchTimerEventHandler M st).2 =
      [Effect.killSwitchTimerStop, Effect.killSwitchTimerStart,
        Effect.velocityPublish (M.mul (M.lit 0) (M.lit (3 / 2))) (M.mul (M.lit 0) (M.lit 8))] ∧
    ((killSwitchTimerEventHandler M st).2).countP Effect.isVelocity = 1 ∧
    timerRun t (killSwitchTimerEventHandler M st).2 = { running := true, elapsed := 0 } ∧
    (idleRun M oneshot timeout (k * timeout) (st, { running := true, elapsed := 0 })).1
      = (st, { running := true, elapsed := 0 }) ∧
    ((idleRun M oneshot timeout (k * timeout)
      (st, { running := true, elapsed := 0 })).2).countP Effect.isVelocity = k ∧
    (∀ s : State RealNaN, (killSwitchTimerEventHandler realOps s).2 =
      [Effect.killSwitchTimerStop, Effect.killSwitchTimerStart,
        Effect.velocityPublish (some 0) (some 0)]) := by
  refine ⟨rfl, rfl, setVelocity_velocity_count M _ _, timerRun_setVelocity M t _ _,
    (idleRun_cycles M oneshot timeout st h k).1, (idleRun_cycles M oneshot timeout st h k).2, ?_⟩
  intro s
  simp [killSwitchTimerEventHandler, setVelocity]

/-- C14 (witness): the amended statement applies with a timeout of 10 time units to
three timeouts of silence. -/
theorem C14_expiry_rearms_timer_witness :
    ((idleRun realOps false 10 (3 * 10)
      (stateOf realOps 6 emptyRegistry, { running := true, elapsed := 0 })).2).countP
        Effect.isVelocity = 3 :=
  (C14_expiry_rearms_timer realOps false 10 (stateOf realOps 6 emptyRegistry)
    { running := true, elapsed := 0 } 3 (by norm_num)).2.2.2.2.2.1

/-! ## The neighbour count of the diagnostic -/

theorem foldl_peerStep_count {F : Type} (M : FloatOps F) (rd : Registry) (i : Fin 6)
    (l : List (Fin 6)) (acc : BlendAcc F) :
    (l.foldl (peerStep M rd i) acc).num_neighbors =
      acc.num_neighbors +
        ((l.filter (fun j => M.le (distance M rd i j) (M.lit 2))).length : Int) := by
  induction l generalizing acc with
  | nil => simp
  | cons j l ih =>
    rw [List.foldl_cons, ih, peerStep_count]
    by_cases h : M.le (distance M rd i j) (M.lit 2) = true
    · simp [h, List.filter_cons]
      ring
    · simp [h, List.filter_cons]

theorem peersOf_eq_filter (i : Fin 6) :
    peersOf i = (List.finRange 6).filter (fun j => decide (j ≠ i)) := by
  revert i
  decide

/-- The count a fleet-of-6 branch reports is 1, for the slot itself, plus the number
of other slots that pass the test `d <= 2`. -/
theorem blend6_count {F : Type} (M : FloatOps F) (rd : Registry) (i : Fin 6) :
    (blend6 M rd i).num_neighbors = 1 + (neighbourCount M rd 6 i : Int) := by
  have h1 : (blend6 M rd i).num_neighbors = (blendSums M rd i).num_neighbors := by
    rw [blend6_eq_sums]
    rfl
  rw [h1, blendSums, foldl_peerStep_count, peersOf_eq_filter, List.filter_filter]
  have h2 : (blendStart M rd i).num_neighbors = 1 := rfl
  rw [h2, neighbourCount]
  congr 3
  apply List.filter_congr
  intro j _
  have hj : decide (j.val < 6) = true := by simp [j.isLt]
  rw [hj, Bool.true_and, Bool.and_comm]

/-- The count a fleet-of-3 branch reports is the number of the other two slots that
pass the test `d <= 2`. -/
theorem localAverage3_count {F : Type} (M : FloatOps F) (rd : Registry) (i : Fin 6)
    (hi : i.val < 3) : (localAverage3 M rd i).1 = (neighbourCount M rd 3 i : Int) := by
  have hcases : i = 0 ∨ i = 1 ∨ i = 2 := by
    revert i
    decide
  have hl : ∀ a : Fin 6, (List.finRange 6).filter
      (fun j => decide (j.val < 3) && decide (j ≠ a) && M.le (distance M rd a j) (M.lit 2))
      = ((List.finRange 6).filter (fun j => decide (j.val < 3) && decide (j ≠ a))).filter
          (fun j => M.le (distance M rd a j) (M.lit 2)) := by
    intro a
    rw [List.filter_filter]
    apply List.filter_congr
    intro j _
    rw [Bool.and_comm]
  have h0 : (List.finRange 6).filter (fun j => decide (j.val < 3) && decide (j ≠ (0 : Fin 6)))
      = [1, 2] := by decide
  have h1 : (List.finRange 6).filter (fun j => decide (j.val < 3) && decide (j ≠ (1 : Fin 6)))
      = [0, 2] := by decide
  have h2 : (List.finRange 6).filter (fun j => decide (j.val < 3) && decide (j ≠ (2 : Fin 6)))
      = [0, 1] := by decide
  rcases hcases with rfl | rfl | rfl
  · rw [neighbourCount, hl, h0]
    have e : localAverage3 M rd 0 = localAverage3Branch M rd 0 1 2 0 1 0 2 := rfl
    rw [e, localAverage3Branch_count]
    by_cases ha : M.le (distance M rd 0 1) (M.lit 2) = true <;>
      by_cases hb : M.le (distance M rd 0 2) (M.lit 2) = true <;>
      simp [ha, hb, List.filter_cons]
  · rw [neighbourCount, hl, h1]
    have e : localAverage3 M rd 1 = localAverage3Branch M rd 1 0 2 0 1 0 2 := rfl
    rw [e, localAverage3Branch_count]
    by_cases ha : M.le (distance M rd 1 0) (M.lit 2) = true <;>
      by_cases hb : M.le (distance M rd 1 2) (M.lit 2) = true <;>
      simp [ha, hb, List.filter_cons]
  · rw [neighbourCount, hl, h2]
    have e : localAverage3 M rd 2 = localAverage3Branch M rd 2 0 1 0 2 1 2 := rfl
    rw [e, localAverage3Branch_count]
    by_cases ha : M.le (distance M rd 2 0) (M.lit 2) = true <;>
      by_cases hb : M.le (distance M rd 2 1) (M.lit 2) = true <;>
      simp [ha, hb, List.filter_cons]

/-- C12 (the code at the failing input): the six slots are claimed, slot 0 is at the
origin and every other slot is at distance 3, so no slot other than 0 is within
distance 2 of slot 0.  After a broadcast of slot 0 the diagnostic of the fleet-of-6
branch reports the count 1.  In general the count of a fleet-of-6 branch is 1 plus
the number of other slots that pass the test `d <= 2`, while the count of a
fleet-of-3 branch is that number itself. -/
theorem C12_fleet_six_counts_itself :
    (poseHandler realOps (stateOf realOps 6 soloRegistry) soloMessage).1.rover_data
      = soloRegistry ∧
    poseIndex (stateOf realOps 6 soloRegistry) soloMessage = 0 ∧
    neighbourCount realOps soloRegistry 6 0 = 0 ∧
    (poseHandler realOps (stateOf realOps 6 soloRegistry) soloMessage).2 =
      [Effect.globalAverageHeading (globAverage6 realOps soloRegistry),
        Effect.localAverageHeading "ajax".toList 1 true none] ∧
    (∀ (rd : Registry) (i : Fin 6),
      (blend6 realOps rd i).num_neighbors = 1 + (neighbourCount realOps rd 6 i : Int)) ∧
    (∀ (rd : Registry) (i : Fin 6), i.val < 3 →
      (localAverage3 realOps rd i).1 = (neighbourCount realOps rd 3 i : Int)) := by
  have hp := poseHandler_six realOps (stateOf realOps 6 soloRegistry) soloMessage rfl
  have hu : updateRegistry 6 (stateOf realOps 6 soloRegistry).rover_data (cStr soloMessage)
      = (soloRegistry, 0) := soloRegistry_update
  rw [hu] at hp
  have hn : neighbourCount realOps soloRegistry 6 0 = 0 := by
    rw [neighbourCount, List.length_eq_zero, List.filter_eq_nil_iff]
    intro j _
    by_cases hj : j = 0
    · simp [hj]
    · rw [soloRegistry_isolated j hj]
      simp
  refine ⟨?_, soloRegistry_index, hn, ?_, fun rd i => blend6_count realOps rd i,
    fun rd i hi => localAverage3_count realOps rd i hi⟩
  · rw [hp]
  · rw [hp, blend6_alone soloRegistry 0 soloRegistry_isolated]
    rfl

/-! ## The fleet of 3 and the commanded heading -/

/-- The fleet-of-3 branch of `poseHandler`: it does not assign `combined_theta`, and it
publishes the global average and the diagnostic of the index branch. -/
theorem poseHandler_three {F : Type} (M : FloatOps F) (st : State F) (msg : Str)
    (h3 : st.n_o_r = 3) :
    (poseHandler M st msg).1.combined_theta = st.combined_theta ∧
    (poseHandler M st msg).2 =
      [Effect.globalAverageHeading
          (globAverage3 M (updateRegistry 3 st.rover_data (cStr msg)).1),
        Effect.localAverageHeading st.rover_name
          (localAverage3 M (updateRegistry 3 st.rover_data (cStr msg)).1
            (updateRegistry 3 st.rover_data (cStr msg)).2).1 false
          (localAverage3 M (updateRegistry 3 st.rover_data (cStr msg)).1
            (updateRegistry 3 st.rover_data (cStr msg)).2).2] := by
  unfold poseHandler
  by_cases h0 : (updateRegistry 3 st.rover_data (cStr msg)).2 = 0 <;> simp [h3, h0]

/-- In a node with a fleet size of 3 nothing assigns `combined_theta`: it keeps the 0 of
its initialiser. -/
theorem combined_theta_fleet_three {F : Type} (M : FloatOps F) (st : State F)
    (h : NodeReachable M st) : st.n_o_r = 3 → st.combined_theta = M.lit 0 := by
  induction h with
  | start rover_name loc n => exact fun _ => rfl
  | pose st msg _ ih =>
    intro h3
    rw [(poseHandler_registry M st msg).2] at h3
    rw [(poseHandler_three M st msg h3).1]
    exact ih h3
  | tick st fmt now _ ih =>
    unfold mobilityStateMachine
    simp only
    split <;> exact ih
  | mode st data _ ih => exact ih
  | joy st l a _ ih =>
    unfold joyCmdHandler
    split <;> exact ih
  | odometry st x y yaw _ ih => exact ih
  | killSwitch st _ ih => exact ih
  | sigint st sig _ ih => exact ih

/-- The selected index is below the fleet size. -/
theorem updateRegistry_index_lt (n : Nat) (rd : Registry) (msg : Str) (hn : 0 < n) :
    (updateRegistry n rd msg).2.val < n := by
  rw [updateRegistry_index]
  rcases slotLoop_loopIndices (nameOf msg) rd n with ⟨i, hi, _, _, hres⟩ | ⟨_, hres⟩
  · rw [hres]
    exact hi
  · rw [hres]
    exact hn

/-- The last `else` of a fleet-of-3 index branch: with neither of the other two slots
within range the count is 0 and `local_average` is 0. -/
theorem localAverage3_alone {F : Type} (M : FloatOps F) (rd : Registry) (i : Fin 6)
    (hi : i.val < 3)
    (hfar : ∀ j : Fin 6, j.val < 3 → j ≠ i → M.le (distance M rd i j) (M.lit 2) = false) :
    localAverage3 M rd i = (0, M.lit 0) := by
  have hcases : ∀ a : Fin 6, a.val < 3 → a = 0 ∨ a = 1 ∨ a = 2 := by decide
  rcases hcases i hi with rfl | rfl | rfl
  · have e : localAverage3 M rd 0 = localAverage3Branch M rd 0 1 2 0 1 0 2 := rfl
    rw [e, localAverage3Branch]
    simp [hfar 1 (by decide) (by decide), hfar 2 (by decide) (by decide)]
  · have e : localAverage3 M rd 1 = localAverage3Branch M rd 1 0 2 0 1 0 2 := rfl
    rw [e, localAverage3Branch]
    simp [hfar 0 (by decide) (by decide), hfar 2 (by decide) (by decide)]
  · have e : localAverage3 M rd 2 = localAverage3Branch M rd 2 0 1 0 2 1 2 := rfl
    rw [e, localAverage3Branch]
    simp [hfar 0 (by decide) (by decide), hfar 1 (by decide) (by decide)]

theorem scenarioState_fields {F : Type} (M : FloatOps F) :
    NodeReachable M (scenarioState M) ∧ (scenarioState M).n_o_r = 3 ∧
    (scenarioState M).rover_data = scenarioHeard := by
  refine ⟨NodeReachable.pose _ _ (NodeReachable.pose _ _ (NodeReachable.start _ _ _)), ?_, ?_⟩
  · unfold scenarioState
    rw [(poseHandler_registry M _ _).2, (poseHandler_registry M _ _).2]
    rfl
  · unfold scenarioState
    rw [(poseHandler_registry M _ _).1, (poseHandler_registry M _ _).2,
      (poseHandler_registry M _ _).1]
    show (updateRegistry 3 (updateRegistry 3 emptyRegistry (cStr "a (0, 0, 0)".toList)).1
      (cStr "b (1, 0, 3.14159)".toList)).1 = scenarioHeard
    decide

theorem scenarioHeard_update :
    updateRegistry 3 scenarioHeard (cStr scenarioMessage) = (scenarioRegistry, 2) := by decide

theorem scenarioRegistry_far (j : Fin 6) (hj : j.val < 3) (h2 : j ≠ 2) :
    realOps.le (distance realOps scenarioRegistry 2 j) (realOps.lit 2) = false := by
  have hx : ∀ j, strtofDec (scenarioRegistry j 1) = (![0, 1, 5, 0, 0, 0] j, 0) := by decide
  have hy : ∀ j, strtofDec (scenarioRegistry j 2) = (![0, 0, 5, 0, 0, 0] j, 0) := by decide
  rw [Bool.eq_false_iff, Ne, within_iff _ _ _ _ (by norm_num), numVal_of_dec (hx _),
    numVal_of_dec (hx _), numVal_of_dec (hy _), numVal_of_dec (hy _)]
  fin_cases j <;> simp [vec6_five] at hj h2 ⊢ <;> norm_num

theorem scenarioRegistry_heading :
    realOps.strtof (scenarioRegistry 2 3) = some (15708 / 10000) := by
  have h : strtofDec (scenarioRegistry 2 3) = (15708, -4) := by decide
  rw [realOps_strtof, h]
  norm_num

/-- C13 (counterexample): the rover `c` of a fleet of 3 has heard `a` at (0, 0) and `b`
at (1, 0) and now hears its own broadcast from (5, 5) with heading 1.5708.  Slot 2 is
updated, neither slot 0 nor slot 1 is within distance 2 of it, and its stored heading
is 1.5708; yet `combined_theta` after `poseHandler` is 0, which is neither the stored
heading nor pi/2. -/
theorem C13_counterexample :
    NodeReachable realOps (scenarioState realOps) ∧
    (scenarioState realOps).n_o_r = 3 ∧
    (poseHandler realOps (scenarioState realOps) scenarioMessage).1.rover_data
      = scenarioRegistry ∧
    poseIndex (scenarioState realOps) scenarioMessage = 2 ∧
    realOps.le (distance realOps scenarioRegistry 2 0) (realOps.lit 2) = false ∧
    realOps.le (distance realOps scenarioRegistry 2 1) (realOps.lit 2) = false ∧
    realOps.strtof (scenarioRegistry 2 3) = some (15708 / 10000) ∧
    (poseHandler realOps (scenarioState realOps) scenarioMessage).1.combined_theta
      = some 0 ∧
    (poseHandler realOps (scenarioState realOps) scenarioMessage).1.combined_theta
      ≠ realOps.strtof (scenarioRegistry 2 3) ∧
    (poseHandler realOps (scenarioState realOps) scenarioMessage).1.combined_theta
      ≠ some (Real.pi / 2) := by
  obtain ⟨hr, hn, hd⟩ := scenarioState_fields realOps
  have hu : updateRegistry 3 (scenarioState realOps).rover_data (cStr scenarioMessage)
      = (scenarioRegistry, 2) := by
    rw [hd]
    exact scenarioHeard_update
  have hc : (poseHandler realOps (scenarioState realOps) scenarioMessage).1.combined_theta
      = some 0 := by
    rw [(poseHandler_three realOps _ _ hn).1, combined_theta_fleet_three realOps _ hr hn,
      realOps_lit]
    norm_num
  refine ⟨hr, hn, ?_, ?_, scenarioRegistry_far 0 (by decide) (by decide),
    scenarioRegistry_far 1 (by decide) (by decide), scenarioRegistry_heading, hc, ?_, ?_⟩
  · rw [(poseHandler_registry realOps _ _).1, hn, hu]
  · show (updateRegistry (scenarioState realOps).n_o_r (scenarioState realOps).rover_data
      (cStr scenarioMessage)).2 = 2
    rw [hn, hu]
  · rw [hc, scenarioRegistry_heading]
    norm_num
  · rw [hc]
    intro h
    have hpi := Real.pi_pos
    have h0 : (0 : ℝ) = Real.pi / 2 := Option.some.inj h
    linarith

/-- C13 (amended): in every state that a node with a fleet size of 3 reaches,
`poseHandler` leaves `combined_theta` at 0, the value of its initialiser, whatever the
message; the updated slot is one of the slots 0, 1 and 2; and when neither of the
other two slots passes the test `d <= 2` against it the handler publishes the global
average and a diagnostic with 0 neighbours and a local average of 0. -/
theorem C13_fleet_three_heading_stays_zero {F : Type} (M : FloatOps F) (st : State F)
    (msg : Str) (hr : NodeReachable M st) (h3 : st.n_o_r = 3) :
    (poseHandler M st msg).1.combined_theta = M.lit 0 ∧
    (poseIndex st msg).val < 3 ∧
    ((∀ j : Fin 6, j.val < 3 → j ≠ poseIndex st msg →
        M.le (distance M (poseHandler M st msg).1.rover_data (poseIndex st msg) j) (M.lit 2)
          = false) →
      (poseHandler M st msg).2 =
        [Effect.globalAverageHeading (globAverage3 M (poseHandler M st msg).1.rover_data),
          Effect.localAverageHeading st.rover_name 0 false (M.lit 0)]) := by
  have hi : (poseIndex st msg).val < 3 := by
    show (updateRegistry st.n_o_r st.rover_data (cStr msg)).2.val < 3
    rw [h3]
    exact updateRegistry_index_lt 3 _ _ (by decide)
  have hd : (poseHandler M st msg).1.rover_data
      = (updateRegistry 3 st.rover_data (cStr msg)).1 := by
    rw [(poseHandler_registry M st msg).1, h3]
  have hidx : poseIndex st msg = (updateRegistry 3 st.rover_data (cStr msg)).2 := by
    show (updateRegistry st.n_o_r st.rover_data (cStr msg)).2 = _
    rw [h3]
  refine ⟨?_, hi, ?_⟩
  · rw [(poseHandler_three M st msg h3).1]
    exact combined_theta_fleet_three M st hr h3
  · intro hfar
    rw [hd, hidx] at hfar
    rw [hidx] at hi
    rw [(poseHandler_three M st msg h3).2, hd, localAverage3_alone M _ _ hi hfar]

theorem C13_fleet_three_heading_stays_zero_witness :
    (poseHandler realOps (scenarioState realOps) scenarioMessage).1.combined_theta
      = some 0 ∧
    (poseHandler realOps (scenarioState realOps) scenarioMessage).2 =
      [Effect.globalAverageHeading
          (globAverage3 realOps
            (poseHandler realOps (scenarioState realOps) scenarioMessage).1.rover_data),
        Effect.localAverageHeading "c".toList 0 false (some 0)] := by
  have h := C13_fleet_three_heading_stays_zero realOps (scenarioState realOps)
    scenarioMessage (scenarioState_fields realOps).1 (scenarioState_fields realOps).2.1
  have hu : updateRegistry 3 (scenarioState realOps).rover_data (cStr scenarioMessage)
      = (scenarioRegistry, 2) := by
    rw [(scenarioState_fields realOps).2.2]
    exact scenarioHeard_update
  have hidx : poseIndex (scenarioState realOps) scenarioMessage = 2 := by
    show (updateRegistry (scenarioState realOps).n_o_r (scenarioState realOps).rover_data
      (cStr scenarioMessage)).2 = 2
    rw [(scenarioState_fields realOps).2.1, hu]
  have hd : (poseHandler realOps (scenarioState realOps) scenarioMessage).1.rover_data
      = scenarioRegistry := by
    rw [(poseHandler_registry realOps _ _).1, (scenarioState_fields realOps).2.1, hu]
  have hz : realOps.lit 0 = some 0 := by
    rw [realOps_lit]
    norm_num
  rw [← hz]
  refine ⟨h.1, h.2.2 ?_⟩
  rw [hd, hidx]
  exact fun j hj h2 => scenarioRegistry_far j hj h2

/-! ## The autonomous velocity command -/

/-- C21: in the idealised arithmetic, in the state TRANSLATE and in autonomous mode, for
a commanded heading c and a current heading t that both lie in [-pi, pi], the one
velocity command a tick publishes has linear.x = 0.05 * 1.5 = 0.075 and
angular.z = 0.1 * (c - t) * 8, whose absolute value is at most 8 * 0.1 * 2 pi. -/
theorem C21_autonomous_velocity_bounded (fmt : RealNaN → Str) (now : RealNaN)
    (st : State RealNaN) (c t : ℝ) (h0 : st.state_machine_state = 0)
    (hm : st.simulation_mode = 2 ∨ st.simulation_mode = 3)
    (hc : st.combined_theta = some c) (ht : st.current_location.theta = some t)
    (hcb : |c| ≤ Real.pi) (htb : |t| ≤ Real.pi) :
    ((mobilityStateMachine realOps fmt now st).2).filter Effect.isVelocity =
      [Effect.velocityPublish (some (3 / 40)) (some (1 / 10 * (c - t) * 8))] ∧
    ((3 : ℝ) / 40 = 5 / 100 * (15 / 10) ∧ (3 : ℝ) / 40 = 75 / 1000) ∧
    |1 / 10 * (c - t) * 8| ≤ 8 * (1 / 10) * (2 * Real.pi) := by
  refine ⟨?_, ⟨by norm_num, by norm_num⟩, ?_⟩
  · rw [(mobilityStateMachine_outputs realOps fmt now st h0).1 hm, hc, ht,
      translateAngular_real]
    have hl : translateLinear realOps = some (1 / 20) := by
      simp [translateLinear]
    rw [hl, setVelocity_real]
    simp [List.filter, Effect.isVelocity]
    norm_num
  · have h1 : |c - t| ≤ 2 * Real.pi := by
      have := abs_sub c t
      linarith
    have h2 : |1 / 10 * (c - t) * 8| = 8 * (1 / 10) * |c - t| := by
      rw [show (1 : ℝ) / 10 * (c - t) * 8 = 4 / 5 * (c - t) by ring, abs_mul,
        abs_of_pos (by norm_num : (0 : ℝ) < 4 / 5)]
      ring
    rw [h2]
    nlinarith [abs_nonneg (c - t)]

theorem C21_autonomous_velocity_bounded_witness :
    ((mobilityStateMachine realOps (fun _ => []) (some 0)
      { stateOf realOps 6 emptyRegistry with
        simulation_mode := 2
        combined_theta := some 3
        current_location := ⟨some 0, some 0, some (-3)⟩ }).2).filter Effect.isVelocity =
      [Effect.velocityPublish (some (3 / 40)) (some (1 / 10 * (3 - (-3)) * 8))] :=
  (C21_autonomous_velocity_bounded (fun _ => []) (some 0)
    { stateOf realOps 6 emptyRegistry with
      simulation_mode := 2
      combined_theta := some 3
      current_location := ⟨some 0, some 0, some (-3)⟩ } 3 (-3) rfl (Or.inl rfl) rfl rfl
    (by rw [abs_of_pos (by norm_num)]; exact Real.pi_gt_three.le)
    (by rw [abs_neg, abs_of_pos (by norm_num)]; exact Real.pi_gt_three.le)).1

/-! ## The six branches and the general routine -/

/-- C26: each of the six branches of the fleet of 6, embedded statement by statement
from the source, gives the same neighbour count, `local_average`,
`local_average_position` and `combined_theta` as the generalised routine that starts
from the heading vector of self and visits all other slots in ascending index order
with the same per-peer block; so does the branch chosen for any self index 0 to 5,
and these are the values `poseHandler` stores and reports for a fleet of 6. -/
theorem C26_branches_are_one_routine {F : Type} (M : FloatOps F) (rd : Registry)
    (selfIndex : Fin 6) :
    (branchIndex0 M rd = blendGeneral M rd 0 ∧ branchIndex1 M rd = blendGeneral M rd 1 ∧
      branchIndex2 M rd = blendGeneral M rd 2 ∧ branchIndex3 M rd = blendGeneral M rd 3 ∧
      branchIndex4 M rd = blendGeneral M rd 4 ∧ branchIndex5 M rd = blendGeneral M rd 5) ∧
    blend6 M rd selfIndex = blendGeneral M rd selfIndex ∧
    (blend6 M rd selfIndex).num_neighbors = (blendGeneral M rd selfIndex).num_neighbors ∧
    (blend6 M rd selfIndex).local_average = (blendGeneral M rd selfIndex).local_average ∧
    (blend6 M rd selfIndex).local_average_position
      = (blendGeneral M rd selfIndex).local_average_position ∧
    (blend6 M rd selfIndex).combined_theta = (blendGeneral M rd selfIndex).combined_theta ∧
    (∀ (st : State F) (msg : Str), st.n_o_r = 6 →
      (poseHandler M st msg).1.combined_theta =
        (blendGeneral M (poseHandler M st msg).1.rover_data (poseIndex st msg)).combined_theta ∧
      (poseHandler M st msg).1.local_average =
        (blendGeneral M (poseHandler M st msg).1.rover_data (poseIndex st msg)).local_average ∧
      (poseHandler M st msg).1.local_average_position =
        (blendGeneral M (poseHandler M st msg).1.rover_data
          (poseIndex st msg)).local_average_position ∧
      (poseHandler M st msg).2 =
        [Effect.globalAverageHeading (globAverage6 M (poseHandler M st msg).1.rover_data),
          Effect.localAverageHeading st.rover_name
            (blendGeneral M (poseHandler M st msg).1.rover_data
              (poseIndex st msg)).num_neighbors true
            (blendGeneral M (poseHandler M st msg).1.rover_data
              (poseIndex st msg)).combined_theta]) := by
  have key : ∀ (r : Registry) (i : Fin 6), blend6 M r i = blendGeneral M r i := by
    intro r i
    rw [blend6_eq_sums]
    unfold blendSums blendGeneral
    rw [peersOf_eq_filter]
  refine ⟨⟨key rd 0, key rd 1, key rd 2, key rd 3, key rd 4, key rd 5⟩, key rd selfIndex,
    by rw [key], by rw [key], by rw [key], by rw [key], ?_⟩
  intro st msg h6
  have hidx : poseIndex st msg = (updateRegistry 6 st.rover_data (cStr msg)).2 := by
    show (updateRegistry st.n_o_r st.rover_data (cStr msg)).2 = _
    rw [h6]
  have hd : (poseHandler M st msg).1.rover_data
      = (updateRegistry 6 st.rover_data (cStr msg)).1 := by
    rw [(poseHandler_registry M st msg).1, h6]
  rw [hd, hidx, ← key, poseHandler_six M st msg h6]
  exact ⟨rfl, rfl, rfl, rfl⟩

/-! ## The frame of the registry update -/

/-- C28: for every state and every message, `poseHandler` leaves all four fields of
every slot other than the selected one as they were, and writes the x, y and theta
fields of the selected slot with the three texts it cuts out of the stripped
message; the name of the selected slot is kept, or set to the identity token when it
was empty. -/
theorem C28_one_slot_overwritten {F : Type} (M : FloatOps F) (st : State F) (msg : Str) :
    (∀ j : Fin 6, j ≠ poseIndex st msg → ∀ k : Fin 4,
      (poseHandler M st msg).1.rover_data j k = st.rover_data j k) ∧
    (poseHandler M st msg).1.rover_data (poseIndex st msg) 1
      = (splitField (stripChars (cStr msg))).1 ∧
    (poseHandler M st msg).1.rover_data (poseIndex st msg) 2
      = (splitField (splitField (stripChars (cStr msg))).2).1 ∧
    (poseHandler M st msg).1.rover_data (poseIndex st msg) 3
      = (splitField (splitField (stripChars (cStr msg))).2).2 ∧
    ((poseHandler M st msg).1.rover_data (poseIndex st msg) 0
        = st.rover_data (poseIndex st msg) 0 ∨
      (st.rover_data (poseIndex st msg) 0 = [] ∧
        (poseHandler M st msg).1.rover_data (poseIndex st msg) 0 = nameOf (cStr msg))) := by
  have hf := updateRegistry_fields st.n_o_r st.rover_data (cStr msg)
  have hd := (poseHandler_registry M st msg).1
  refine ⟨fun j hj k => poseHandler_other M st msg j k hj, ?_, ?_, ?_, ?_⟩
  · rw [hd]
    exact hf.1
  · rw [hd]
    exact hf.2.1
  · rw [hd]
    exact hf.2.2
  · have hidx : poseIndex st msg
        = (slotLoop (nameOf (cStr msg)) st.rover_data (loopIndices st.n_o_r)).2 := rfl
    rw [hd, hidx, updateRegistry_name]
    rcases slotLoop_loopIndices (nameOf (cStr msg)) st.rover_data st.n_o_r with
      ⟨i, _, _, _, hres⟩ | ⟨_, hres⟩
    · rw [hres]
      by_cases he : st.rover_data i 0 = []
      · right
        simp [he, setField_apply]
      · left
        simp [he]
    · left
      rw [hres]

/-! ## Runs of the node: what the callbacks keep -/

/-- The handler `poseHandler` writes only the registry and the averages. -/
theorem poseHandler_frame {F : Type} (M : FloatOps F) (st : State F) (msg : Str) :
    (poseHandler M st msg).1.simulation_mode = st.simulation_mode ∧
    (poseHandler M st msg).1.transitions_to_auto = st.transitions_to_auto ∧
    (poseHandler M st msg).1.time_stamp_transition_to_auto
      = st.time_stamp_transition_to_auto ∧
    (poseHandler M st msg).1.current_location = st.current_location ∧
    (poseHandler M st msg).1.rover_name = st.rover_name := by
  unfold poseHandler
  by_cases h3 : st.n_o_r = 3
  · by_cases h0 : (updateRegistry 3 st.rover_data (cStr msg)).2 = 0 <;> simp [h3, h0]
  · by_cases h6 : st.n_o_r = 6 <;> simp [h3, h6]

theorem stepEvent_n_o_r {F : Type} (M : FloatOps F) (fmt : F → Str) (st : State F)
    (ev : Event F) : (stepEvent M fmt st ev).1.n_o_r = st.n_o_r := by
  cases ev with
  | tick now =>
    show (mobilityStateMachine M fmt now st).1.n_o_r = st.n_o_r
    unfold mobilityStateMachine
    simp only
    split <;> rfl
  | mode data => rfl
  | joy l a =>
    show (joyCmdHandler M st l a).1.n_o_r = st.n_o_r
    unfold joyCmdHandler
    split <;> rfl
  | odometry x y yaw => rfl
  | pose data => exact (poseHandler_registry M st data).2
  | killSwitch => rfl
  | sigint sig => rfl

theorem runEvents_n_o_r {F : Type} (M : FloatOps F) (fmt : F → Str) (evs : List (Event F)) :
    ∀ st : State F, (runEvents M fmt st evs).1.n_o_r = st.n_o_r := by
  induction evs with
  | nil => intro st; rfl
  | cons ev evs ih =>
    intro st
    show (runEvents M fmt (stepEvent M fmt st ev).1 evs).1.n_o_r = st.n_o_r
    rw [ih, stepEvent_n_o_r]

theorem stepEvent_reachable {F : Type} (M : FloatOps F) (fmt : F → Str) (st : State F)
    (ev : Event F) (h : NodeReachable M st) : NodeReachable M (stepEvent M fmt st ev).1 := by
  cases ev with
  | tick now => exact NodeReachable.tick st fmt now h
  | mode data => exact NodeReachable.mode st data h
  | joy l a => exact NodeReachable.joy st l a h
  | odometry x y yaw => exact NodeReachable.odometry st x y yaw h
  | pose data => exact NodeReachable.pose st data h
  | killSwitch => exact NodeReachable.killSwitch st h
  | sigint sig => exact NodeReachable.sigint st sig h

theorem runEvents_reachable {F : Type} (M : FloatOps F) (fmt : F → Str)
    (evs : List (Event F)) :
    ∀ st : State F, NodeReachable M st → NodeReachable M (runEvents M fmt st evs).1 := by
  induction evs with
  | nil => intro st h; exact h
  | cons ev evs ih =>
    intro st h
    exact ih _ (stepEvent_reachable M fmt st ev h)

/-- The start-up code applied to the load-time state gives the initial state with a
fleet size of 3. -/
theorem mainStartup_initialState {F : Type} (M : FloatOps F) (name old : Str) (loc : Pose F)
    (n : Nat) :
    mainStartup M name (initialState M old loc n) = initialState M name loc 3 := by
  have he : setField (setField (setField emptyRegistry 0 0 []) 1 0 []) 2 0 []
      = emptyRegistry := by
    funext j k
    simp only [setField_apply]
    split_ifs <;> rfl
  simp [mainStartup, initialState, he]

theorem mainStartup_n_o_r {F : Type} (M : FloatOps F) (name : Str) (st : State F) :
    (mainStartup M name st).n_o_r = 3 := by
  simp [mainStartup]

/-! ## The transition to autonomous mode -/

theorem tick_state {F : Type} (M : FloatOps F) (fmt : F → Str) (now : F) (st : State F) :
    (mobilityStateMachine M fmt now st).1 =
      if (st.simulation_mode = 2 ∨ st.simulation_mode = 3) ∧ st.transitions_to_auto = 0 then
        { st with
          transitions_to_auto := st.transitions_to_auto + 1
          time_stamp_transition_to_auto := now }
      else st := rfl

theorem joyCmdHandler_state {F : Type} (M : FloatOps F) (st : State F) (l a : F) :
    (joyCmdHandler M st l a).1 = st := by
  unfold joyCmdHandler
  split <;> rfl

/-- Along a run, while `transitions_to_auto` is 0 the time stamp waits for the first
tick in autonomous mode; once the counter is 1 nothing writes either of the two. -/
theorem runEvents_transition {F : Type} (M : FloatOps F) (fmt : F → Str)
    (evs : List (Event F)) :
    ∀ st : State F,
      (st.transitions_to_auto = 0 →
        (runEvents M fmt st evs).1.time_stamp_transition_to_auto
          = (firstAutoTick st.simulation_mode evs).getD st.time_stamp_transition_to_auto ∧
        (runEvents M fmt st evs).1.transitions_to_auto
          = if (firstAutoTick st.simulation_mode evs).isSome then 1 else 0) ∧
      (st.transitions_to_auto = 1 →
        (runEvents M fmt st evs).1.time_stamp_transition_to_auto
          = st.time_stamp_transition_to_auto ∧
        (runEvents M fmt st evs).1.transitions_to_auto = 1) := by
  induction evs with
  | nil =>
    intro st
    constructor
    · intro h
      simp [runEvents, firstAutoTick, h]
    · intro h
      exact ⟨rfl, h⟩
  | cons ev evs ih =>
    intro st
    have hrun : runEvents M fmt st (ev :: evs)
        = ((runEvents M fmt (stepEvent M fmt st ev).1 evs).1,
            (stepEvent M fmt st ev).2 ++ (runEvents M fmt (stepEvent M fmt st ev).1 evs).2) := rfl
    rw [hrun]
    simp only
    cases ev with
    | tick now =>
      have hs : (stepEvent M fmt st (Event.tick now)).1
          = (mobilityStateMachine M fmt now st).1 := rfl
      rw [hs, tick_state]
      by_cases hm : st.simulation_mode = 2 ∨ st.simulation_mode = 3
      · constructor
        · intro h0
          rw [if_pos ⟨hm, h0⟩]
          have h1 := (ih { st with
            transitions_to_auto := st.transitions_to_auto + 1
            time_stamp_transition_to_auto := now }).2 (by simp [h0])
          simp [firstAutoTick, hm, h1]
        · intro h1
          rw [if_neg (by simp [h1])]
          exact (ih st).2 h1
      · rw [if_neg (fun h => hm h.1)]
        constructor
        · intro h0
          simpa [firstAutoTick, hm] using (ih st).1 h0
        · intro h1
          exact (ih st).2 h1
    | mode data =>
      have hs : (stepEvent M fmt st (Event.mode data)).1
          = { st with simulation_mode := (data.val : Int) } := rfl
      rw [hs]
      constructor
      · intro h0
        simpa [firstAutoTick] using (ih { st with simulation_mode := (data.val : Int) }).1 h0
      · intro h1
        exact (ih { st with simulation_mode := (data.val : Int) }).2 h1
    | joy l a =>
      have hs : (stepEvent M fmt st (Event.joy l a)).1 = st := joyCmdHandler_state M st l a
      rw [hs]
      constructor
      · intro h0
        simpa [firstAutoTick] using (ih st).1 h0
      · intro h1
        exact (ih st).2 h1
    | odometry x y yaw =>
      have hs : (stepEvent M fmt st (Event.odometry x y yaw)).1
          = { st with current_location := { x := x, y := y, theta := yaw } } := rfl
      rw [hs]
      constructor
      · intro h0
        simpa [firstAutoTick] using
          (ih { st with current_location := { x := x, y := y, theta := yaw } }).1 h0
      · intro h1
        exact (ih { st with current_location := { x := x, y := y, theta := yaw } }).2 h1
    | pose data =>
      have hs : (stepEvent M fmt st (Event.pose data)).1 = (poseHandler M st data).1 := rfl
      obtain ⟨f1, f2, f3, _, _⟩ := poseHandler_frame M st data
      rw [hs]
      constructor
      · intro h0
        have h := (ih (poseHandler M st data).1).1 (by rw [f2]; exact h0)
        rw [f1, f3] at h
        simpa [firstAutoTick] using h
      · intro h1
        have h := (ih (poseHandler M st data).1).2 (by rw [f2]; exact h1)
        rw [f3] at h
        exact h
    | killSwitch =>
      have hs : (stepEvent M fmt st Event.killSwitch).1 = st := rfl
      rw [hs]
      constructor
      · intro h0
        simpa [firstAutoTick] using (ih st).1 h0
      · intro h1
        exact (ih st).2 h1
    | sigint sig =>
      have hs : (stepEvent M fmt st (Event.sigint sig)).1 = st := rfl
      rw [hs]
      constructor
      · intro h0
        simpa [firstAutoTick] using (ih st).1 h0
      · intro h1
        exact (ih st).2 h1

/-- One callback sends the same outputs, and changes the other variables in the same
way, whatever `transitions_to_auto` and `time_stamp_transition_to_auto` hold. -/
theorem stepEvent_forget {F : Type} (M : FloatOps F) (fmt : F → Str) (st : State F)
    (ev : Event F) :
    (stepEvent M fmt (forgetTransition M st) ev).2 = (stepEvent M fmt st ev).2 ∧
    forgetTransition M (stepEvent M fmt (forgetTransition M st) ev).1
      = forgetTransition M (stepEvent M fmt st ev).1 := by
  cases ev with
  | tick now =>
    refine ⟨rfl, ?_⟩
    show forgetTransition M (mobilityStateMachine M fmt now (forgetTransition M st)).1
      = forgetTransition M (mobilityStateMachine M fmt now st).1
    rw [tick_state, tick_state]
    split <;> split <;> rfl
  | mode data => exact ⟨rfl, rfl⟩
  | joy l a =>
    show (joyCmdHandler M (forgetTransition M st) l a).2 = (joyCmdHandler M st l a).2 ∧
      forgetTransition M (joyCmdHandler M (forgetTransition M st) l a).1
        = forgetTransition M (joyCmdHandler M st l a).1
    rw [joyCmdHandler_state, joyCmdHandler_state]
    refine ⟨?_, rfl⟩
    unfold joyCmdHandler forgetTransition
    simp only
    split <;> rfl
  | odometry x y yaw => exact ⟨rfl, rfl⟩
  | pose data =>
    show (poseHandler M (forgetTransition M st) data).2 = (poseHandler M st data).2 ∧
      forgetTransition M (poseHandler M (forgetTransition M st) data).1
        = forgetTransition M (poseHandler M st data).1
    unfold poseHandler forgetTransition
    by_cases h3 : st.n_o_r = 3
    · by_cases h0 : (updateRegistry 3 st.rover_data (cStr data)).2 = 0 <;> simp [h3, h0]
    · by_cases h6 : st.n_o_r = 6 <;> simp [h3, h6]
  | killSwitch => exact ⟨rfl, rfl⟩
  | sigint sig => exact ⟨rfl, rfl⟩

/-- Two states that differ at most in `transitions_to_auto` and
`time_stamp_transition_to_auto` send the same outputs along every run. -/
theorem runEvents_forget {F : Type} (M : FloatOps F) (fmt : F → Str) (evs : List (Event F)) :
    ∀ st st2 : State F, forgetTransition M st = forgetTransition M st2 →
      (runEvents M fmt st evs).2 = (runEvents M fmt st2 evs).2 := by
  induction evs with
  | nil => intro st st2 _; rfl
  | cons ev evs ih =>
    intro st st2 h
    have e1 := stepEvent_forget M fmt st ev
    have e2 := stepEvent_forget M fmt st2 ev
    have ho : (stepEvent M fmt st ev).2 = (stepEvent M fmt st2 ev).2 := by
      rw [← e1.1, ← e2.1, h]
    have hs : forgetTransition M (stepEvent M fmt st ev).1
        = forgetTransition M (stepEvent M fmt st2 ev).1 := by
      rw [← e1.2, ← e2.2, h]
    show (stepEvent M fmt st ev).2 ++ (runEvents M fmt (stepEvent M fmt st ev).1 evs).2
      = (stepEvent M fmt st2 ev).2 ++ (runEvents M fmt (stepEvent M fmt st2 ev).1 evs).2
    rw [ho, ih _ _ hs]

/-- C27: along every sequence of callbacks (ticks, mode changes and all others) from
the initial state, `time_stamp_transition_to_auto` holds the time of the first tick
that ran in autonomous mode, and its initial 0 when there was none: the first such
tick writes it and nothing writes it later.  The counter `transitions_to_auto` is 1
when there was such a tick and 0 otherwise.  The outputs of every run, the velocity
commands among them, are the same whatever the two variables hold. -/
theorem C27_transition_recorded_once {F : Type} (M : FloatOps F) (fmt : F → Str)
    (rover_name : Str) (loc : Pose F) (n_o_r : Nat) (evs : List (Event F)) :
    (runEvents M fmt (initialState M rover_name loc n_o_r) evs).1.time_stamp_transition_to_auto
      = (firstAutoTick 0 evs).getD (M.lit 0) ∧
    (runEvents M fmt (initialState M rover_name loc n_o_r) evs).1.transitions_to_auto
      = (if (firstAutoTick 0 evs).isSome then 1 else 0) ∧
    ((runEvents M fmt (initialState M rover_name loc n_o_r) evs).1.transitions_to_auto = 0 ∨
      (runEvents M fmt (initialState M rover_name loc n_o_r) evs).1.transitions_to_auto = 1) ∧
    (∀ (st : State F) (later : List (Event F)),
      st.transitions_to_auto = 1 →
        (runEvents M fmt st later).1.time_stamp_transition_to_auto
          = st.time_stamp_transition_to_auto ∧
        (runEvents M fmt st later).1.transitions_to_auto = 1) ∧
    (∀ (st : State F) (count : Int) (stamp : F) (run : List (Event F)),
      (runEvents M fmt
        { st with transitions_to_auto := count, time_stamp_transition_to_auto := stamp }
        run).2 = (runEvents M fmt st run).2) := by
  have h := (runEvents_transition M fmt evs (initialState M rover_name loc n_o_r)).1 rfl
  refine ⟨h.1, h.2, ?_, fun st later h1 => (runEvents_transition M fmt later st).2 h1,
    fun st count stamp run => runEvents_forget M fmt run _ _ rfl⟩
  rw [h.2]
  split
  · exact Or.inr rfl
  · exact Or.inl rfl

/-! ## The fleet size after start-up -/

/-- C29: whatever the state before, and so whatever the value of `n_o_r`, the start-up
code of `main` leaves `n_o_r` at 3, and no callback changes it.  So in every state
reached after start-up `poseHandler` runs the fleet-of-3 branch: it publishes the
global average of the slots 0 to 2 and a `Local Average Theta` diagnostic, never the
`Combine Theta` diagnostic of the fleet-of-6 branch, and it leaves `combined_theta`
and `local_average_position` as they are. -/
theorem C29_startup_forces_fleet_three {F : Type} (M : FloatOps F) (fmt : F → Str)
    (name : Str) (before : State F) (evs : List (Event F)) (msg : Str) :
    (mainStartup M name before).n_o_r = 3 ∧
    (runEvents M fmt (mainStartup M name before) evs).1.n_o_r = 3 ∧
    (poseHandler M (runEvents M fmt (mainStartup M name before) evs).1 msg).2 =
      [Effect.globalAverageHeading
          (globAverage3 M
            (poseHandler M (runEvents M fmt (mainStartup M name before) evs).1
              msg).1.rover_data),
        Effect.localAverageHeading
          (runEvents M fmt (mainStartup M name before) evs).1.rover_name
          (localAverage3 M
            (poseHandler M (runEvents M fmt (mainStartup M name before) evs).1
              msg).1.rover_data
            (poseIndex (runEvents M fmt (mainStartup M name before) evs).1 msg)).1 false
          (localAverage3 M
            (poseHandler M (runEvents M fmt (mainStartup M name before) evs).1
              msg).1.rover_data
            (poseIndex (runEvents M fmt (mainStartup M name before) evs).1 msg)).2] ∧
    (∀ e ∈ (poseHandler M (runEvents M fmt (mainStartup M name before) evs).1 msg).2,
      ∀ (nm : Str) (count : Int) (v : F), e ≠ Effect.localAverageHeading nm count true v) ∧
    (poseHandler M (runEvents M fmt (mainStartup M name before) evs).1 msg).1.combined_theta
      = (runEvents M fmt (mainStartup M name before) evs).1.combined_theta := by
  have h3 : (runEvents M fmt (mainStartup M name before) evs).1.n_o_r = 3 := by
    rw [runEvents_n_o_r, mainStartup_n_o_r]
  generalize (runEvents M fmt (mainStartup M name before) evs).1 = s at h3 ⊢
  have hd : (poseHandler M s msg).1.rover_data
      = (updateRegistry 3 s.rover_data (cStr msg)).1 := by
    rw [(poseHandler_registry M s msg).1, h3]
  have hidx : poseIndex s msg = (updateRegistry 3 s.rover_data (cStr msg)).2 := by
    show (updateRegistry s.n_o_r s.rover_data (cStr msg)).2 = _
    rw [h3]
  have ho := (poseHandler_three M s msg h3).2
  refine ⟨mainStartup_n_o_r M name before, h3, ?_, ?_, (poseHandler_three M s msg h3).1⟩
  · rw [hd, hidx]
    exact ho
  · intro e he nm count v
    rw [ho] at he
    simp only [List.mem_cons, List.mem_singleton, List.not_mem_nil, or_false] at he
    rcases he with rfl | rfl
    · intro h
      cases h
    · intro h
      injection h with _ _ hb _
      cases hb

/-! ## The fleet of 3 and the autonomous tick -/

/-- C30: for a fleet size of 3, `poseHandler` leaves `combined_theta` unchanged in every
state and for every message.  In every state a node with that fleet size reaches,
`combined_theta` is the 0 of its initialiser, and the velocity command of a tick in
autonomous mode is built from the angular velocity
0.1 * (0 - current_location.theta), whatever the registry holds. -/
theorem C30_fleet_three_ignores_peers {F : Type} (M : FloatOps F) (fmt : F → Str) (now : F)
    (st : State F) (hr : NodeReachable M st) (h3 : st.n_o_r = 3)
    (hm : st.simulation_mode = 2 ∨ st.simulation_mode = 3) :
    (∀ (s : State F) (msg : Str), s.n_o_r = 3 →
      (poseHandler M s msg).1.combined_theta = s.combined_theta) ∧
    st.combined_theta = M.lit 0 ∧
    ((mobilityStateMachine M fmt now st).2).filter Effect.isVelocity =
      [Effect.velocityPublish (M.mul (translateLinear M) (M.lit (3 / 2)))
        (M.mul (translateAngular M (M.lit 0) st.current_location.theta) (M.lit 8))] ∧
    translateAngular M (M.lit 0) st.current_location.theta
      = M.mul (M.lit (1 / 10)) (M.sub (M.lit 0) st.current_location.theta) ∧
    (∀ t : ℝ, translateAngular realOps (realOps.lit 0) (some t) = some (1 / 10 * (0 - t))) := by
  have hc := combined_theta_fleet_three M st hr h3
  have h0 := state_machine_state_reachable M st hr
  refine ⟨fun s msg hs => (poseHandler_three M s msg hs).1, hc, ?_, rfl, ?_⟩
  · rw [(mobilityStateMachine_outputs M fmt now st h0).1 hm, hc]
    simp [setVelocity, List.filter, Effect.isVelocity]
  · intro t
    rw [realOps_lit]
    simp [translateAngular]

theorem C30_fleet_three_ignores_peers_witness :
    ((mobilityStateMachine realOps (fun _ => []) (some 0)
      (modeHandler realOps (scenarioState realOps) 2).1).2).filter Effect.isVelocity =
      [Effect.velocityPublish (realOps.mul (translateLinear realOps) (realOps.lit (3 / 2)))
        (realOps.mul
          (translateAngular realOps (realOps.lit 0)
            (modeHandler realOps (scenarioState realOps) 2).1.current_location.theta)
          (realOps.lit 8))] :=
  (C30_fleet_three_ignores_peers realOps (fun _ => []) (some 0)
    (modeHandler realOps (scenarioState realOps) 2).1
    (NodeReachable.mode _ 2 (scenarioState_fields realOps).1)
    (scenarioState_fields realOps).2.1 (Or.inl rfl)).2.2.1

/-! ## The normalisations of the fleet-of-6 branch -/

/-- The end of a branch in terms of its three terms. -/
theorem blendFinish_terms {F : Type} (M : FloatOps F) (acc : BlendAcc F) :
    (blendFinish M acc).combined_theta =
      M.atan2
        (M.add (M.add (alignmentTerm M acc).2 (cohesionTerm M acc).2) (separationTerm M acc).2)
        (M.add (M.add (alignmentTerm M acc).1 (cohesionTerm M acc).1) (separationTerm M acc).1) ∧
    (blendFinish M acc).local_average_position
      = M.atan2 (cohesionTerm M acc).2 (cohesionTerm M acc).1 := by
  unfold blendFinish alignmentTerm cohesionTerm separationTerm blendNorms meanHeading
  by_cases h : acc.num_neighbors = 1 <;> simp [h]

theorem realOps_norm (x y : ℝ) :
    realOps.sqrt (realOps.add (realOps.mul (some x) (some x)) (realOps.mul (some y) (some y)))
      = some (Real.sqrt (x * x + y * y)) := by
  rw [realOps_mul, realOps_mul, realOps_add, realOps_sqrt, if_neg]
  have h1 := mul_self_nonneg x
  have h2 := mul_self_nonneg y
  linarith

theorem realOps_zero_over_zero :
    realOps.div (realOps.neg (some 0)) (some 0) = none := by
  rw [realOps_neg, realOps_div, if_pos rfl]

/-- The sums of a branch that found no neighbour have zero cohesion and separation
magnitudes, and both terms are NaN. -/
theorem blendStart_terms (rd : Registry) (i : Fin 6) :
    (blendStart realOps rd i).loc_positions = (some 0, some 0) ∧
    (blendStart realOps rd i).seperation = (some 0, some 0) ∧
    (blendNorms realOps (blendStart realOps rd i)).1 = some 1 ∧
    (blendNorms realOps (blendStart realOps rd i)).2 = (some 0, some 0) ∧
    cohesionTerm realOps (blendStart realOps rd i) = (none, none) ∧
    separationTerm realOps (blendStart realOps rd i) = (none, none) := by
  have hl : (blendStart realOps rd i).loc_positions = (some 0, some 0) := by
    simp [blendStart]
  have hs : (blendStart realOps rd i).seperation = (some 0, some 0) := by
    simp [blendStart]
  have hg : meanHeading realOps (blendStart realOps rd i)
      = (some (Real.sin (numVal (rd i 3))), some (Real.cos (numVal (rd i 3)))) := by
    simp [meanHeading, blendStart, unitVec_real]
  have hn : (blendNorms realOps (blendStart realOps rd i)).2 = (some 0, some 0) := by
    simp only [blendNorms, hl, hs, realOps_norm]
    simp
  refine ⟨hl, hs, ?_, hn, ?_, ?_⟩
  · simp only [blendNorms, hg, realOps_norm]
    rw [← sq, ← sq, Real.sin_sq_add_cos_sq, Real.sqrt_one]
  · simp only [cohesionTerm, hn, hl, realOps_zero_over_zero, realOps_mul_none_left]
  · simp only [separationTerm, hn, hs, realOps_zero_over_zero, realOps_mul_none_left]

/-- C22 (the code at the failing input): the six slots are claimed, slot 0 is at the
origin and every other slot is at distance 3, so slot 0 has no neighbour.  After its
broadcast the alignment magnitude is 1, but the cohesion and separation sums are
(0, 0), their magnitudes `norm` are 0, and the branch divides by them all the same:
`-0/0` is NaN, both terms are NaN and so is `combined_theta`.  The same holds for
every registry and every slot without a neighbour. -/
theorem C22_zero_magnitude_is_divided :
    (poseHandler realOps (stateOf realOps 6 soloRegistry) soloMessage).1.rover_data
      = soloRegistry ∧
    poseIndex (stateOf realOps 6 soloRegistry) soloMessage = 0 ∧
    isolated realOps soloRegistry 0 ∧
    (blendSums realOps soloRegistry 0).loc_positions = (some 0, some 0) ∧
    (blendSums realOps soloRegistry 0).seperation = (some 0, some 0) ∧
    blendNorms realOps (blendSums realOps soloRegistry 0) = (some 1, some 0, some 0) ∧
    realOps.div (realOps.neg (some 0)) (some 0) = none ∧
    cohesionTerm realOps (blendSums realOps soloRegistry 0) = (none, none) ∧
    separationTerm realOps (blendSums realOps soloRegistry 0) = (none, none) ∧
    (poseHandler realOps (stateOf realOps 6 soloRegistry) soloMessage).1.combined_theta
      = none ∧
    (∀ (rd : Registry) (i : Fin 6), isolated realOps rd i →
      (blendNorms realOps (blendSums realOps rd i)).2 = (some 0, some 0) ∧
      cohesionTerm realOps (blendSums realOps rd i) = (none, none) ∧
      separationTerm realOps (blendSums realOps rd i) = (none, none) ∧
      (blend6 realOps rd i).combined_theta = none) := by
  have hp := poseHandler_six realOps (stateOf realOps 6 soloRegistry) soloMessage rfl
  have hu : updateRegistry 6 (stateOf realOps 6 soloRegistry).rover_data (cStr soloMessage)
      = (soloRegistry, 0) := soloRegistry_update
  rw [hu] at hp
  have ha := blendSums_alone realOps soloRegistry 0 soloRegistry_isolated
  obtain ⟨hl, hs, hn1, hn2, hc, hsp⟩ := blendStart_terms soloRegistry 0
  refine ⟨?_, soloRegistry_index, soloRegistry_isolated, ?_, ?_, ?_, realOps_zero_over_zero,
    ?_, ?_, ?_, ?_⟩
  · rw [hp]
  · rw [ha, hl]
  · rw [ha, hs]
  · rw [ha]
    exact Prod.ext hn1 hn2
  · rw [ha, hc]
  · rw [ha, hsp]
  · rw [hp]
    dsimp only
    rw [blend6_alone soloRegistry 0 soloRegistry_isolated]
  · intro rd i hfar
    have hb := blendSums_alone realOps rd i hfar
    obtain ⟨_, _, _, k2, k3, k4⟩ := blendStart_terms rd i
    refine ⟨?_, ?_, ?_, ?_⟩
    · rw [hb, k2]
    · rw [hb, k3]
    · rw [hb, k4]
    · rw [blend6_alone rd i hfar]

/-! ## The global average -/

theorem globAverage3_real (rd : Registry) :
    globAverage3 realOps rd = some (Complex.arg
      ⟨(Real.sin (numVal (rd 0 3)) + Real.sin (numVal (rd 1 3))
          + Real.sin (numVal (rd 2 3))) / 3,
        (Real.cos (numVal (rd 0 3)) + Real.cos (numVal (rd 1 3))
          + Real.cos (numVal (rd 2 3))) / 3⟩) := by
  simp [globAverage3, unitVec_real, realOps_div]

theorem globAverage6_real (rd : Registry) :
    globAverage6 realOps rd = some (Complex.arg
      ⟨(Real.sin (numVal (rd 0 3)) + Real.sin (numVal (rd 1 3))
          + Real.sin (numVal (rd 2 3)) + Real.sin (numVal (rd 3 3))
          + Real.sin (numVal (rd 4 3)) + Real.sin (numVal (rd 5 3))) / 6,
        (Real.cos (numVal (rd 0 3)) + Real.cos (numVal (rd 1 3))
          + Real.cos (numVal (rd 2 3)) + Real.cos (numVal (rd 3 3))
          + Real.cos (numVal (rd 4 3)) + Real.cos (numVal (rd 5 3))) / 6⟩) := by
  simp [globAverage6, unitVec_real, realOps_div]

theorem alignedRegistry_update :
    updateRegistry 3 alignedRegistry (cStr pairMessage) = (alignedRegistry, 0) := by decide

theorem alignedRegistry_theta (j : Fin 6) : numVal (alignedRegistry j 3) = 0 := by
  rw [numVal_of_dec ((by decide : ∀ j, strtofDec (alignedRegistry j 3) = (0, 0)) j)]
  simp

/-- C24 (the code at the failing input): the three rovers of a fleet of 3 all store the
heading 0.  After a broadcast `glob_average` is pi/2 and not 0: the arguments of
`atan2` are the mean of the cosines first and the mean of the sines second, so the
result is atan2(mean cos, mean sin), the angle of the vector (mean sin, mean cos),
while atan2(mean sin, mean cos) is 0.  The same holds for six rovers with heading 0.
For every registry the value is the angle of (mean sin, mean cos). -/
theorem C24_global_average_swapped :
    (poseHandler realOps (stateOf realOps 3 alignedRegistry) pairMessage).1.rover_data
      = alignedRegistry ∧
    (∀ j : Fin 6, realOps.strtof (alignedRegistry j 3) = some 0) ∧
    (poseHandler realOps (stateOf realOps 3 alignedRegistry) pairMessage).1.glob_average
      = some (Real.pi / 2) ∧
    (poseHandler realOps (stateOf realOps 3 alignedRegistry) pairMessage).1.glob_average
      ≠ some 0 ∧
    realOps.atan2
      (realOps.div (realOps.add (realOps.add (unitVec realOps alignedRegistry 0).2
        (unitVec realOps alignedRegistry 1).2) (unitVec realOps alignedRegistry 2).2)
        (realOps.lit 3))
      (realOps.div (realOps.add (realOps.add (unitVec realOps alignedRegistry 0).1
        (unitVec realOps alignedRegistry 1).1) (unitVec realOps alignedRegistry 2).1)
        (realOps.lit 3)) = some 0 ∧
    (∀ j : Fin 6, realOps.strtof (pairRegistry j 3) = some 0) ∧
    (poseHandler realOps (stateOf realOps 6 pairRegistry) pairMessage).1.glob_average
      = some (Real.pi / 2) ∧
    (∀ rd : Registry, globAverage3 realOps rd = some (Complex.arg
      ⟨(Real.sin (numVal (rd 0 3)) + Real.sin (numVal (rd 1 3))
          + Real.sin (numVal (rd 2 3))) / 3,
        (Real.cos (numVal (rd 0 3)) + Real.cos (numVal (rd 1 3))
          + Real.cos (numVal (rd 2 3))) / 3⟩)) ∧
    (∀ rd : Registry, globAverage6 realOps rd = some (Complex.arg
      ⟨(Real.sin (numVal (rd 0 3)) + Real.sin (numVal (rd 1 3))
          + Real.sin (numVal (rd 2 3)) + Real.sin (numVal (rd 3 3))
          + Real.sin (numVal (rd 4 3)) + Real.sin (numVal (rd 5 3))) / 6,
        (Real.cos (numVal (rd 0 3)) + Real.cos (numVal (rd 1 3))
          + Real.cos (numVal (rd 2 3)) + Real.cos (numVal (rd 3 3))
          + Real.cos (numVal (rd 4 3)) + Real.cos (numVal (rd 5 3))) / 6⟩)) := by
  have hd : (poseHandler realOps (stateOf realOps 3 alignedRegistry) pairMessage).1.rover_data
      = alignedRegistry := by
    rw [(poseHandler_registry realOps _ _).1]
    show (updateRegistry 3 alignedRegistry (cStr pairMessage)).1 = alignedRegistry
    rw [alignedRegistry_update]
  have hg3 : (poseHandler realOps (stateOf realOps 3 alignedRegistry) pairMessage).1.glob_average
      = globAverage3 realOps alignedRegistry := by
    have h : (poseHandler realOps (stateOf realOps 3 alignedRegistry) pairMessage).1.glob_average
        = globAverage3 realOps (updateRegistry 3 alignedRegistry (cStr pairMessage)).1 := by
      simp [poseHandler, stateOf, initialState, alignedRegistry_update]
    rw [h, alignedRegistry_update]
  have hv3 : globAverage3 realOps alignedRegistry = some (Real.pi / 2) := by
    rw [globAverage3_real]
    simp only [alignedRegistry_theta, Real.sin_zero, Real.cos_zero]
    norm_num
    exact arg_zero_one
  have hp6 := poseHandler_six realOps (stateOf realOps 6 pairRegistry) pairMessage rfl
  have hu6 : updateRegistry 6 (stateOf realOps 6 pairRegistry).rover_data (cStr pairMessage)
      = (pairRegistry, 0) := pairRegistry_update
  rw [hu6] at hp6
  have hv6 : globAverage6 realOps pairRegistry = some (Real.pi / 2) := by
    rw [globAverage6_real]
    simp only [pairRegistry_theta, Real.sin_zero, Real.cos_zero]
    norm_num
    exact arg_zero_one
  refine ⟨hd, ?_, ?_, ?_, ?_, ?_, ?_, globAverage3_real, globAverage6_real⟩
  · intro j
    rw [realOps_strtof_numVal, alignedRegistry_theta]
  · rw [hg3, hv3]
  · rw [hg3, hv3]
    intro h
    have h0 : Real.pi / 2 = 0 := Option.some.inj h
    have := Real.pi_pos
    linarith
  · simp only [unitVec_real, alignedRegistry_theta, Real.sin_zero, Real.cos_zero]
    norm_num [realOps_div]
    exact arg_of_nonneg 1 (by norm_num)
  · intro j
    rw [realOps_strtof_numVal, pairRegistry_theta]
  · rw [hp6]
    exact hv6

/-! ## The local average of a fleet of 3 -/

theorem pairAverage_real (a b : Fin 6) (rd : Registry) :
    pairAverage realOps (unitVec realOps rd a) (unitVec realOps rd b) = some (Complex.arg
      ⟨(Real.sin (numVal (rd a 3)) + Real.sin (numVal (rd b 3))) / 2,
        (Real.cos (numVal (rd a 3)) + Real.cos (numVal (rd b 3))) / 2⟩) := by
  simp [pairAverage, unitVec_real, realOps_div]

/-- An index branch of the fleet of 3 when only its second distance is within range:
one neighbour, and the mean of the two slots the branch names for that case. -/
theorem localAverage3Branch_second {F : Type} (M : FloatOps F) (rd : Registry)
    (self p q a12 b12 a13 b13 : Fin 6)
    (hp : M.le (distance M rd self p) (M.lit 2) = false)
    (hq : M.le (distance M rd self q) (M.lit 2) = true) :
    localAverage3Branch M rd self p q a12 b12 a13 b13
      = (1, pairAverage M (unitVec M rd a13) (unitVec M rd b13)) := by
  simp [localAverage3Branch, hp, hq]

/-- An index branch of the fleet of 3 when only its first distance is within range. -/
theorem localAverage3Branch_first {F : Type} (M : FloatOps F) (rd : Registry)
    (self p q a12 b12 a13 b13 : Fin 6)
    (hp : M.le (distance M rd self p) (M.lit 2) = true)
    (hq : M.le (distance M rd self q) (M.lit 2) = false) :
    localAverage3Branch M rd self p q a12 b12 a13 b13
      = (1, pairAverage M (unitVec M rd a12) (unitVec M rd b12)) := by
  simp [localAverage3Branch, hp, hq]

theorem cornerRegistry_update :
    updateRegistry 3 cornerRegistry (cStr cornerMessage) = (cornerRegistry, 1) := by decide

theorem cornerRegistry_within (j : Fin 6) (hj : j.val < 3) (h1 : j ≠ 1) :
    realOps.le (distance realOps cornerRegistry 1 j) (realOps.lit 2) = decide (j = 2) := by
  have hx : ∀ j, strtofDec (cornerRegistry j 1) = (![5, 0, 1, 0, 0, 0] j, 0) := by decide
  have hy : ∀ j, strtofDec (cornerRegistry j 2) = (![5, 0, 0, 0, 0, 0] j, 0) := by decide
  rw [Bool.eq_iff_iff, within_iff _ _ _ _ (by norm_num), numVal_of_dec (hx _),
    numVal_of_dec (hx _), numVal_of_dec (hy _), numVal_of_dec (hy _)]
  fin_cases j <;> simp [vec6_five] at hj h1 ⊢
  norm_num

theorem cornerRegistry_theta (j : Fin 6) :
    numVal (cornerRegistry j 3) = ((![0, 1, 0, 0, 0, 0] j : ℤ) : ℝ) :=
  numVal_of_dec ((by decide :
    ∀ j, strtofDec (cornerRegistry j 3) = (![0, 1, 0, 0, 0, 0] j, 0)) j)

/-- C23 (the code at the failing input): in a fleet of 3, `a` is at (5, 5) with heading
0, `b` at the origin with heading 1 and `c` at (1, 0) with heading 0, and `b`
broadcasts.  Slot 1 is updated and slot 2 is its only neighbour within distance 2.
The branch for index 1 then averages `u1` and `u3`, the heading vectors of the
slots 0 and 2: it reports one neighbour and pi/2, the angle the code gives to the
mean of two headings 0, and the heading 1 of slot 1 itself does not enter; the mean
of the slots 1 and 2 has another angle.  In general, when only its second distance
is within range, the branch for index 1 averages the slots 0 and 2, while the
branches for the indices 0 and 2 average the slot itself and that neighbour. -/
theorem C23_index_one_averages_wrong_slots :
    (poseHandler realOps (stateOf realOps 3 cornerRegistry) cornerMessage).1.rover_data
      = cornerRegistry ∧
    poseIndex (stateOf realOps 3 cornerRegistry) cornerMessage = 1 ∧
    realOps.le (distance realOps cornerRegistry 1 0) (realOps.lit 2) = false ∧
    realOps.le (distance realOps cornerRegistry 1 2) (realOps.lit 2) = true ∧
    (poseHandler realOps (stateOf realOps 3 cornerRegistry) cornerMessage).2 =
      [Effect.globalAverageHeading (globAverage3 realOps cornerRegistry),
        Effect.localAverageHeading "ajax".toList 1 false (some (Real.pi / 2))] ∧
    pairAverage realOps (unitVec realOps cornerRegistry 0) (unitVec realOps cornerRegistry 2)
      = some (Real.pi / 2) ∧
    pairAverage realOps (unitVec realOps cornerRegistry 1) (unitVec realOps cornerRegistry 2)
      ≠ some (Real.pi / 2) ∧
    (∀ (rd : Registry),
      realOps.le (distance realOps rd 1 0) (realOps.lit 2) = false →
      realOps.le (distance realOps rd 1 2) (realOps.lit 2) = true →
      localAverage3 realOps rd 1
        = (1, pairAverage realOps (unitVec realOps rd 0) (unitVec realOps rd 2))) ∧
    (∀ (rd : Registry),
      realOps.le (distance realOps rd 0 1) (realOps.lit 2) = false →
      realOps.le (distance realOps rd 0 2) (realOps.lit 2) = true →
      localAverage3 realOps rd 0
        = (1, pairAverage realOps (unitVec realOps rd 0) (unitVec realOps rd 2))) ∧
    (∀ (rd : Registry),
      realOps.le (distance realOps rd 2 0) (realOps.lit 2) = false →
      realOps.le (distance realOps rd 2 1) (realOps.lit 2) = true →
      localAverage3 realOps rd 2
        = (1, pairAverage realOps (unitVec realOps rd 1) (unitVec realOps rd 2))) := by
  have hu : updateRegistry 3 (stateOf realOps 3 cornerRegistry).rover_data (cStr cornerMessage)
      = (cornerRegistry, 1) := cornerRegistry_update
  have hfar : realOps.le (distance realOps cornerRegistry 1 0) (realOps.lit 2) = false := by
    rw [cornerRegistry_within 0 (by decide) (by decide)]
    decide
  have hnear : realOps.le (distance realOps cornerRegistry 1 2) (realOps.lit 2) = true := by
    rw [cornerRegistry_within 2 (by decide) (by decide)]
    decide
  have hcode : pairAverage realOps (unitVec realOps cornerRegistry 0)
      (unitVec realOps cornerRegistry 2) = some (Real.pi / 2) := by
    rw [pairAverage_real]
    simp only [cornerRegistry_theta]
    norm_num
    exact arg_zero_one
  have hone : ∀ rd : Registry,
      realOps.le (distance realOps rd 1 0) (realOps.lit 2) = false →
      realOps.le (distance realOps rd 1 2) (realOps.lit 2) = true →
      localAverage3 realOps rd 1
        = (1, pairAverage realOps (unitVec realOps rd 0) (unitVec realOps rd 2)) := by
    intro rd h1 h2
    have e : localAverage3 realOps rd 1 = localAverage3Branch realOps rd 1 0 2 0 1 0 2 := rfl
    rw [e, localAverage3Branch_second realOps rd 1 0 2 0 1 0 2 h1 h2]
  refine ⟨?_, ?_, hfar, hnear, ?_, hcode, ?_, hone, ?_, ?_⟩
  · rw [(poseHandler_registry realOps _ _).1]
    show (updateRegistry 3 (stateOf realOps 3 cornerRegistry).rover_data
      (cStr cornerMessage)).1 = cornerRegistry
    rw [hu]
  · show (updateRegistry 3 (stateOf realOps 3 cornerRegistry).rover_data
      (cStr cornerMessage)).2 = 1
    rw [hu]
  · rw [(poseHandler_three realOps _ _ rfl).2, hu, hone cornerRegistry hfar hnear, hcode]
    rfl
  · rw [pairAverage_real]
    simp only [cornerRegistry_theta]
    intro h
    have h2 := Option.some.inj h
    rw [Complex.arg_eq_pi_div_two_iff] at h2
    have hs : 0 < Real.sin 1 :=
      Real.sin_pos_of_pos_of_lt_pi (by norm_num) (by linarith [Real.pi_gt_three])
    have h3 := h2.1
    simp at h3
    linarith
  · intro rd h1 h2
    have e : localAverage3 realOps rd 0 = localAverage3Branch realOps rd 0 1 2 0 1 0 2 := rfl
    rw [e, localAverage3Branch_second realOps rd 0 1 2 0 1 0 2 h1 h2]
  · intro rd h1 h2
    have e : localAverage3 realOps rd 2 = localAverage3Branch realOps rd 2 0 1 0 2 1 2 := rfl
    rw [e, localAverage3Branch_second realOps rd 2 0 1 0 2 1 2 h1 h2]

/-! ## The blend with the reference weights -/

theorem numVal_of_tenths {s : Str} {m : Int} (h : strtofDec s = (m, -1)) :
    numVal s = (m : ℝ) / 10 := by
  simp [numVal, h]
  ring

theorem peerStep_mid {F : Type} (M : FloatOps F) (rd : Registry) (i j : Fin 6) (acc : BlendAcc F)
    (h2 : M.le (distance M rd i j) (M.lit 2) = true)
    (h1 : M.le (distance M rd i j) (M.lit 1) = false) :
    peerStep M rd i acc j =
      { g_avg := (M.add acc.g_avg.1 (unitVec M rd j).2, M.add acc.g_avg.2 (unitVec M rd j).1)
        loc_positions := (M.add acc.loc_positions.1 (coordDif M rd i j 1),
          M.add acc.loc_positions.2 (coordDif M rd i j 2))
        seperation := acc.seperation
        num_neighbors := acc.num_neighbors + 1 } := by
  simp only [distance] at h1 h2
  simp [peerStep, h1, h2]

theorem norm_ne_zero (x y : ℝ) (h : x ≠ 0 ∨ y ≠ 0) : Real.sqrt (x * x + y * y) ≠ 0 := by
  have hpos : 0 < x * x + y * y := by
    rcases h with h | h
    · have := mul_self_pos.2 h
      have := mul_self_nonneg y
      linarith
    · have := mul_self_pos.2 h
      have := mul_self_nonneg x
      linarith
  exact (Real.sqrt_pos.2 hpos).ne'

/-- One normalise-and-scale step `z/norm * w` when the vector is not zero. -/
theorem realOps_scaled (x y z : ℝ) (w : ℚ) (h : x ≠ 0 ∨ y ≠ 0) :
    realOps.mul
      (realOps.div (some z)
        (realOps.sqrt
          (realOps.add (realOps.mul (some x) (some x)) (realOps.mul (some y) (some y)))))
      (realOps.lit w) = some (z / Real.sqrt (x * x + y * y) * (w : ℝ)) := by
  rw [realOps_norm, realOps_div, if_neg (norm_ne_zero x y h), realOps_lit, realOps_mul]

theorem meanHeading_real (a b : ℝ) (p q : RealNaN × RealNaN) (n : Int) (hn : 1 ≤ n)
    (hg : a ≠ 0 ∨ b ≠ 0) :
    ∃ a2 b2 : ℝ, (a2 ≠ 0 ∨ b2 ≠ 0) ∧
      meanHeading realOps
        { g_avg := (some a, some b), loc_positions := p, seperation := q, num_neighbors := n }
        = (some a2, some b2) := by
  unfold meanHeading
  by_cases h1 : n = 1
  · exact ⟨a, b, hg, by simp [h1]⟩
  · have hn0 : ((n : ℚ) : ℝ) ≠ 0 := by
      have : (n : ℝ) ≠ 0 := by
        have : (1 : ℝ) ≤ (n : ℝ) := by exact_mod_cast hn
        linarith
      simpa using this
    refine ⟨a / ((n : ℚ) : ℝ), b / ((n : ℚ) : ℝ), ?_, ?_⟩
    · rcases hg with h | h
      · exact Or.inl (div_ne_zero h hn0)
      · exact Or.inr (div_ne_zero h hn0)
    · simp only [h1, if_false, realOps_lit, realOps_div, if_neg hn0]

/-- In the idealised arithmetic, with the reference weights and three sums that are not
zero, `combined_theta` is the angle of the negated separation sum alone. -/
theorem blendFinish_pure_separation (a b p q u v : ℝ) (n : Int) (hn : 1 ≤ n)
    (hg : a ≠ 0 ∨ b ≠ 0) (hl : p ≠ 0 ∨ q ≠ 0) (hs : u ≠ 0 ∨ v ≠ 0) :
    (blendFinish realOps
      { g_avg := (some a, some b)
        loc_positions := (some p, some q)
        seperation := (some u, some v)
        num_neighbors := n }).combined_theta = some (Complex.arg ⟨-u, -v⟩) := by
  obtain ⟨a2, b2, hg2, hm⟩ :=
    meanHeading_real a b (some p, some q) (some u, some v) n hn hg
  rw [(blendFinish_terms realOps _).1]
  simp only [alignmentTerm, cohesionTerm, separationTerm, blendNorms, hm, realOps_neg,
    realOps_scaled _ _ _ _ hg2, realOps_scaled _ _ _ _ hl, realOps_scaled _ _ _ _ hs,
    realOps_add, realOps_atan2]
  have hN := norm_ne_zero u v hs
  have hNpos : 0 < Real.sqrt (u * u + v * v) :=
    lt_of_le_of_ne (Real.sqrt_nonneg _) (Ne.symm hN)
  have hr : (0 : ℝ) < 1 / (2 * Real.sqrt (u * u + v * v)) := by positivity
  have e : (⟨a2 / Real.sqrt (a2 * a2 + b2 * b2) * ((0 : ℚ) : ℝ)
        + -p / Real.sqrt (p * p + q * q) * ((0 : ℚ) : ℝ)
        + -u / Real.sqrt (u * u + v * v) * ((1 / 2 : ℚ) : ℝ),
      b2 / Real.sqrt (a2 * a2 + b2 * b2) * ((0 : ℚ) : ℝ)
        + -q / Real.sqrt (p * p + q * q) * ((0 : ℚ) : ℝ)
        + -v / Real.sqrt (u * u + v * v) * ((1 / 2 : ℚ) : ℝ)⟩ : ℂ)
      = ((1 / (2 * Real.sqrt (u * u + v * v)) : ℝ) : ℂ) * ⟨-u, -v⟩ := by
    apply Complex.ext
    · simp
      field_simp
    · simp
      field_simp
  rw [e, Complex.arg_real_mul _ hr]

/-- When the cohesion sum is zero its term is NaN, and so is `combined_theta`. -/
theorem blendFinish_zero_cohesion (acc : BlendAcc RealNaN)
    (h : acc.loc_positions = (some 0, some 0)) :
    (blendFinish realOps acc).combined_theta = none := by
  have hc : cohesionTerm realOps acc = (none, none) := by
    simp only [cohesionTerm, blendNorms, h, realOps_norm]
    simp [realOps_div]
  rw [(blendFinish_terms realOps acc).1, hc]
  simp

theorem balancedRegistry_update :
    updateRegistry 6 balancedRegistry (cStr balancedMessage) = (balancedRegistry, 0) := by
  decide

theorem shiftedRegistry_update :
    updateRegistry 6 shiftedRegistry (cStr balancedMessage) = (shiftedRegistry, 0) := by
  decide

theorem balancedRegistry_x (j : Fin 6) :
    numVal (balancedRegistry j 1) = ((![0, 10, -5, -5, 0, 30] j : ℤ) : ℝ) / 10 :=
  numVal_of_tenths ((by decide :
    ∀ j, strtofDec (balancedRegistry j 1) = (![0, 10, -5, -5, 0, 30] j, -1)) j)

theorem balancedRegistry_y (j : Fin 6) :
    numVal (balancedRegistry j 2) = ((![0, 0, 10, -10, -30, 0] j : ℤ) : ℝ) / 10 :=
  numVal_of_tenths ((by decide :
    ∀ j, strtofDec (balancedRegistry j 2) = (![0, 0, 10, -10, -30, 0] j, -1)) j)

theorem balancedRegistry_theta (j : Fin 6) : numVal (balancedRegistry j 3) = 0 := by
  rw [numVal_of_dec ((by decide : ∀ j, strtofDec (balancedRegistry j 3) = (0, 0)) j)]
  simp

theorem shiftedRegistry_x (j : Fin 6) :
    numVal (shiftedRegistry j 1) = ((![0, 10, -5, -5, 0, 30] j : ℤ) : ℝ) / 10 :=
  numVal_of_tenths ((by decide :
    ∀ j, strtofDec (shiftedRegistry j 1) = (![0, 10, -5, -5, 0, 30] j, -1)) j)

theorem shiftedRegistry_y (j : Fin 6) :
    numVal (shiftedRegistry j 2) = ((![0, 0, 30, -10, -30, 0] j : ℤ) : ℝ) / 10 :=
  numVal_of_tenths ((by decide :
    ∀ j, strtofDec (shiftedRegistry j 2) = (![0, 0, 30, -10, -30, 0] j, -1)) j)

theorem shiftedRegistry_theta (j : Fin 6) : numVal (shiftedRegistry j 3) = 0 := by
  rw [numVal_of_dec ((by decide : ∀ j, strtofDec (shiftedRegistry j 3) = (0, 0)) j)]
  simp

/-- In `balancedRegistry` the slots 1, 2 and 3 are within distance 2 of slot 0, and slot
1 alone is within distance 1. -/
theorem balancedRegistry_within (j : Fin 6) (hj : j ≠ 0) :
    realOps.le (distance realOps balancedRegistry 0 j) (realOps.lit 2)
      = decide (j = 1 ∨ j = 2 ∨ j = 3) ∧
    realOps.le (distance realOps balancedRegistry 0 j) (realOps.lit 1) = decide (j = 1) := by
  constructor
  · rw [Bool.eq_iff_iff, within_iff _ _ _ _ (by norm_num), balancedRegistry_x,
      balancedRegistry_x, balancedRegistry_y, balancedRegistry_y]
    fin_cases j <;> simp [vec6_five] at hj ⊢ <;> norm_num
  · rw [Bool.eq_iff_iff, within_iff _ _ _ _ (by norm_num), balancedRegistry_x,
      balancedRegistry_x, balancedRegistry_y, balancedRegistry_y]
    fin_cases j <;> simp [vec6_five] at hj ⊢ <;> norm_num

/-- In `shiftedRegistry` the slots 1 and 3 are within distance 2 of slot 0, and slot 1
alone is within distance 1. -/
theorem shiftedRegistry_within (j : Fin 6) (hj : j ≠ 0) :
    realOps.le (distance realOps shiftedRegistry 0 j) (realOps.lit 2)
      = decide (j = 1 ∨ j = 3) ∧
    realOps.le (distance realOps shiftedRegistry 0 j) (realOps.lit 1) = decide (j = 1) := by
  constructor
  · rw [Bool.eq_iff_iff, within_iff _ _ _ _ (by norm_num), shiftedRegistry_x,
      shiftedRegistry_x, shiftedRegistry_y, shiftedRegistry_y]
    fin_cases j <;> simp [vec6_five] at hj ⊢ <;> norm_num
  · rw [Bool.eq_iff_iff, within_iff _ _ _ _ (by norm_num), shiftedRegistry_x,
      shiftedRegistry_x, shiftedRegistry_y, shiftedRegistry_y]
    fin_cases j <;> simp [vec6_five] at hj ⊢ <;> norm_num

theorem balancedRegistry_sums :
    blendSums realOps balancedRegistry 0 =
      { g_avg := (some 0, some 4)
        loc_positions := (some 0, some 0)
        seperation := (some (-1), some 0)
        num_neighbors := 4 } := by
  have w := fun j hj => balancedRegistry_within j hj
  simp only [blendSums, peersOf, if_true, List.foldl]
  rw [peerStep_sep realOps _ _ _ _ ((w 1 (by decide)).1.trans (by decide))
      ((w 1 (by decide)).2.trans (by decide)),
    peerStep_mid realOps _ _ _ _ ((w 2 (by decide)).1.trans (by decide))
      ((w 2 (by decide)).2.trans (by decide)),
    peerStep_mid realOps _ _ _ _ ((w 3 (by decide)).1.trans (by decide))
      ((w 3 (by decide)).2.trans (by decide)),
    peerStep_far realOps _ _ _ _ ((w 4 (by decide)).1.trans (by decide)),
    peerStep_far realOps _ _ _ _ ((w 5 (by decide)).1.trans (by decide))]
  simp [blendStart, unitVec_real, coordDif_real, balancedRegistry_x, balancedRegistry_y,
    balancedRegistry_theta]
  norm_num

theorem shiftedRegistry_sums :
    blendSums realOps shiftedRegistry 0 =
      { g_avg := (some 0, some 3)
        loc_positions := (some (-1 / 2), some 1)
        seperation := (some (-1), some 0)
        num_neighbors := 3 } := by
  have w := fun j hj => shiftedRegistry_within j hj
  simp only [blendSums, peersOf, if_true, List.foldl]
  rw [peerStep_sep realOps _ _ _ _ ((w 1 (by decide)).1.trans (by decide))
      ((w 1 (by decide)).2.trans (by decide)),
    peerStep_far realOps _ _ _ _ ((w 2 (by decide)).1.trans (by decide)),
    peerStep_mid realOps _ _ _ _ ((w 3 (by decide)).1.trans (by decide))
      ((w 3 (by decide)).2.trans (by decide)),
    peerStep_far realOps _ _ _ _ ((w 4 (by decide)).1.trans (by decide)),
    peerStep_far realOps _ _ _ _ ((w 5 (by decide)).1.trans (by decide))]
  simp [blendStart, unitVec_real, coordDif_real, shiftedRegistry_x, shiftedRegistry_y,
    shiftedRegistry_theta]
  norm_num

/-- C25 (the code at the failing input): two registries of six rovers with heading 0
differ only in the y text of slot 2, which is farther than 1 from slot 0 in both;
slot 1 at (1, 0) is the only slot within distance 1 of slot 0, and the separation sum
is (-1, 0) in both, so the angle of the negated separation sum is 0 in both.  In the
first registry the displacements of the slots within distance 2 add up to (0, 0),
the cohesion magnitude is 0 and `combined_theta` is NaN after a broadcast of slot 0;
in the second the cohesion sum is (-0.5, 1) and `combined_theta` is 0. -/
theorem C25_zero_sum_breaks_pure_separation :
    (∀ (j : Fin 6) (k : Fin 4), ¬ (j = 2 ∧ k = 2) →
      balancedRegistry j k = shiftedRegistry j k) ∧
    realOps.le (distance realOps balancedRegistry 0 2) (realOps.lit 1) = false ∧
    realOps.le (distance realOps shiftedRegistry 0 2) (realOps.lit 1) = false ∧
    (poseHandler realOps (stateOf realOps 6 balancedRegistry) balancedMessage).1.rover_data
      = balancedRegistry ∧
    (poseHandler realOps (stateOf realOps 6 shiftedRegistry) balancedMessage).1.rover_data
      = shiftedRegistry ∧
    poseIndex (stateOf realOps 6 balancedRegistry) balancedMessage = 0 ∧
    poseIndex (stateOf realOps 6 shiftedRegistry) balancedMessage = 0 ∧
    (blendSums realOps balancedRegistry 0).seperation = (some (-1), some 0) ∧
    (blendSums realOps shiftedRegistry 0).seperation = (some (-1), some 0) ∧
    realOps.atan2 (realOps.neg (some 0)) (realOps.neg (some (-1))) = some 0 ∧
    (blendSums realOps balancedRegistry 0).loc_positions = (some 0, some 0) ∧
    (blendSums realOps shiftedRegistry 0).loc_positions = (some (-1 / 2), some 1) ∧
    (poseHandler realOps (stateOf realOps 6 balancedRegistry)
      balancedMessage).1.combined_theta = none ∧
    (poseHandler realOps (stateOf realOps 6 shiftedRegistry)
      balancedMessage).1.combined_theta = some 0 := by
  have hpa := poseHandler_six realOps (stateOf realOps 6 balancedRegistry) balancedMessage rfl
  have hua : updateRegistry 6 (stateOf realOps 6 balancedRegistry).rover_data
      (cStr balancedMessage) = (balancedRegistry, 0) := balancedRegistry_update
  rw [hua] at hpa
  have hpb := poseHandler_six realOps (stateOf realOps 6 shiftedRegistry) balancedMessage rfl
  have hub : updateRegistry 6 (stateOf realOps 6 shiftedRegistry).rover_data
      (cStr balancedMessage) = (shiftedRegistry, 0) := shiftedRegistry_update
  rw [hub] at hpb
  have hzero : realOps.atan2 (realOps.neg (some 0)) (realOps.neg (some (-1))) = some 0 := by
    rw [realOps_neg, realOps_neg, realOps_atan2]
    norm_num
    exact arg_of_nonneg 1 (by norm_num)
  refine ⟨by decide, ?_, ?_, ?_, ?_, ?_, ?_, ?_, ?_, hzero, ?_, ?_, ?_, ?_⟩
  · rw [(balancedRegistry_within 2 (by decide)).2]
    decide
  · rw [(shiftedRegistry_within 2 (by decide)).2]
    decide
  · rw [hpa]
  · rw [hpb]
  · show (updateRegistry 6 (stateOf realOps 6 balancedRegistry).rover_data
      (cStr balancedMessage)).2 = 0
    rw [hua]
  · show (updateRegistry 6 (stateOf realOps 6 shiftedRegistry).rover_data
      (cStr balancedMessage)).2 = 0
    rw [hub]
  · rw [balancedRegistry_sums]
  · rw [shiftedRegistry_sums]
  · rw [balancedRegistry_sums]
  · rw [shiftedRegistry_sums]
  · rw [hpa]
    dsimp only
    rw [blend6_eq_sums]
    exact blendFinish_zero_cohesion _ (by rw [balancedRegistry_sums])
  · rw [hpb]
    dsimp only
    rw [blend6_eq_sums, shiftedRegistry_sums,
      blendFinish_pure_separation 0 3 (-1 / 2) 1 (-1) 0 3 (by norm_num) (Or.inr (by norm_num))
        (Or.inr (by norm_num)) (Or.inl (by norm_num))]
    norm_num
    exact arg_of_nonneg 1 (by norm_num)

/-! ## The sender and the receiver -/

/-- C31: for every state, message and fleet size, and any two values of the rover's own
identity `rover_name`, `poseHandler` selects the same slot and leaves the same
registry, `glob_average`, `local_average`, `local_average_position` and
`combined_theta`.  For a fleet of 6, `combined_theta` is the blend of the branch for
the selected index, and whenever the loop finds a slot for the message that slot
carries the identity token of the message. -/
theorem C31_blend_is_for_the_sender {F : Type} (M : FloatOps F) (st : State F) (msg : Str)
    (name1 name2 : Str) :
    poseIndex { st with rover_name := name1 } msg
      = poseIndex { st with rover_name := name2 } msg ∧
    (poseHandler M { st with rover_name := name1 } msg).1.rover_data
      = (poseHandler M { st with rover_name := name2 } msg).1.rover_data ∧
    (poseHandler M { st with rover_name := name1 } msg).1.combined_theta
      = (poseHandler M { st with rover_name := name2 } msg).1.combined_theta ∧
    (poseHandler M { st with rover_name := name1 } msg).1.local_average
      = (poseHandler M { st with rover_name := name2 } msg).1.local_average ∧
    (poseHandler M { st with rover_name := name1 } msg).1.glob_average
      = (poseHandler M { st with rover_name := name2 } msg).1.glob_average ∧
    (poseHandler M { st with rover_name := name1 } msg).1.local_average_position
      = (poseHandler M { st with rover_name := name2 } msg).1.local_average_position ∧
    (st.n_o_r = 6 →
      (poseHandler M st msg).1.combined_theta
        = (blend6 M (poseHandler M st msg).1.rover_data (poseIndex st msg)).combined_theta) ∧
    ((∃ i : Fin 6, i.val < st.n_o_r ∧
        (st.rover_data i 0 = [] ∨ st.rover_data i 0 = nameOf (cStr msg))) →
      (poseHandler M st msg).1.rover_data (poseIndex st msg) 0 = nameOf (cStr msg)) := by
  have key : ∀ name : Str,
      (poseHandler M { st with rover_name := name } msg).1
        = { (poseHandler M st msg).1 with rover_name := name } := by
    intro name
    unfold poseHandler
    by_cases h3 : st.n_o_r = 3
    · by_cases h0 : (updateRegistry 3 st.rover_data (cStr msg)).2 = 0 <;> simp [h3, h0]
    · by_cases h6 : st.n_o_r = 6 <;> simp [h3, h6]
  refine ⟨rfl, ?_, ?_, ?_, ?_, ?_, ?_, ?_⟩
  · rw [key name1, key name2]
  · rw [key name1, key name2]
  · rw [key name1, key name2]
  · rw [key name1, key name2]
  · rw [key name1, key name2]
  · intro h6
    have hidx : poseIndex st msg = (updateRegistry 6 st.rover_data (cStr msg)).2 := by
      show (updateRegistry st.n_o_r st.rover_data (cStr msg)).2 = _
      rw [h6]
    have hd : (poseHandler M st msg).1.rover_data
        = (updateRegistry 6 st.rover_data (cStr msg)).1 := by
      rw [(poseHandler_registry M st msg).1, h6]
    rw [hd, hidx, poseHandler_six M st msg h6]
  · intro hslot
    rw [(poseHandler_registry M st msg).1]
    exact updateRegistry_selected_name st.n_o_r st.rover_data (cStr msg) hslot

/-! ## The shape of the registry -/

/-- C34: in every state reached from the all-empty registry by calls of `poseHandler`,
the claimed slots form a prefix: if slot i has an empty name, every slot j after it
(in particular every j with i < j < n_o_r) has an empty name. -/
theorem C34_claimed_slots_form_prefix {F : Type} (M : FloatOps F) (st : State F)
    (h : Reachable M st) (i j : Fin 6) (hij : i < j) (hi : st.rover_data i 0 = []) :
    st.rover_data j 0 = [] :=
  (registryInv_reachable M st h).1 i j hij hi

theorem C34_claimed_slots_form_prefix_witness :
    (poseHandler realOps (stateOf realOps 6 emptyRegistry) secondMessage).1.rover_data 1 0
        = [] ∧
    (poseHandler realOps (stateOf realOps 6 emptyRegistry) secondMessage).1.rover_data 2 0
        = [] := by
  have h1 : (poseHandler realOps (stateOf realOps 6 emptyRegistry) secondMessage).1.rover_data
      1 0 = [] := by
    rw [(poseHandler_registry realOps _ _).1]
    show (updateRegistry 6 emptyRegistry (cStr secondMessage)).1 1 0 = []
    decide
  exact ⟨h1, C34_claimed_slots_form_prefix realOps
    (poseHandler realOps (stateOf realOps 6 emptyRegistry) secondMessage).1
    (Reachable.pose _ secondMessage (Reachable.start _ rfl)) 1 2 (by decide) h1⟩

/-- C35: for every state and message and every fleet size with 1 <= n_o_r <= 6, the
selection loop visits only the indices below `n_o_r`, the selected index is below
`n_o_r` and so below 6, the size of the array, and when no slot below `n_o_r` is
empty or holds the identity of the message the index is 0. -/
theorem C35_selected_index_in_bounds {F : Type} (st : State F) (msg : Str)
    (h1 : 1 ≤ st.n_o_r) (h6 : st.n_o_r ≤ 6) :
    (∀ i ∈ loopIndices st.n_o_r, i.val < st.n_o_r ∧ i.val < 6) ∧
    (poseIndex st msg).val < st.n_o_r ∧
    (poseIndex st msg).val < 6 ∧
    ((∀ j : Fin 6, j.val < st.n_o_r →
        st.rover_data j 0 ≠ [] ∧ st.rover_data j 0 ≠ nameOf (cStr msg)) →
      poseIndex st msg = 0) := by
  have hlt : (poseIndex st msg).val < st.n_o_r :=
    updateRegistry_index_lt st.n_o_r st.rover_data (cStr msg) h1
  refine ⟨fun i hi => ⟨(mem_loopIndices _ i).1 hi, i.isLt⟩, hlt, lt_of_lt_of_le hlt h6, ?_⟩
  intro hall
  show (updateRegistry st.n_o_r st.rover_data (cStr msg)).2 = 0
  rw [updateRegistry_index]
  rcases slotLoop_loopIndices (nameOf (cStr msg)) st.rover_data st.n_o_r with
    ⟨i, hin, _, hi, _⟩ | ⟨_, hres⟩
  · rcases hi with hi | hi
    · exact absurd hi (hall i hin).1
    · exact absurd hi (hall i hin).2
  · rw [hres]

theorem C35_selected_index_in_bounds_witness :
    (poseIndex (stateOf realOps 6 soloRegistry) strangerMessage).val < 6 ∧
    poseIndex (stateOf realOps 6 soloRegistry) strangerMessage = 0 :=
  ⟨(C35_selected_index_in_bounds (stateOf realOps 6 soloRegistry) strangerMessage
      (by decide) (by decide)).2.1,
    (C35_selected_index_in_bounds (stateOf realOps 6 soloRegistry) strangerMessage
      (by decide) (by decide)).2.2.2 (by decide)⟩

/-! ## Slots that were never written -/

/-- The characters the stripping loop removes are the letters, the two parentheses and
the space. -/
theorem mem_remove_char (c : Char) :
    remove_char.contains c = (referenceLetters.contains c || c == '(' || c == ')' || c == ' ') := by
  have h12 : ∀ d ∈ remove_char, d ∈ referenceLetters ++ ['(', ')', ' '] := by decide
  have h21 : ∀ d ∈ referenceLetters ++ ['(', ')', ' '], d ∈ remove_char := by decide
  have e : c ∈ remove_char ↔ c ∈ referenceLetters ++ ['(', ')', ' '] := ⟨h12 c, h21 c⟩
  rw [Bool.eq_iff_iff]
  have e2 : ∀ l : List Char, l.contains c = true ↔ c ∈ l := fun l => by simp
  simp only [Bool.or_eq_true, beq_iff_eq, e2]
  rw [e]
  simp only [List.mem_append, List.mem_cons, List.mem_singleton, List.not_mem_nil, or_false]
  tauto

theorem stripChars_reference (m : Str) : stripChars m = referenceStrip m := by
  rw [stripChars_eq_filter, referenceStrip]
  apply List.filter_congr
  intro c _
  rw [mem_remove_char]

/-- A text with a comma is the part before the first comma, the comma, and the rest. -/
theorem split_at_comma (s : Str) (h : ',' ∈ s) :
    s = s.takeWhile (fun c => c != ',') ++ ',' :: (s.dropWhile (fun c => c != ',')).tail ∧
    ',' ∉ s.takeWhile (fun c => c != ',') := by
  induction s with
  | nil => exact absurd h (List.not_mem_nil _)
  | cons c t ih =>
    by_cases hc : c = ','
    · subst hc
      simp
    · have ht : ',' ∈ t := by
        rcases List.mem_cons.1 h with h1 | h1
        · exact absurd h1.symm hc
        · exact h1
      obtain ⟨e1, e2⟩ := ih ht
      have hb : (c != ',') = true := by simp [hc]
      have k1 : (c :: t).takeWhile (fun c => c != ',') = c :: t.takeWhile (fun c => c != ',') := by
        simp [List.takeWhile_cons, hc]
      have k2 : (c :: t).dropWhile (fun c => c != ',') = t.dropWhile (fun c => c != ',') := by
        simp [List.dropWhile_cons, hc]
      rw [k1, k2]
      refine ⟨?_, ?_⟩
      · rw [List.cons_append, ← e1]
      · intro hm
        rcases List.mem_cons.1 hm with h1 | h1
        · exact hc h1.symm
        · exact e2 h1

/-- The two-step `find`, `substr`, `erase` of the handler is one step of the reference
decoder, for texts shorter than `2^31` characters. -/
theorem splitField_reference (s : Str) (hl : s.length < 2 ^ 31) :
    splitField s = referenceSplit s := by
  unfold referenceSplit
  by_cases h : ',' ∈ s
  · rw [if_pos h]
    obtain ⟨e1, e2⟩ := split_at_comma s h
    have hlen : (s.takeWhile (fun c => c != ',')).length < 2 ^ 31 :=
      lt_of_le_of_lt (List.takeWhile_sublist _).length_le hl
    conv_lhs => rw [e1]
    exact splitField_comma _ _ e2 hlen
  · rw [if_neg h]
    exact splitField_no_comma s h hl

theorem referenceSplit_length (s : Str) : (referenceSplit s).2.length ≤ s.length := by
  unfold referenceSplit
  by_cases h : ',' ∈ s
  · rw [if_pos h]
    simp only [List.length_tail]
    have := (List.dropWhile_sublist (fun c => c != ',') (l := s)).length_le
    omega
  · rw [if_neg h]

/-- C33 (counterexample): the data of the message is `a (1,2,3)`, a NUL character and
`,9`.  The handler works on the text before the NUL and stores x = 1, y = 2 and
theta = 3 for `a`; the reference definition applied to the whole message gives the
theta text `3`, NUL, `,9`. -/
theorem C33_counterexample :
    cStr nulMessage = "a (1,2,3)".toList ∧
    poseIndex (stateOf realOps 6 emptyRegistry) nulMessage = 0 ∧
    (poseHandler realOps (stateOf realOps 6 emptyRegistry) nulMessage).1.rover_data 0
      = ["a".toList, "1".toList, "2".toList, "3".toList].get ∧
    referenceDecode nulMessage = ("1".toList, "2".toList, '3' :: '\x00' :: ",9".toList) ∧
    ((poseHandler realOps (stateOf realOps 6 emptyRegistry) nulMessage).1.rover_data 0 1,
      (poseHandler realOps (stateOf realOps 6 emptyRegistry) nulMessage).1.rover_data 0 2,
      (poseHandler realOps (stateOf realOps 6 emptyRegistry) nulMessage).1.rover_data 0 3)
      ≠ referenceDecode nulMessage := by
  have hd : (poseHandler realOps (stateOf realOps 6 emptyRegistry) nulMessage).1.rover_data
      = (updateRegistry 6 emptyRegistry (cStr nulMessage)).1 :=
    (poseHandler_registry realOps _ _).1
  rw [hd]
  refine ⟨by decide, ?_, by decide, by decide, by decide⟩
  show (updateRegistry 6 emptyRegistry (cStr nulMessage)).2 = 0
  decide

/-- C33 (amended): let m be the text of the message up to its first NUL character and s
be m with every letter, `(`, `)` and space removed, identity included.  When s is
shorter than 2^31 characters, `poseHandler` stores in the selected slot the three
texts of the reference decoder: x is the part of s before its first comma (all of s
without one), y is the same part of the rest, and theta is what is left after that;
with no comma in s all three texts are s.  The handler has no path that rejects a
message: the three texts are stored whatever the message is. -/
theorem C33_decoder_matches_reference {F : Type} (M : FloatOps F) (st : State F) (data : Str)
    (hlen : (stripChars (cStr data)).length < 2 ^ 31) :
    stripChars (cStr data) = referenceStrip (cStr data) ∧
    ((poseHandler M st data).1.rover_data (poseIndex st data) 1,
      (poseHandler M st data).1.rover_data (poseIndex st data) 2,
      (poseHandler M st data).1.rover_data (poseIndex st data) 3)
      = referenceDecode (cStr data) ∧
    (',' ∉ referenceStrip (cStr data) →
      (poseHandler M st data).1.rover_data (poseIndex st data) 1 = referenceStrip (cStr data) ∧
      (poseHandler M st data).1.rover_data (poseIndex st data) 2 = referenceStrip (cStr data) ∧
      (poseHandler M st data).1.rover_data (poseIndex st data) 3
        = referenceStrip (cStr data)) := by
  have hs := stripChars_reference (cStr data)
  have hf := updateRegistry_fields st.n_o_r st.rover_data (cStr data)
  have hd := (poseHandler_registry M st data).1
  have hidx : poseIndex st data = (updateRegistry st.n_o_r st.rover_data (cStr data)).2 := rfl
  have h1 : splitField (stripChars (cStr data)) = referenceSplit (referenceStrip (cStr data)) := by
    rw [splitField_reference _ hlen, hs]
  have hl2 : (referenceSplit (referenceStrip (cStr data))).2.length < 2 ^ 31 := by
    have := referenceSplit_length (referenceStrip (cStr data))
    rw [hs] at hlen
    omega
  have h2 : splitField (referenceSplit (referenceStrip (cStr data))).2
      = referenceSplit (referenceSplit (referenceStrip (cStr data))).2 :=
    splitField_reference _ hl2
  have hall : ((poseHandler M st data).1.rover_data (poseIndex st data) 1,
      (poseHandler M st data).1.rover_data (poseIndex st data) 2,
      (poseHandler M st data).1.rover_data (poseIndex st data) 3)
      = referenceDecode (cStr data) := by
    rw [hd, hidx, hf.1, hf.2.1, hf.2.2, h1, h2]
    rfl
  refine ⟨hs, hall, ?_⟩
  intro hno
  have hr : referenceDecode (cStr data)
      = (referenceStrip (cStr data), referenceStrip (cStr data), referenceStrip (cStr data)) := by
    simp [referenceDecode, referenceSplit, hno]
  rw [hr] at hall
  exact ⟨congrArg (fun p => p.1) hall, congrArg (fun p => p.2.1) hall,
    congrArg (fun p => p.2.2) hall⟩

theorem C33_decoder_matches_reference_witness :
    ((poseHandler realOps (stateOf realOps 6 emptyRegistry) shortMessage).1.rover_data
        (poseIndex (stateOf realOps 6 emptyRegistry) shortMessage) 1,
      (poseHandler realOps (stateOf realOps 6 emptyRegistry) shortMessage).1.rover_data
        (poseIndex (stateOf realOps 6 emptyRegistry) shortMessage) 2,
      (poseHandler realOps (stateOf realOps 6 emptyRegistry) shortMessage).1.rover_data
        (poseIndex (stateOf realOps 6 emptyRegistry) shortMessage) 3)
      = referenceDecode (cStr shortMessage) ∧
    referenceDecode (cStr shortMessage) = ("5".toList, "5".toList, "5".toList) :=
  ⟨(C33_decoder_matches_reference realOps (stateOf realOps 6 emptyRegistry) shortMessage
      (by decide)).2.1, by decide⟩

end Mobility
